import Mathlib

/-!
EasyTAG tag codec core: the Vorbis comment adapter.

A shallow embedding of `src/tags/ogg_tag.c`.

* A C string is the list of its bytes before the terminating NUL; reading at
  or past the end of the list yields the terminator `0`.
* A `vorbis_comment` is the ordered list of its `user_comments`.
* `NULL` pointers are `none`.
* Byte buffers (decoded pictures) are lists of bytes that may contain `0`.
* File I/O (`vcedit_open`, `vcedit_write`) is outside the model: the reader is
  the function from the comment list to the tag, the writer is the function
  from the tag to the comment list handed to `vcedit_write`.
-/

namespace EasyTag

/-- One byte, `0 .. 255`, kept as a natural number. -/
abbrev Byte := Nat

/-- A C string: the bytes before the terminating NUL. -/
abbrev Str := List Nat

/-- The bytes of an ASCII literal. -/
def ascii (s : String) : Str := s.data.map Char.toNat

/-! ## libc, GLib and libvorbis primitives used by the codec -/

/-- C locale `toupper`. -/
def toupper (c : Nat) : Nat := if 97 ≤ c ∧ c ≤ 122 then c - 32 else c

/-- C locale `tolower`. -/
def tolower (c : Nat) : Nat := if 65 ≤ c ∧ c ≤ 90 then c + 32 else c

/-- The byte at the head of a C string (`0` at the terminator). -/
def peek (s : Str) : Nat := s.headD 0

/-- libvorbis `tagcompare (s1, s2, n)`: `0` when the first `n` bytes agree up
to case, non-zero otherwise. -/
def tagcompare : Str → Str → Nat → Nat
  | _, _, 0 => 0
  | s1, s2, n + 1 =>
    if toupper (peek s1) ≠ toupper (peek s2) then 1
    else tagcompare s1.tail s2.tail n

/-- The `fulltag` that `vorbis_comment_query` builds: the tag followed by `=`. -/
def fulltag (tag : Str) : Str := tag ++ [61]

/-- libvorbis `vorbis_comment_query (vc, tag, count)`: the value (a pointer
just past `tag=`) of the `count`-th comment whose first bytes match `tag=`
up to case, or `NULL`. -/
def vorbis_comment_query : List Str → Str → Nat → Option Str
  | [], _, _ => none
  | c :: rest, tag, count =>
    if tagcompare c (fulltag tag) (fulltag tag).length = 0 then
      match count with
      | 0 => some (c.drop (fulltag tag).length)
      | k + 1 => vorbis_comment_query rest tag k
    else vorbis_comment_query rest tag count

/-- The effect on the comment list of storing NUL through a pointer obtained
from `vorbis_comment_query (vc, tag, 0)` at offset `k` in the value: the
first matching comment is cut after `tag=` plus `k` bytes. -/
def truncate_first : List Str → Str → Nat → List Str
  | [], _, _ => []
  | c :: rest, tag, k =>
    if tagcompare c (fulltag tag) (fulltag tag).length = 0 then
      c.take ((fulltag tag).length + k) :: rest
    else c :: truncate_first rest tag k

/-- libc `strncasecmp (s1, s2, n)`. -/
def strncasecmp : Str → Str → Nat → Int
  | _, _, 0 => 0
  | s1, s2, n + 1 =>
    if tolower (peek s1) ≠ tolower (peek s2) then
      (tolower (peek s1) : Int) - (tolower (peek s2) : Int)
    else if peek s1 = 0 then 0
    else strncasecmp s1.tail s2.tail n

/-- GLib `g_utf8_skip` table: the length of the sequence a lead byte opens. -/
def g_utf8_skip (b : Nat) : Nat :=
  if b < 192 then 1 else if b < 224 then 2 else if b < 240 then 3
  else if b < 248 then 4 else if b < 252 then 5 else if b < 254 then 6 else 1

/-- The loop of `g_utf8_strlen (p, -1)`: step by `g_utf8_skip` and count,
until the terminator. The fuel bounds the number of steps. -/
def g_utf8_strlen_loop : Nat → Str → Nat
  | 0, _ => 0
  | _, [] => 0
  | fuel + 1, b :: rest => g_utf8_strlen_loop fuel (rest.drop (g_utf8_skip b - 1)) + 1

/-- GLib `g_utf8_strlen (p, -1)`. -/
def g_utf8_strlen (p : Str) : Nat := g_utf8_strlen_loop p.length p

/-- GLib `g_utf8_strchr (p, -1, c)` for an ASCII `c`: the offset of the first
occurrence of the byte, or `NULL`. -/
def g_utf8_strchr : Str → Nat → Option Nat
  | [], _ => none
  | b :: rest, c => if b = c then some 0 else (g_utf8_strchr rest c).map (· + 1)

/-- libc `isspace` in the C locale. -/
def isspace (c : Nat) : Bool := c = 32 ∨ (9 ≤ c ∧ c ≤ 13)

/-- The digit loop of `strtol` in base 10, on exact integers. -/
def atoi_digits : Str → Int → Int
  | [], acc => acc
  | b :: rest, acc =>
    if 48 ≤ b ∧ b ≤ 57 then atoi_digits rest (acc * 10 + ((b - 48 : Nat) : Int)) else acc

/-- Sign handling of `strtol`, after the leading white space. -/
def atoi_signed : Str → Int
  | 45 :: rest => - atoi_digits rest 0
  | 43 :: rest => atoi_digits rest 0
  | s => atoi_digits s 0

/-- The integer that a text denotes for `strtol` in base 10, before any range
is applied: skip white space, read an optional sign and the leading decimal
digits; `0` when there are none. -/
def strtol_exact : Str → Int
  | [] => 0
  | b :: rest => if isspace b then strtol_exact rest else atoi_signed (b :: rest)

/-- `LONG_MAX`, for a `long` of 64 bits. -/
def LONG_MAX : Int := 9223372036854775807

/-- `LONG_MIN`, for a `long` of 64 bits. -/
def LONG_MIN : Int := -9223372036854775808

/-- glibc `strtol (nptr, NULL, 10)`: a value beyond the range of `long` is
replaced by `LONG_MAX` or `LONG_MIN`. -/
def strtol (nptr : Str) : Int :=
  if strtol_exact nptr > LONG_MAX then LONG_MAX
  else if strtol_exact nptr < LONG_MIN then LONG_MIN
  else strtol_exact nptr

/-- The conversion `(int) x` of a `long`: the low 32 bits, read as a signed
value. -/
def int_of_long (x : Int) : Int := (x + 2147483648) % 4294967296 - 2147483648

/-- libc `atoi`, as glibc defines it: `(int) strtol (nptr, NULL, 10)`. -/
def atoi (nptr : Str) : Int := int_of_long (strtol nptr)

/-- Does `pat` occur at the head of `s`? -/
def starts_with : Str → Str → Bool
  | [], _ => true
  | _ :: _, [] => false
  | p :: ps, b :: bs => p = b && starts_with ps bs

/-- libc `strstr (s, pat)`: the offset of the first occurrence of `pat`. -/
def strstr : Str → Str → Option Nat
  | [], pat => if pat = [] then some 0 else none
  | b :: rest, pat =>
    if starts_with pat (b :: rest) then some 0 else (strstr rest pat).map (· + 1)

/-- The token loop of GLib `g_strsplit`, `while (--max_tokens && s)`: while
cuts remain and the delimiter occurs, emit the bytes before it and continue
after it; the remainder is the last token. -/
def g_strsplit_loop (delimiter : Str) : Nat → Str → List Str
  | 0, remainder => [remainder]
  | cuts + 1, remainder =>
    match strstr remainder delimiter with
    | none => [remainder]
    | some k =>
      remainder.take k :: g_strsplit_loop delimiter cuts (remainder.drop (k + delimiter.length))

/-- GLib `G_MAXINT`. -/
def G_MAXINT : Nat := 2147483647

/-- GLib `g_strsplit (string, delimiter, max_tokens)`: at most `max_tokens`
tokens (no limit when `max_tokens < 1`), the last holding the remainder; the
empty string gives no token at all. -/
def g_strsplit (string delimiter : Str) (max_tokens : Nat) : List Str :=
  if string = [] then []
  else g_strsplit_loop delimiter ((if max_tokens < 1 then G_MAXINT else max_tokens) - 1) string

/-- The scan of `g_utf8_validate`, byte by byte. The state is the number of
continuation bytes still due in the current sequence and the range allowed
for the next one (the range after the lead byte excludes overlong forms,
surrogates and code points beyond U+10FFFF). -/
def utf8_scan : Nat → Nat → Nat → Str → Bool
  | due, _, _, [] => due = 0
  | 0, _, _, b :: s =>
    if b < 128 then utf8_scan 0 128 191 s
    else if 194 ≤ b ∧ b ≤ 223 then utf8_scan 1 128 191 s
    else if b = 224 then utf8_scan 2 160 191 s
    else if b = 237 then utf8_scan 2 128 159 s
    else if 225 ≤ b ∧ b ≤ 239 then utf8_scan 2 128 191 s
    else if b = 240 then utf8_scan 3 144 191 s
    else if 241 ≤ b ∧ b ≤ 243 then utf8_scan 3 128 191 s
    else if b = 244 then utf8_scan 3 128 143 s
    else false
  | due + 1, lo, hi, b :: s =>
    if lo ≤ b ∧ b ≤ hi then utf8_scan due 128 191 s else false

/-- GLib `g_utf8_validate (str, -1, NULL)`: is the string well-formed UTF-8? -/
def g_utf8_validate (str : Str) : Bool := utf8_scan 0 128 191 str

/-! ## Data model -/

/-- The `EtPicture` record of `picture.h`: picture type, description (may be
`NULL`), advisory width and height, and the image payload. -/
structure EtPicture where
  type : Nat
  description : Option Str
  width : Nat
  height : Nat
  bytes : List Byte
  deriving DecidableEq, Repr

/-- Modelled from the spec: `et_picture_new` of `picture.c` builds the picture
record `(type, description, width, height, payload)` from its arguments. -/
def et_picture_new (type : Nat) (description : Str) (width height : Nat)
    (bytes : List Byte) : EtPicture :=
  { type := type, description := some description, width := width, height := height,
    bytes := bytes }

/-- Modelled from the spec: picture type `3` of `picture.h` is the front
cover. -/
def ET_PICTURE_TYPE_FRONT_COVER : Nat := 3

/-- The `File_Tag` record: the `saved` flag, the sixteen text fields, the
picture sequence (head first) and the list of unsupported comments. -/
structure File_Tag where
  saved : Bool
  title : Option Str
  artist : Option Str
  album_artist : Option Str
  album : Option Str
  disc_number : Option Str
  disc_total : Option Str
  year : Option Str
  track : Option Str
  track_total : Option Str
  genre : Option Str
  comment : Option Str
  composer : Option Str
  orig_artist : Option Str
  copyright : Option Str
  url : Option Str
  encoded_by : Option Str
  picture : List EtPicture
  other : List (Option Str)
  deriving DecidableEq, Repr

/-- A fresh tag as `et_file_tag_new` returns it: every pointer `NULL`, not
saved. -/
def et_file_tag_new : File_Tag :=
  { saved := false, title := none, artist := none, album_artist := none, album := none,
    disc_number := none, disc_total := none, year := none, track := none,
    track_total := none, genre := none, comment := none, composer := none,
    orig_artist := none, copyright := none, url := none, encoded_by := none,
    picture := [], other := [] }

/-- The `Picture_Format` enumeration of `picture.h`. -/
inductive Picture_Format where
  | PICTURE_FORMAT_JPEG
  | PICTURE_FORMAT_PNG
  | PICTURE_FORMAT_GIF
  | PICTURE_FORMAT_UNKNOWN
  deriving DecidableEq, Repr

/-- The functions and constants that `ogg_tag.c` uses from other units of the
program (`charset.c`, `misc.c`, `picture.c`) and from GLib and gdk-pixbuf.
They are parameters of the embedding. -/
structure Collab where
  /-- The sanitizer of `charset.c`: returns a valid UTF-8 copy. -/
  Try_To_Validate_Utf8_String : Str → Str
  /-- The formatter of `misc.c`, applied to the result of `atoi`. -/
  et_disc_number_to_string : Int → Str
  /-- The formatter of `misc.c`, applied to the result of `atoi`. -/
  et_track_number_to_string : Int → Str
  /-- GLib base64 decoding of a comment value. -/
  g_base64_decode : Str → List Byte
  /-- GLib base64 encoding of a byte buffer. -/
  g_base64_encode : List Byte → Str
  /-- The sentinel that closes the `EtPictureType` enumeration. -/
  ET_PICTURE_TYPE_UNDEFINED : Nat
  /-- Format sniffing of `picture.c`, from the payload. -/
  Picture_Format_From_Data : List Byte → Picture_Format
  /-- The MIME string of `picture.c` for a format. -/
  Picture_Mime_Type_String : Picture_Format → Str
  /-- The gdk-pixbuf load and save-as-PNG chain; `none` when a step fails. -/
  gdk_pixbuf_to_png : List Byte → Option (List Byte)

/-- `MULTIFIELD_SEPARATOR`, the three bytes `" - "`. -/
def MULTIFIELD_SEPARATOR : Str := ascii " - "

/-! ## Structured picture blocks (`METADATA_BLOCK_PICTURE`)

Every access to the decoded buffer is checked: a read outside the buffer and
an unsigned subtraction below zero are reported as a `Fault`. -/

/-- A memory-safety violation of the C code. -/
inductive Fault where
  | out_of_bounds
  | underflow
  deriving DecidableEq, Repr

/-- The loop of `read_guint32_from_byte`: `read = (read << 8) + str[i]` in
32-bit unsigned arithmetic, for `count` bytes from index `i`. -/
def read_guint32_loop (str : List Byte) : Nat → Nat → Nat → Except Fault Nat
  | 0, _, read => .ok read
  | count + 1, i, read =>
    match str[i]? with
    | none => .error .out_of_bounds
    | some b => read_guint32_loop str count (i + 1) ((read * 256 + b) % 2 ^ 32)

/-- The function `read_guint32_from_byte (str, start)`: the big-endian integer
held in the four bytes from `start`. -/
def read_guint32_from_byte (str : List Byte) (start : Nat) : Except Fault Nat :=
  read_guint32_loop str 4 start 0

/-- Unsigned (`gsize`) subtraction. -/
def gsize_sub (a b : Nat) : Except Fault Nat :=
  if b ≤ a then .ok (a - b) else .error .underflow

/-- libc `strncmp (&buf[pos], lit, n)` against a literal: `0` when the first
`n` bytes agree or both strings end before that. -/
def strncmp_at (buf : List Byte) : Nat → Str → Nat → Except Fault Int
  | _, _, 0 => .ok 0
  | pos, lit, n + 1 =>
    match buf[pos]? with
    | none => .error .out_of_bounds
    | some a =>
      if a ≠ peek lit then .ok ((a : Int) - (peek lit : Int))
      else if a = 0 then .ok 0
      else strncmp_at buf (pos + 1) lit.tail n

/-- GLib `g_strndup (&buf[pos], n)`: the bytes up to the first NUL, at most
`n` of them. -/
def g_strndup_at (buf : List Byte) : Nat → Nat → Except Fault Str
  | _, 0 => .ok []
  | pos, n + 1 =>
    match buf[pos]? with
    | none => .error .out_of_bounds
    | some b => if b = 0 then .ok [] else (g_strndup_at buf (pos + 1) n).map (b :: ·)

/-- GLib `g_bytes_new_from_bytes (bytes, offset, length)`. -/
def g_bytes_new_from_bytes (bytes : List Byte) (offset length : Nat) :
    Except Fault (List Byte) :=
  if offset + length ≤ bytes.length then .ok ((bytes.drop offset).take length)
  else .error .out_of_bounds

/-- The big-endian value that `read_guint32_from_byte` computes from the four
bytes at `pos`, a byte outside the buffer counting as `0`. -/
def be32 (buf : List Byte) (pos : Nat) : Nat :=
  ((((((0 * 256 + buf.getD pos 0) % 2 ^ 32) * 256 + buf.getD (pos + 1) 0) % 2 ^ 32) * 256
    + buf.getD (pos + 2) 0) % 2 ^ 32 * 256 + buf.getD (pos + 3) 0) % 2 ^ 32

/-- The MIME length field of a structured block: the integer at offset 4. -/
def block_mime_length (buf : List Byte) : Nat := be32 buf 4

/-- The description length field: the integer after the MIME bytes. -/
def block_description_length (buf : List Byte) : Nat := be32 buf (8 + block_mime_length buf)

/-- The data length field: the integer after the description and the four
picture dimension fields. -/
def block_data_length (buf : List Byte) : Nat :=
  be32 buf (28 + block_mime_length buf + block_description_length buf)

/-- The MIME test of the picture loop: `true` when all three `strncmp` calls
give non-zero, the case in which the block is dropped. -/
def mime_invalid (buf : List Byte) (bytes_pos mimelen : Nat) : Except Fault Bool := do
  let r1 ← strncmp_at buf bytes_pos (ascii "image/") mimelen
  if r1 ≠ 0 then
    let r2 ← strncmp_at buf bytes_pos (ascii "image/png") mimelen
    if r2 ≠ 0 then
      let r3 ← strncmp_at buf bytes_pos (ascii "image/jpeg") mimelen
      pure (decide (r3 ≠ 0))
    else pure false
  else pure false

/-- The body of the `METADATA_BLOCK_PICTURE` loop of
`et_add_file_tags_from_vorbis_comments`, from the base64-decoded buffer:
`some pic` when a picture is produced, `none` on `goto invalid_picture`. -/
def read_metadata_block_picture (E : Collab) (decoded_ustr : List Byte) :
    Except Fault (Option EtPicture) :=
  let decoded_size := decoded_ustr.length
  if decoded_size < 8 * 4 then pure none
  else do
    let type ← read_guint32_from_byte decoded_ustr 0
    if type ≥ E.ET_PICTURE_TYPE_UNDEFINED then pure none
    else do
      let mimelen ← read_guint32_from_byte decoded_ustr 4
      let room ← (gsize_sub decoded_size 8).bind (gsize_sub · (6 * 4))
      if mimelen > room then pure none
      else do
        let bad ← if mimelen > 0 then mime_invalid decoded_ustr 8 mimelen else pure false
        if bad then pure none
        else do
          let bytes_pos := 8 + mimelen
          let desclen ← read_guint32_from_byte decoded_ustr bytes_pos
          let bytes_pos := bytes_pos + 4
          let room ← (gsize_sub decoded_size bytes_pos).bind (gsize_sub · (5 * 4))
          if desclen > room then pure none
          else do
            let description ← g_strndup_at decoded_ustr bytes_pos desclen
            let bytes_pos := bytes_pos + (desclen + 16)
            let data_size ← read_guint32_from_byte decoded_ustr bytes_pos
            let bytes_pos := bytes_pos + 4
            let room ← gsize_sub decoded_size bytes_pos
            if data_size > room then pure none
            else do
              let pic_bytes ← g_bytes_new_from_bytes decoded_ustr bytes_pos data_size
              pure (some (et_picture_new type description 0 0 pic_bytes))

/-! ## Reading: `et_add_file_tags_from_vorbis_comments` -/

/-- The assignment shared by the multi-valued loops: `g_strdup` into an empty
field, `g_strconcat (field, MULTIFIELD_SEPARATOR, string)` otherwise. -/
def append_value (field : Option Str) (string : Str) : Option Str :=
  match field with
  | none => some string
  | some old => some (old ++ MULTIFIELD_SEPARATOR ++ string)

/-- The loop `while ((string = vorbis_comment_query (vc, tag, field_num++)))`
written ten times in the source (title, artist, album artist, album, genre,
composer, original artist, copyright, URL, encoded-by). -/
def read_multi_loop (E : Collab) (vc : List Str) (tag : Str) :
    Nat → Nat → Option Str → Option Str
  | 0, _, field => field
  | fuel + 1, field_num, field =>
    match vorbis_comment_query vc tag field_num with
    | none => field
    | some string =>
      let string := E.Try_To_Validate_Utf8_String string
      read_multi_loop E vc tag fuel (field_num + 1)
        (if g_utf8_strlen string > 0 then append_value field string else field)

/-- A multi-valued loop run from `field_num = 0`; the loop ends within
`vc.length + 1` queries. -/
def read_multi (E : Collab) (vc : List Str) (tag : Str) (field : Option Str) : Option Str :=
  read_multi_loop E vc tag (vc.length + 1) 0 field

/-- The guard `(string = ...) != NULL && g_utf8_strlen (string, -1) > 0`: the
string when the guard holds. -/
def if_nonempty (string : Option Str) : Option Str :=
  match string with
  | none => none
  | some s => if g_utf8_strlen s > 0 then some s else none

/-- The disc number section: the updated comment list (the slash of the first
`DISCNUMBER` value is overwritten with NUL when the total is taken from it)
and the updated tag. -/
def read_disc (E : Collab) (vc : List Str) (t : File_Tag) : List Str × File_Tag :=
  match if_nonempty (vorbis_comment_query vc (ascii "DISCNUMBER") 0) with
  | none => (vc, t)
  | some string =>
    match if_nonempty (vorbis_comment_query vc (ascii "DISCTOTAL") 0) with
    | some string1 =>
      (vc, { t with disc_total := some (E.et_disc_number_to_string (atoi string1)),
                    disc_number := some (E.et_disc_number_to_string (atoi string)) })
    | none =>
      match g_utf8_strchr string 47 with
      | some k =>
        (truncate_first vc (ascii "DISCNUMBER") k,
         { t with disc_total := some (E.et_disc_number_to_string (atoi (string.drop (k + 1)))),
                  disc_number := some (E.et_disc_number_to_string (atoi (string.take k))) })
      | none => (vc, { t with disc_number := some (E.et_disc_number_to_string (atoi string)) })

/-- The year section. -/
def read_year (vc : List Str) (t : File_Tag) : File_Tag :=
  match if_nonempty (vorbis_comment_query vc (ascii "DATE") 0) with
  | none => t
  | some string => { t with year := some string }

/-- The track section: as for the disc, but the track itself is the raw
text. -/
def read_track (E : Collab) (vc : List Str) (t : File_Tag) : List Str × File_Tag :=
  match if_nonempty (vorbis_comment_query vc (ascii "TRACKNUMBER") 0) with
  | none => (vc, t)
  | some string =>
    match if_nonempty (vorbis_comment_query vc (ascii "TRACKTOTAL") 0) with
    | some string1 =>
      (vc, { t with track_total := some (E.et_track_number_to_string (atoi string1)),
                    track := some string })
    | none =>
      match g_utf8_strchr string 47 with
      | some k =>
        (truncate_first vc (ascii "TRACKNUMBER") k,
         { t with track_total := some (E.et_track_number_to_string (atoi (string.drop (k + 1)))),
                  track := some (string.take k) })
      | none => (vc, { t with track := some string })

/-- The comment loop: at each index `DESCRIPTION` is queried first, `COMMENT`
only when it is missing, the empty key only when both are missing (the `||`
of the loop condition); the loop ends when all three are missing. -/
def read_comment_loop (E : Collab) (vc : List Str) : Nat → Nat → Option Str → Option Str
  | 0, _, field => field
  | fuel + 1, field_num, field =>
    let string2 := vorbis_comment_query vc (ascii "DESCRIPTION") field_num
    let string := if string2.isSome then none
      else vorbis_comment_query vc (ascii "COMMENT") field_num
    let string1 := if string2.isSome || string.isSome then none
      else vorbis_comment_query vc (ascii "") field_num
    if string2.isSome || string.isSome || string1.isSome then
      let string := string.map E.Try_To_Validate_Utf8_String
      let string1 := string1.map E.Try_To_Validate_Utf8_String
      let string2 := string2.map E.Try_To_Validate_Utf8_String
      read_comment_loop E vc fuel (field_num + 1)
        (match if_nonempty string2, if_nonempty string, if_nonempty string1 with
         | some s2, _, _ => append_value field s2
         | none, some s, _ => append_value field s
         | none, none, some s1 => append_value field s1
         | none, none, none => field)
    else field

/-- The comment section, from `field_num = 0`. -/
def read_comment (E : Collab) (vc : List Str) (field : Option Str) : Option Str :=
  read_comment_loop E vc (vc.length + 1) 0 field

/-- The picture type stored from a C `int`: the enumeration is unsigned. -/
def picture_type_of_int (n : Int) : Nat := (n % 2 ^ 32).toNat

/-- The legacy `COVERART` loop. The state is the `saved` flag and the pictures
chained so far through `prev_pic`. -/
def read_coverart_loop (E : Collab) (vc : List Str) :
    Nat → Nat → Bool × List EtPicture → Bool × List EtPicture
  | 0, _, st => st
  | fuel + 1, field_num, st =>
    match vorbis_comment_query vc (ascii "COVERART") field_num with
    | none => st
    | some string =>
      let bytes := E.g_base64_decode string
      let type := match vorbis_comment_query vc (ascii "COVERARTTYPE") field_num with
        | some s => picture_type_of_int (atoi s)
        | none => ET_PICTURE_TYPE_FRONT_COVER
      let description := match vorbis_comment_query vc (ascii "COVERARTDESCRIPTION") field_num with
        | some s => s
        | none => []
      read_coverart_loop E vc fuel (field_num + 1)
        (false, st.2 ++ [et_picture_new type description 0 0 bytes])

/-- The `METADATA_BLOCK_PICTURE` loop, on the same state. A block that is not
decoded to a picture takes the `invalid_picture` exit. -/
def read_block_loop (E : Collab) (vc : List Str) :
    Nat → Nat → Bool × List EtPicture → Bool × List EtPicture
  | 0, _, st => st
  | fuel + 1, field_num, st =>
    match vorbis_comment_query vc (ascii "METADATA_BLOCK_PICTURE") field_num with
    | none => st
    | some string =>
      match read_metadata_block_picture E (E.g_base64_decode string) with
      | .ok (some pic) => read_block_loop E vc fuel (field_num + 1) (st.1, st.2 ++ [pic])
      | _ => read_block_loop E vc fuel (field_num + 1) (false, st.2)

/-- The two picture loops: the `saved` flag after them and the pictures
decoded, in the order they are chained. -/
def read_pictures (E : Collab) (vc : List Str) (saved : Bool) : Bool × List EtPicture :=
  read_block_loop E vc (vc.length + 1) 0
    (read_coverart_loop E vc (vc.length + 1) 0 (saved, []))

/-- The literals and lengths of the `strncasecmp` chain under "Save
unsupported fields", in source order. -/
def supported_fields : List (Str × Nat) :=
  [ (ascii "TITLE=", 6), (ascii "ARTIST=", 7), (ascii "ALBUMARTIST=", 12),
    (ascii "ALBUM=", 6), (ascii "DISCNUMBER=", 11), (ascii "DATE=", 5),
    (ascii "TRACKNUMBER=", 12), (ascii "TRACKTOTAL=", 11), (ascii "GENRE=", 6),
    (ascii "DESCRIPTION=", 12), (ascii "COMMENT=", 8), (ascii "=", 1),
    (ascii "COMPOSER=", 9), (ascii "PERFORMER=", 10), (ascii "COPYRIGHT=", 10),
    (ascii "CONTACT=", 8), (ascii "ENCODED-BY=", 11), (ascii "COVERART=", 9),
    (ascii "COVERARTTYPE=", 13), (ascii "COVERARTMIME=", 13),
    (ascii "COVERARTDESCRIPTION=", 20), (ascii "METADATA_BLOCK_PICTURE=", 23) ]

/-- The condition of the "Save unsupported fields" loop: every `strncasecmp`
of the chain is non-zero. -/
def is_unsupported (comment : Str) : Bool :=
  supported_fields.all fun f => strncasecmp comment f.1 f.2 ≠ 0

/-- The "Save unsupported fields" loop: the sanitized copies of the comments
that pass the condition, appended in order. -/
def read_other (E : Collab) (vc : List Str) : List (Option Str) :=
  (vc.filter is_unsupported).map fun c => some (E.Try_To_Validate_Utf8_String c)

/-- The function `et_add_file_tags_from_vorbis_comments (vc, FileTag)`. -/
def et_add_file_tags_from_vorbis_comments (E : Collab) (vc : List Str)
    (FileTag : File_Tag) : File_Tag :=
  let t := { FileTag with title := read_multi E vc (ascii "TITLE") FileTag.title }
  let t := { t with artist := read_multi E vc (ascii "ARTIST") t.artist }
  let t := { t with album_artist := read_multi E vc (ascii "ALBUMARTIST") t.album_artist }
  let t := { t with album := read_multi E vc (ascii "ALBUM") t.album }
  let vc1 := (read_disc E vc t).1
  let t := (read_disc E vc t).2
  let t := read_year vc1 t
  let vc2 := (read_track E vc1 t).1
  let t := (read_track E vc1 t).2
  let t := { t with genre := read_multi E vc2 (ascii "GENRE") t.genre }
  let t := { t with comment := read_comment E vc2 t.comment }
  let t := { t with composer := read_multi E vc2 (ascii "COMPOSER") t.composer }
  let t := { t with orig_artist := read_multi E vc2 (ascii "PERFORMER") t.orig_artist }
  let t := { t with copyright := read_multi E vc2 (ascii "COPYRIGHT") t.copyright }
  let t := { t with url := read_multi E vc2 (ascii "CONTACT") t.url }
  let t := { t with encoded_by := read_multi E vc2 (ascii "ENCODED-BY") t.encoded_by }
  let pics := read_pictures E vc2 t.saved
  let t := { t with saved := pics.1,
                    picture := if pics.2 = [] then t.picture else pics.2 }
  { t with other := t.other ++ read_other E vc2 }

/-! ## Writing: `ogg_tag_write_file_tag` -/

/-- The function `et_ogg_write_tag`: `vorbis_comment_add` of `tag_name` followed by
`value`. -/
def et_ogg_write_tag (vc : List Str) (tag_name value : Str) : List Str :=
  vc ++ [tag_name ++ value]

/-- The function `et_ogg_write_delimited_tag`: one entry for each non-empty token of
`g_strsplit (values, MULTIFIELD_SEPARATOR, 255)`. -/
def et_ogg_write_delimited_tag (vc : List Str) (tag_name values : Str) : List Str :=
  (g_strsplit values MULTIFIELD_SEPARATOR 255).foldl
    (fun vc s => if s ≠ [] then et_ogg_write_tag vc tag_name s else vc) vc

/-- The function `et_ogg_set_tag (vc, tag_name, value, split)`. -/
def et_ogg_set_tag (vc : List Str) (tag_name : Str) (value : Option Str) (split : Bool) :
    List Str :=
  match value with
  | none => vc
  | some v =>
    if split then et_ogg_write_delimited_tag vc tag_name v
    else et_ogg_write_tag vc tag_name v

/-- The seven `ogg-split-*` settings read from `MainSettings`. -/
structure OggSettings where
  ogg_split_title : Bool
  ogg_split_artist : Bool
  ogg_split_album : Bool
  ogg_split_genre : Bool
  ogg_split_comment : Bool
  ogg_split_composer : Bool
  ogg_split_original_artist : Bool
  deriving DecidableEq, Repr

/-- The function `convert_to_byte_array (n, array)`: the four bytes `(n >> 24) & 0xFF`,
`(n >> 16) & 0xFF`, `(n >> 8) & 0xFF`, `n & 0xFF` of the 32-bit argument. -/
def convert_to_byte_array (n : Nat) : List Byte :=
  [(n % 2 ^ 32) / 2 ^ 24 % 256, (n % 2 ^ 32) / 2 ^ 16 % 256, (n % 2 ^ 32) / 2 ^ 8 % 256,
   (n % 2 ^ 32) % 256]

/-- The function `add_to_guchar_str (ustr, &ustr_len, str, str_len)`: the first
`str_len` bytes of `str` are stored after the `ustr_len` bytes present. -/
def add_to_guchar_str (ustr : List Byte) (str : List Byte) (str_len : Nat) : List Byte :=
  ustr ++ str.take str_len

/-- The byte string packed for a picture, from "Adding picture type" to
"Adding picture data and its size". -/
def picture_ustring (mime : Str) (pic : EtPicture) (data : List Byte) : List Byte :=
  let desclen := match pic.description with
    | some d => d.length
    | none => 0
  let ustring := add_to_guchar_str [] (convert_to_byte_array pic.type) 4
  let ustring := add_to_guchar_str ustring (convert_to_byte_array mime.length) 4
  let ustring := add_to_guchar_str ustring mime mime.length
  let ustring := add_to_guchar_str ustring (convert_to_byte_array desclen) 4
  let ustring := add_to_guchar_str ustring (pic.description.getD []) desclen
  let ustring := add_to_guchar_str ustring (convert_to_byte_array pic.width) 4
  let ustring := add_to_guchar_str ustring (convert_to_byte_array pic.height) 4
  let ustring := add_to_guchar_str ustring (convert_to_byte_array 0) 4
  let ustring := add_to_guchar_str ustring (convert_to_byte_array 0) 4
  let ustring := add_to_guchar_str ustring (convert_to_byte_array data.length) 4
  add_to_guchar_str ustring data data.length

/-- The body of the picture loop of the writer: the comment added for a
picture, or `none` when the loop takes `continue` because the image cannot be
converted to PNG. -/
def write_picture (E : Collab) (pic : EtPicture) : Option Str :=
  let format := E.Picture_Format_From_Data pic.bytes
  if format ≠ .PICTURE_FORMAT_PNG ∧ format ≠ .PICTURE_FORMAT_JPEG then
    match E.gdk_pixbuf_to_png pic.bytes with
    | none => none
    | some buffer =>
      let format := E.Picture_Format_From_Data buffer
      some (ascii "METADATA_BLOCK_PICTURE=" ++
        E.g_base64_encode (picture_ustring (E.Picture_Mime_Type_String format) pic buffer))
  else
    some (ascii "METADATA_BLOCK_PICTURE=" ++
      E.g_base64_encode (picture_ustring (E.Picture_Mime_Type_String format) pic pic.bytes))

/-- The function `ogg_tag_write_file_tag`, between `vcedit_open` and `vcedit_write`:
the comment list built from the tag after `vorbis_comment_clear`. -/
def ogg_tag_write_file_tag (E : Collab) (S : OggSettings) (FileTag : File_Tag) : List Str :=
  let vc : List Str := []
  let vc := et_ogg_set_tag vc (ascii "TITLE=") FileTag.title S.ogg_split_title
  let vc := et_ogg_set_tag vc (ascii "ARTIST=") FileTag.artist S.ogg_split_artist
  let vc := et_ogg_set_tag vc (ascii "ALBUMARTIST=") FileTag.album_artist S.ogg_split_artist
  let vc := et_ogg_set_tag vc (ascii "ALBUM=") FileTag.album S.ogg_split_album
  let vc := et_ogg_set_tag vc (ascii "DISCNUMBER=") FileTag.disc_number false
  let vc := et_ogg_set_tag vc (ascii "DISCTOTAL=") FileTag.disc_total false
  let vc := et_ogg_set_tag vc (ascii "DATE=") FileTag.year false
  let vc := et_ogg_set_tag vc (ascii "TRACKNUMBER=") FileTag.track false
  let vc := et_ogg_set_tag vc (ascii "TRACKTOTAL=") FileTag.track_total false
  let vc := et_ogg_set_tag vc (ascii "GENRE=") FileTag.genre S.ogg_split_genre
  let vc := et_ogg_set_tag vc (ascii "DESCRIPTION=") FileTag.comment S.ogg_split_comment
  let vc := et_ogg_set_tag vc (ascii "COMPOSER=") FileTag.composer S.ogg_split_composer
  let vc := et_ogg_set_tag vc (ascii "PERFORMER=") FileTag.orig_artist
    S.ogg_split_original_artist
  let vc := et_ogg_set_tag vc (ascii "COPYRIGHT=") FileTag.copyright false
  let vc := et_ogg_set_tag vc (ascii "CONTACT=") FileTag.url false
  let vc := et_ogg_set_tag vc (ascii "ENCODED-BY=") FileTag.encoded_by false
  let vc := FileTag.picture.foldl
    (fun vc pic => match write_picture E pic with
      | some string => vc ++ [string]
      | none => vc) vc
  FileTag.other.foldl
    (fun vc l => match l with
      | some data => vc ++ [data]
      | none => vc) vc

/-! ## A reference instance of the collaborators -/

/-- Decimal digits of `n`, most significant first (`%d`). -/
def decimal_loop : Nat → Nat → Str → Str
  | 0, _, acc => acc
  | fuel + 1, n, acc =>
    if n < 10 then (48 + n) :: acc else decimal_loop fuel (n / 10) ((48 + n % 10) :: acc)

/-- The text `printf ("%d")` gives for an unsigned value. -/
def decimal (n : Nat) : Str := decimal_loop (n + 1) n []

/-- The base64 alphabet. -/
def base64_alphabet : Str :=
  ascii "ABCDEFGHIJKLMNOPQRSTUVWXYZabcdefghijklmnopqrstuvwxyz0123456789+/"

/-- The base64 character of a 6-bit value. -/
def base64_char (v : Nat) : Nat := base64_alphabet.getD v 0

/-- RFC 4648 base64 encoding with `=` padding. -/
def base64_encode : List Byte → Str
  | a :: b :: c :: rest =>
    base64_char (a / 4) :: base64_char (a % 4 * 16 + b / 16) ::
      base64_char (b % 16 * 4 + c / 64) :: base64_char (c % 64) :: base64_encode rest
  | [a, b] => [base64_char (a / 4), base64_char (a % 4 * 16 + b / 16), base64_char (b % 16 * 4), 61]
  | [a] => [base64_char (a / 4), base64_char (a % 4 * 16), 61, 61]
  | [] => []

/-- The rank table of GLib `g_base64_decode_step`: the 6-bit value of an
alphabet character, `0` for the padding `=`, `255` for any other byte. -/
def mime_base64_rank (c : Nat) : Nat :=
  if 65 ≤ c ∧ c ≤ 90 then c - 65
  else if 97 ≤ c ∧ c ≤ 122 then c - 71
  else if 48 ≤ c ∧ c ≤ 57 then c + 4
  else if c = 43 then 62 else if c = 47 then 63 else if c = 61 then 0 else 255

/-- The loop of GLib `g_base64_decode_step`: bytes outside the alphabet are
skipped, every four accepted characters give up to three bytes. The state is
the accumulator `v`, the count `i` and the last two accepted characters. -/
def base64_decode_loop : Str → Nat → Nat → Nat → Nat → List Byte
  | [], _, _, _, _ => []
  | c :: rest, v, i, last0, last1 =>
    if mime_base64_rank c = 255 then base64_decode_loop rest v i last0 last1
    else
      let v := (v * 64 + mime_base64_rank c) % 2 ^ 32
      if i + 1 = 4 then
        ([v / 2 ^ 16 % 256] ++ (if last0 ≠ 61 then [v / 2 ^ 8 % 256] else [])
          ++ (if c ≠ 61 then [v % 256] else [])) ++ base64_decode_loop rest v 0 c last0
      else base64_decode_loop rest v (i + 1) c last0

/-- GLib `g_base64_decode`. -/
def base64_decode (text : Str) : List Byte := base64_decode_loop text 0 0 0 0

/-- Format sniffing by magic number: PNG, JPEG, GIF. -/
def sniff_format (data : List Byte) : Picture_Format :=
  if starts_with [137, 80, 78, 71, 13, 10, 26, 10] data then .PICTURE_FORMAT_PNG
  else if starts_with [255, 216] data then .PICTURE_FORMAT_JPEG
  else if starts_with (ascii "GIF8") data then .PICTURE_FORMAT_GIF
  else .PICTURE_FORMAT_UNKNOWN

/-- A reference instance of the collaborators: the sanitizer returns valid
UTF-8 unchanged and replaces anything else by the empty string, numbers are
printed unpadded in decimal from the unsigned value, base64 is RFC 4648, the
picture type enumeration has 21 members, no image conversion is available. -/
def reference_collab : Collab :=
  { Try_To_Validate_Utf8_String := fun s => if g_utf8_validate s then s else []
    et_disc_number_to_string := fun n => decimal (n % 2 ^ 32).toNat
    et_track_number_to_string := fun n => decimal (n % 2 ^ 32).toNat
    g_base64_decode := base64_decode
    g_base64_encode := base64_encode
    ET_PICTURE_TYPE_UNDEFINED := 21
    Picture_Format_From_Data := sniff_format
    Picture_Mime_Type_String := fun f => match f with
      | .PICTURE_FORMAT_JPEG => ascii "image/jpeg"
      | .PICTURE_FORMAT_PNG => ascii "image/png"
      | .PICTURE_FORMAT_GIF => ascii "image/gif"
      | .PICTURE_FORMAT_UNKNOWN => []
    gdk_pixbuf_to_png := fun _ => none }

/-! ## Specification-level notions used in the statements -/

/-- The values of all the comments that `vorbis_comment_query` matches for a
tag, in the order of the comment list. -/
def comment_values (vc : List Str) (tag : Str) : List Str :=
  vc.filterMap fun c =>
    if tagcompare c (fulltag tag) (fulltag tag).length = 0
    then some (c.drop (fulltag tag).length) else none

/-- Two tags that no comment can match at once: neither key has a NUL and the
upper-cased keys `tag=` differ within their common length. -/
def tags_disjoint (T tag : Str) : Bool :=
  (fulltag T).all (· ≠ 0) && (fulltag tag).all (· ≠ 0) &&
    decide (((fulltag T).map toupper).take (min (fulltag T).length (fulltag tag).length)
      ≠ ((fulltag tag).map toupper).take (min (fulltag T).length (fulltag tag).length))

/-- A function of the comment list that the two in-place truncations of the
reader (of the first `DISCNUMBER` and of the first `TRACKNUMBER` value) leave
unchanged. -/
def truncation_stable {α : Type} (F : List Str → α) : Prop :=
  ∀ (vc : List Str) (k : Nat),
    F (truncate_first vc (ascii "DISCNUMBER") k) = F vc
      ∧ F (truncate_first vc (ascii "TRACKNUMBER") k) = F vc

/-- The key of a comment: its text up to and including the first `=`; none
when the comment has no `=`. -/
def comment_key (c : Str) : Option Str :=
  (g_utf8_strchr c 61).map fun i => c.take (i + 1)

/-- Equality of two byte strings up to the case of ASCII letters. -/
def same_ignoring_case (a b : Str) : Bool := a.map tolower = b.map tolower

/-- The body of a multi-valued loop on one value: sanitize, skip an empty
result, append otherwise. -/
def join_step (E : Collab) (field : Option Str) (string : Str) : Option Str :=
  if g_utf8_strlen (E.Try_To_Validate_Utf8_String string) > 0
  then append_value field (E.Try_To_Validate_Utf8_String string) else field

/-- A single value as the round trip takes it: non-empty, valid UTF-8, without
the separator. -/
def plain_value (v : Str) : Prop :=
  v ≠ [] ∧ g_utf8_validate v = true ∧ strstr v MULTIFIELD_SEPARATOR = none

/-- A field that is absent or holds a plain value. -/
def plain_field (field : Option Str) : Prop := ∀ v, field = some v → plain_value v

/-- The tags under which the writer stores the sixteen text fields, in the
order of the calls of `et_ogg_set_tag`. -/
def vorbis_field_tags : List Str :=
  [ascii "TITLE", ascii "ARTIST", ascii "ALBUMARTIST", ascii "ALBUM", ascii "DISCNUMBER",
   ascii "DISCTOTAL", ascii "DATE", ascii "TRACKNUMBER", ascii "TRACKTOTAL", ascii "GENRE",
   ascii "DESCRIPTION", ascii "COMPOSER", ascii "PERFORMER", ascii "COPYRIGHT",
   ascii "CONTACT", ascii "ENCODED-BY"]

/-- The sixteen text fields of a tag, in the same order. -/
def field_values (t : File_Tag) : List (Option Str) :=
  [t.title, t.artist, t.album_artist, t.album, t.disc_number, t.disc_total, t.year, t.track,
   t.track_total, t.genre, t.comment, t.composer, t.orig_artist, t.copyright, t.url,
   t.encoded_by]

/-- The entry `key value` of a field that is present. -/
def entry_of (K : Str) (field : Option Str) : List Str :=
  match field with
  | some v => [K ++ v]
  | none => []

/-- One entry `tag=value` for each tag whose value is present. -/
def single_entries : List Str → List (Option Str) → List Str
  | k :: ks, some v :: vs => (fulltag k ++ v) :: single_entries ks vs
  | _ :: ks, none :: vs => single_entries ks vs
  | _, _ => []

/-- A tag whose key is in the chain under "Save unsupported fields". -/
def supported_tag (T : Str) : Bool :=
  decide ((fulltag T, (fulltag T).length) ∈ supported_fields) && (fulltag T).all (· ≠ 0)

/-- The step of the `METADATA_BLOCK_PICTURE` loop on one comment value: the
picture is chained when the block is decoded, the tag is marked as not saved
otherwise. -/
def block_step (E : Collab) (st : Bool × List EtPicture) (string : Str) :
    Bool × List EtPicture :=
  match read_metadata_block_picture E (E.g_base64_decode string) with
  | .ok (some pic) => (st.1, st.2 ++ [pic])
  | _ => (false, st.2)

/-- The picture decoded from a `METADATA_BLOCK_PICTURE` value, if any. -/
def block_picture (E : Collab) (string : Str) : Option EtPicture :=
  match read_metadata_block_picture E (E.g_base64_decode string) with
  | .ok (some pic) => some pic
  | _ => none

/-- The size passed to `g_malloc` for the packed picture:
`4 * 8 + strlen (mime) + desclen + data_size`. -/
def picture_ustring_size (mime : Str) (pic : EtPicture) (data : List Byte) : Nat :=
  4 * 8 + mime.length + (pic.description.getD []).length + data.length

/-- The function `add_to_guchar_str` with its accesses checked: the `str_len` bytes
are read inside `str` and stored inside an allocation of `size` bytes. -/
def add_to_guchar_str_checked (size : Nat) (ustr : List Byte) (str : List Byte)
    (str_len : Nat) : Except Fault (List Byte) :=
  if str_len ≤ str.length ∧ ustr.length + str_len ≤ size
  then .ok (add_to_guchar_str ustr str str_len) else .error .out_of_bounds

/-- The packing of a picture, as `picture_ustring`, with every call of
`add_to_guchar_str` checked against the allocated size. -/
def picture_ustring_checked (mime : Str) (pic : EtPicture) (data : List Byte) :
    Except Fault (List Byte) := do
  let size := picture_ustring_size mime pic data
  let desclen := match pic.description with
    | some d => d.length
    | none => 0
  let ustring ← add_to_guchar_str_checked size [] (convert_to_byte_array pic.type) 4
  let ustring ← add_to_guchar_str_checked size ustring (convert_to_byte_array mime.length) 4
  let ustring ← add_to_guchar_str_checked size ustring mime mime.length
  let ustring ← add_to_guchar_str_checked size ustring (convert_to_byte_array desclen) 4
  let ustring ← add_to_guchar_str_checked size ustring (pic.description.getD []) desclen
  let ustring ← add_to_guchar_str_checked size ustring (convert_to_byte_array pic.width) 4
  let ustring ← add_to_guchar_str_checked size ustring (convert_to_byte_array pic.height) 4
  let ustring ← add_to_guchar_str_checked size ustring (convert_to_byte_array 0) 4
  let ustring ← add_to_guchar_str_checked size ustring (convert_to_byte_array 0) 4
  let ustring ← add_to_guchar_str_checked size ustring (convert_to_byte_array data.length) 4
  add_to_guchar_str_checked size ustring data data.length

/-- The layout of a structured picture block: eight 4-byte fields around the
MIME string, the description and the data. -/
def picture_layout (type : Nat) (mime description : Str) (width height depth colors : Nat)
    (data : List Byte) : List Byte :=
  convert_to_byte_array type ++ convert_to_byte_array mime.length ++ mime
    ++ convert_to_byte_array description.length ++ description
    ++ convert_to_byte_array width ++ convert_to_byte_array height
    ++ convert_to_byte_array depth ++ convert_to_byte_array colors
    ++ convert_to_byte_array data.length ++ data

/-- The occurrences of a key in a comment list: the text after the first `=`
of each comment whose key (up to and including that `=`) equals `tag=` up to
case, in the order of the list. -/
def occurrences (vc : List Str) (tag : Str) : List Str :=
  vc.filterMap fun c =>
    match comment_key c with
    | some k => if same_ignoring_case k (fulltag tag) then some (c.drop k.length) else none
    | none => none

/-- The sanitized values that are not empty, in order. -/
def sanitized_values (E : Collab) (values : List Str) : List Str :=
  (values.map E.Try_To_Validate_Utf8_String).filter (· ≠ [])

/-- Values joined with the separator `" - "`; no value gives an absent
field. -/
def join_values (values : List Str) : Option Str :=
  match values with
  | [] => none
  | _ :: _ => some (MULTIFIELD_SEPARATOR.intercalate values)

/-- The value chosen for the comment at occurrence index `n`: the `DESCRIPTION`
value at that index if there is one, else the `COMMENT` value, else the value
of the empty key. -/
def comment_choice_at (description comment unnamed : List Str) (n : Nat) : Option Str :=
  match description[n]? with
  | some d => some d
  | none =>
    match comment[n]? with
    | some c => some c
    | none => unnamed[n]?

/-- The first index at which none of the three keys has an occurrence. -/
def comment_index_end (description comment unnamed : List Str) : Nat :=
  max description.length (max comment.length unnamed.length)

/-- The values chosen at the indices before `comment_index_end`, in index
order. -/
def comment_choices (description comment unnamed : List Str) : List Str :=
  (List.range (comment_index_end description comment unnamed)).filterMap
    (comment_choice_at description comment unnamed)

/-- The text that `atoi` reads digits from: what follows the leading white
space and one optional sign. -/
def after_space_and_sign (s : Str) : Str :=
  match s.dropWhile isspace with
  | 45 :: rest => rest
  | 43 :: rest => rest
  | rest => rest

/-- The leading decimal digits of a text, after white space and an optional
sign. -/
def leading_digits (s : Str) : Str :=
  (after_space_and_sign s).takeWhile fun b => 48 ≤ b ∧ b ≤ 57

/-- The picture that the legacy loop builds for the `COVERART` value `value`
found at occurrence index `n`: the type from the `COVERARTTYPE` value of that
index (front cover without one), the description from the
`COVERARTDESCRIPTION` value of that index (empty without one), no size, and
the decoded value as payload. -/
def coverart_picture (E : Collab) (types descriptions : List Str) (n : Nat) (value : Str) :
    EtPicture :=
  { type := match types[n]? with
      | some s => picture_type_of_int (atoi s)
      | none => ET_PICTURE_TYPE_FRONT_COVER
    description := some (match descriptions[n]? with
      | some s => s
      | none => [])
    width := 0
    height := 0
    bytes := E.g_base64_decode value }

/-! ## Writing onto the comments of the opened file -/

/-- libvorbis `vorbis_comment_clear (vc)`: the comments are freed and the
structure is zeroed. -/
def vorbis_comment_clear (_vc : List Str) : List Str := []

/-- libvorbis `vorbis_comment_init (vc)`: the structure is zeroed. -/
def vorbis_comment_init (_vc : List Str) : List Str := []

/-- The calls of `ogg_tag_write_file_tag` that fill the comment structure `vc`,
from the title to the unsupported fields. -/
def ogg_tag_fill_comments (E : Collab) (S : OggSettings) (vc : List Str)
    (FileTag : File_Tag) : List Str :=
  let vc := et_ogg_set_tag vc (ascii "TITLE=") FileTag.title S.ogg_split_title
  let vc := et_ogg_set_tag vc (ascii "ARTIST=") FileTag.artist S.ogg_split_artist
  let vc := et_ogg_set_tag vc (ascii "ALBUMARTIST=") FileTag.album_artist S.ogg_split_artist
  let vc := et_ogg_set_tag vc (ascii "ALBUM=") FileTag.album S.ogg_split_album
  let vc := et_ogg_set_tag vc (ascii "DISCNUMBER=") FileTag.disc_number false
  let vc := et_ogg_set_tag vc (ascii "DISCTOTAL=") FileTag.disc_total false
  let vc := et_ogg_set_tag vc (ascii "DATE=") FileTag.year false
  let vc := et_ogg_set_tag vc (ascii "TRACKNUMBER=") FileTag.track false
  let vc := et_ogg_set_tag vc (ascii "TRACKTOTAL=") FileTag.track_total false
  let vc := et_ogg_set_tag vc (ascii "GENRE=") FileTag.genre S.ogg_split_genre
  let vc := et_ogg_set_tag vc (ascii "DESCRIPTION=") FileTag.comment S.ogg_split_comment
  let vc := et_ogg_set_tag vc (ascii "COMPOSER=") FileTag.composer S.ogg_split_composer
  let vc := et_ogg_set_tag vc (ascii "PERFORMER=") FileTag.orig_artist
    S.ogg_split_original_artist
  let vc := et_ogg_set_tag vc (ascii "COPYRIGHT=") FileTag.copyright false
  let vc := et_ogg_set_tag vc (ascii "CONTACT=") FileTag.url false
  let vc := et_ogg_set_tag vc (ascii "ENCODED-BY=") FileTag.encoded_by false
  let vc := FileTag.picture.foldl
    (fun vc pic => match write_picture E pic with
      | some string => vc ++ [string]
      | none => vc) vc
  FileTag.other.foldl
    (fun vc l => match l with
      | some data => vc ++ [data]
      | none => vc) vc

/-- The function `ogg_tag_write_file_tag` on an opened file whose comment structure
`vcedit_comments (state)` holds `prior`: the structure is cleared, initialised
and filled; the result is what `vcedit_write` is given. -/
def ogg_tag_write_file_tag_on (E : Collab) (S : OggSettings) (prior : List Str)
    (FileTag : File_Tag) : List Str :=
  ogg_tag_fill_comments E S (vorbis_comment_init (vorbis_comment_clear prior)) FileTag

/-! ## MP4 tags (`mp4_tag.cc`)

TagLib is used through its public interface. A `TagLib::String` is held as its
UTF-8 bytes: what the constructor `String (s, String::UTF8)` is given and
what `toCString (true)` returns. -/

/-- A `TagLib::PropertyMap`: keys in upper case, each with its `StringList`. -/
abbrev PropertyMap := List (Str × List Str)

/-- TagLib `String::upper ()`. -/
def String_upper (s : Str) : Str := s.map toupper

/-- TagLib `PropertyMap::contains (key)`. -/
def PropertyMap_contains (m : PropertyMap) (key : Str) : Bool :=
  m.any fun e => e.1 = String_upper key

/-- TagLib `PropertyMap::operator[] (key)`, on a key that may be missing. -/
def PropertyMap_find (m : PropertyMap) (key : Str) : Option (List Str) :=
  (m.find? fun e => e.1 = String_upper key).map (·.2)

/-- TagLib `PropertyMap::insert (key, values)`: the values are appended to those
of a key already present, a new key is added otherwise. -/
def PropertyMap_insert (m : PropertyMap) (key : Str) (values : List Str) : PropertyMap :=
  if PropertyMap_contains m key then
    m.map fun e => if e.1 = String_upper key then (e.1, e.2 ++ values) else e
  else m ++ [(String_upper key, values)]

/-- The keys held by a property map. -/
def PropertyMap_keys (m : PropertyMap) : List Str := m.map (·.1)

/-- TagLib `MP4::CoverArt::Format`. -/
inductive CoverArt_Format where
  | JPEG
  | PNG
  | BMP
  | GIF
  | Unknown
  deriving DecidableEq, Repr

/-- TagLib `MP4::CoverArt`: a format and the image bytes. -/
structure CoverArt where
  format : CoverArt_Format
  data : List Byte
  deriving DecidableEq, Repr

/-- A `TagLib::MP4::Item` as `mp4_tag.cc` looks at it: its string list and its
cover-art list, each empty in an item of another kind. -/
structure MP4_Item where
  toStringList : List Str
  toCoverArtList : List CoverArt
  deriving DecidableEq, Repr

/-- TagLib `MP4::ItemListMap`: atom names with their items. -/
abbrev ItemListMap := List (Str × MP4_Item)

/-- TagLib `Map::contains (key)`. -/
def ItemListMap_contains (m : ItemListMap) (key : Str) : Bool := m.any fun e => e.1 = key

/-- TagLib `Map::operator[] (key)`, on a key that may be missing. -/
def ItemListMap_find (m : ItemListMap) (key : Str) : Option MP4_Item :=
  (m.find? fun e => e.1 = key).map (·.2)

/-- TagLib `Map::erase (key)`. -/
def ItemListMap_erase (m : ItemListMap) (key : Str) : ItemListMap :=
  m.filter fun e => e.1 ≠ key

/-- TagLib `Map::insert (key, value)`: the value replaces the one of a key already
present. -/
def ItemListMap_insert (m : ItemListMap) (key : Str) (value : MP4_Item) : ItemListMap :=
  (key, value) :: ItemListMap_erase m key

/-- What the reader asks of a `TagLib::MP4::Tag`: the basic accessors, the
property map and the item map. -/
structure MP4_Tag where
  title : Str
  artist : Str
  album : Str
  genre : Str
  comment : Str
  year : Nat
  properties : PropertyMap
  itemListMap : ItemListMap

/-- TagLib `List::front ()`: undefined on an empty list. -/
def List_front {α : Type} (l : List α) : Except Fault α :=
  match l with
  | [] => .error .out_of_bounds
  | x :: _ => .ok x

/-- The block of `mp4tag_read_file_tag` written for `DISCNUMBER` and for
`TRACKNUMBER`: `(number, total)` after it. The offset of `find ("/")` and
the text of `substr (offset + 1)` are taken on the UTF-8 bytes. -/
def mp4_read_pair (number_to_string : Int → Str) (String_toInt : Str → Int)
    (extra_tag : PropertyMap) (key : Str) (number total : Option Str) :
    Except Fault (Option Str × Option Str) :=
  if PropertyMap_contains extra_tag key then
    match List_front ((PropertyMap_find extra_tag key).getD []) with
    | .error e => .error e
    | .ok front =>
      let total := match strstr front (ascii "/") with
        | some offset => some (number_to_string (String_toInt (front.drop (offset + 1))))
        | none => total
      .ok (some (number_to_string (String_toInt front)), total)
  else .ok (number, total)

/-- The block written for `COMPOSER`, `COPYRIGHT` and `ENCODEDBY`: the first
string of the property, when the key is present. -/
def mp4_read_property (extra_tag : PropertyMap) (key : Str) (field : Option Str) :
    Except Fault (Option Str) :=
  if PropertyMap_contains extra_tag key then
    match List_front ((PropertyMap_find extra_tag key).getD []) with
    | .error e => .error e
    | .ok front => .ok (some front)
  else .ok field

/-- The album artist block: the first string of the `aART` item. -/
def mp4_read_album_artist (extra_items : ItemListMap) (field : Option Str) :
    Except Fault (Option Str) :=
  match ItemListMap_find extra_items (ascii "aART") with
  | some album_artists =>
    match List_front album_artists.toStringList with
    | .error e => .error e
    | .ok front => .ok (some front)
  | none => .ok field

/-- Modelled from the spec: `et_file_tag_set_picture` of `file_tag.c` replaces
the picture sequence of the tag. -/
def et_file_tag_set_picture (FileTag : File_Tag) (pic : List EtPicture) : File_Tag :=
  { FileTag with picture := pic }

/-- The picture block: a front cover without description from the first cover
of the `covr` item, no picture without the item. -/
def mp4_read_picture (extra_items : ItemListMap) : Except Fault (List EtPicture) :=
  match ItemListMap_find extra_items (ascii "covr") with
  | some cover =>
    match List_front cover.toCoverArtList with
    | .error e => .error e
    | .ok art => .ok [et_picture_new ET_PICTURE_TYPE_FRONT_COVER [] 0 0 art.data]
  | none => .ok []

/-- The function `mp4tag_read_file_tag`, once the tag of the opened file is
obtained. `String::toInt` is a parameter. -/
def mp4tag_read_file_tag (E : Collab) (String_toInt : Str → Int) (tag : MP4_Tag)
    (FileTag : File_Tag) : Except Fault File_Tag :=
  match mp4_read_pair E.et_disc_number_to_string String_toInt tag.properties
      (ascii "DISCNUMBER") FileTag.disc_number FileTag.disc_total with
  | .error e => .error e
  | .ok disc =>
  match mp4_read_pair E.et_track_number_to_string String_toInt tag.properties
      (ascii "TRACKNUMBER") FileTag.track FileTag.track_total with
  | .error e => .error e
  | .ok track =>
  match mp4_read_property tag.properties (ascii "COMPOSER") FileTag.composer with
  | .error e => .error e
  | .ok composer =>
  match mp4_read_property tag.properties (ascii "COPYRIGHT") FileTag.copyright with
  | .error e => .error e
  | .ok copyright =>
  match mp4_read_property tag.properties (ascii "ENCODEDBY") FileTag.encoded_by with
  | .error e => .error e
  | .ok encoded_by =>
  match mp4_read_album_artist tag.itemListMap FileTag.album_artist with
  | .error e => .error e
  | .ok album_artist =>
  match mp4_read_picture tag.itemListMap with
  | .error e => .error e
  | .ok picture =>
    .ok (et_file_tag_set_picture
      { FileTag with
        title := some tag.title
        artist := some tag.artist
        album := some tag.album
        disc_number := disc.1
        disc_total := disc.2
        year := if tag.year ≠ 0 then some (decimal tag.year) else FileTag.year
        track := track.1
        track_total := track.2
        genre := some tag.genre
        comment := some tag.comment
        composer := composer
        copyright := copyright
        encoded_by := encoded_by
        album_artist := album_artist } picture)

/-- The guard `if (value && *value)` of the MP4 writer. -/
def non_empty (value : Option Str) : Bool :=
  match value with
  | some v => v ≠ []
  | none => false

/-- The block of `mp4tag_write_file_tag` written for the nine plain fields:
`fields.insert (key, string)` under the guard. -/
def mp4_insert_field (fields : PropertyMap) (key : Str) (value : Option Str) : PropertyMap :=
  match value with
  | some v => if v ≠ [] then PropertyMap_insert fields key [v] else fields
  | none => fields

/-- The block written for the disc and for the track: the number alone, or
`g_strconcat (number, "/", total, NULL)` when the total passes the guard. -/
def mp4_insert_pair (fields : PropertyMap) (key : Str) (number total : Option Str) :
    PropertyMap :=
  match number with
  | some n =>
    if n ≠ [] then
      match total with
      | some t =>
        if t ≠ [] then PropertyMap_insert fields key [n ++ ascii "/" ++ t]
        else PropertyMap_insert fields key [n]
      | none => PropertyMap_insert fields key [n]
    else fields
  | none => fields

/-- The `switch` of the writer from the sniffed picture format to the TagLib
cover format. -/
def cover_format (pf : Picture_Format) : CoverArt_Format :=
  match pf with
  | .PICTURE_FORMAT_JPEG => .JPEG
  | .PICTURE_FORMAT_PNG => .PNG
  | .PICTURE_FORMAT_GIF => .GIF
  | .PICTURE_FORMAT_UNKNOWN => .JPEG

/-- The function `mp4tag_write_file_tag`, between obtaining the tag and
`tag->setProperties (fields)`: the property map built and the item map, which
held `extra_items` on entry. -/
def mp4tag_write_file_tag (E : Collab) (extra_items : ItemListMap) (FileTag : File_Tag) :
    PropertyMap × ItemListMap :=
  let fields : PropertyMap := []
  let fields := mp4_insert_field fields (ascii "TITLE") FileTag.title
  let fields := mp4_insert_field fields (ascii "ARTIST") FileTag.artist
  let fields := mp4_insert_field fields (ascii "ALBUM") FileTag.album
  let fields := mp4_insert_pair fields (ascii "DISCNUMBER") FileTag.disc_number
    FileTag.disc_total
  let fields := mp4_insert_field fields (ascii "DATE") FileTag.year
  let fields := mp4_insert_pair fields (ascii "TRACKNUMBER") FileTag.track FileTag.track_total
  let fields := mp4_insert_field fields (ascii "GENRE") FileTag.genre
  let fields := mp4_insert_field fields (ascii "COMMENT") FileTag.comment
  let fields := mp4_insert_field fields (ascii "COMPOSER") FileTag.composer
  let fields := mp4_insert_field fields (ascii "COPYRIGHT") FileTag.copyright
  let fields := mp4_insert_field fields (ascii "ENCODEDBY") FileTag.encoded_by
  let extra_items :=
    match FileTag.album_artist with
    | some v =>
      if v ≠ [] then ItemListMap_insert extra_items (ascii "aART") ⟨[v], []⟩
      else ItemListMap_erase extra_items (ascii "aART")
    | none => ItemListMap_erase extra_items (ascii "aART")
  let extra_items :=
    match FileTag.picture with
    | picture :: _ =>
      ItemListMap_insert extra_items (ascii "covr")
        ⟨[], [⟨cover_format (E.Picture_Format_From_Data picture.bytes), picture.bytes⟩]⟩
    | [] => ItemListMap_erase extra_items (ascii "covr")
  (fields, extra_items)

/-! ## File names (`file_name.c`) -/

/-- The `File_Name` record of `file_name.h`: undo key, saved flag, raw path,
display (UTF-8) path and collation key; the three strings may be `NULL`. -/
structure File_Name where
  key : Nat
  saved : Bool
  value : Option Str
  value_utf8 : Option Str
  value_ck : Option Str
  deriving DecidableEq, Repr

/-- libc `strcmp`, up to the magnitude of a non-zero result: negative, zero or
positive as the first string is below, equal to or above the second. -/
def strcmp : Str → Str → Int
  | [], [] => 0
  | [], _ :: _ => -1
  | _ :: _, [] => 1
  | a :: s1, b :: s2 => if a = b then strcmp s1 s2 else if a < b then -1 else 1

/-- The function `et_file_name_detect_difference (a, b)`, the arguments being
pointers that may be `NULL`. The result is `none` when `strcmp` is handed a
`NULL` collation key, which is undefined. -/
def et_file_name_detect_difference (a b : Option File_Name) : Option Bool :=
  if ¬ (a.isSome ∧ b.isSome) then some false
  else if a.isSome ∧ ¬ b.isSome then some true
  else if ¬ a.isSome ∧ b.isSome then some true
  else
    match a, b with
    | some a, some b =>
      if a.value.isNone ∧ b.value.isNone then some false
      else if a.value.isSome ∧ b.value.isNone then some true
      else if a.value.isNone ∧ b.value.isSome then some true
      else
        match a.value_ck, b.value_ck with
        | some filename1_ck, some filename2_ck =>
          if strcmp filename1_ck filename2_ck ≠ 0 then some true else some false
        | _, _ => none
    | _, _ => some false

/-- The precondition of the calls of `front ()` in the MP4 reader: no string
list of the property map is empty, nor the string list of an `aART` item, nor
the cover list of a `covr` item. -/
def mp4_fronts_exist (tag : MP4_Tag) : Bool :=
  tag.properties.all (fun e => e.2 ≠ [])
    && tag.itemListMap.all (fun e => e.1 = ascii "aART" → e.2.toStringList ≠ [])
    && tag.itemListMap.all (fun e => e.1 = ascii "covr" → e.2.toCoverArtList ≠ [])

/-- The functions that `file_name.c` uses from `charset.c` and GLib: the two
conversions between the raw and the display (UTF-8) form of a path, and the
collation key of a display path. -/
structure FileNameCollab where
  /-- The conversion of `charset.c` from a raw path to its display form. -/
  filename_to_display : Str → Str
  /-- The conversion of `charset.c` from a display path to its raw form. -/
  filename_from_display : Str → Str
  /-- GLib `g_utf8_collate_key_for_filename (str, -1)`. -/
  g_utf8_collate_key_for_filename : Str → Str

/-- The function `et_file_name_new`; the key returned by `ET_Undo_Key_New ()` is an
argument. -/
def et_file_name_new (undo_key : Nat) : File_Name :=
  { key := undo_key, saved := false, value := none, value_utf8 := none, value_ck := none }

/-- The function `ET_Set_Filename_File_Name_Item (FileName, filename_utf8,
filename)` on a record that is not `NULL`. -/
def ET_Set_Filename_File_Name_Item (C : FileNameCollab) (FileName : File_Name)
    (filename_utf8 filename : Option Str) : File_Name :=
  match filename_utf8, filename with
  | some filename_utf8, some filename =>
    { FileName with
      value_utf8 := some filename_utf8
      value := some filename
      value_ck := some (C.g_utf8_collate_key_for_filename filename_utf8) }
  | some filename_utf8, none =>
    { FileName with
      value_utf8 := some filename_utf8
      value := some (C.filename_from_display filename_utf8)
      value_ck := some (C.g_utf8_collate_key_for_filename filename_utf8) }
  | none, some filename =>
    { FileName with
      value_utf8 := some (C.filename_to_display filename)
      value := some filename
      value_ck := some (C.g_utf8_collate_key_for_filename (C.filename_to_display filename)) }
  | none, none => FileName

/-- A reference instance of the file-name collaborators: a path is displayed
byte for byte when it is valid UTF-8 and as `?` otherwise, a display path is
its own raw form, and the collation key is the display path in lower case. -/
def reference_file_name_collab : FileNameCollab :=
  { filename_to_display := fun s => if g_utf8_validate s then s else ascii "?"
    filename_from_display := fun s => s
    g_utf8_collate_key_for_filename := fun s => s.map tolower }

/-- Does the MIME string `mime` of a structured block agree with the literal
`X` as far as `strncmp (mime, X, mime_length)` compares: the MIME bytes are
the first bytes of `X`, or they are longer than `X` and start with `X`
followed by a NUL byte. -/
def mime_agrees (mime : List Nat) (X : Str) : Bool :=
  (decide (mime.length ≤ X.length) && decide (mime = X.take mime.length))
    || (decide (X.length < mime.length) && decide (mime.take (X.length + 1) = X ++ [0]))

/-- The MIME strings that pass the check of the structured decoder: the empty
one and those that agree with `image/`, `image/png` or `image/jpeg`. -/
def mime_accepted (mime : List Nat) : Bool :=
  decide (mime = []) || mime_agrees mime (ascii "image/")
    || mime_agrees mime (ascii "image/png") || mime_agrees mime (ascii "image/jpeg")

/-- The Vorbis normalisation `N (c)`: the comment list written for the tag
decoded from `c` into a fresh tag. -/
def vorbis_normalise (E : Collab) (S : OggSettings) (c : List Str) : List Str :=
  ogg_tag_write_file_tag E S (et_add_file_tags_from_vorbis_comments E c et_file_tag_new)

/-- The entries that a field contributes to the written list, from its key,
its value and its own split flag alone: nothing for an absent value, one
entry with the whole value when the flag is off, one entry for each non-empty
piece of the value between separators when it is on. -/
def written_entries (key : Str) (value : Option Str) (split : Bool) : List Str :=
  match value with
  | none => []
  | some v =>
    if split then ((g_strsplit v MULTIFIELD_SEPARATOR 255).filter (· ≠ [])).map (key ++ ·)
    else [key ++ v]

/-! ## Concrete inputs -/

/-- A block of 33 bytes: type 3, MIME length 1, MIME `i`, empty description,
zero dimensions, empty data. -/
def block_mime_i : List Byte :=
  [0, 0, 0, 3, 0, 0, 0, 1, 105, 0, 0, 0, 0, 0, 0, 0, 0, 0, 0, 0, 0, 0, 0, 0, 0, 0, 0, 0, 0,
   0, 0, 0, 0]

/-- A block of 36 bytes that declares a MIME length of 5 with only 4 bytes
left after the fixed fields. -/
def block_mime_too_long : List Byte :=
  [0, 0, 0, 3, 0, 0, 0, 5, 105, 109, 97, 103, 0, 0, 0, 0, 0, 0, 0, 0, 0, 0, 0, 0, 0, 0, 0, 0,
   0, 0, 0, 0, 0, 0, 0, 0]

/-- A tag that holds only the track `3/4`. -/
def tag_track_slash : File_Tag := { et_file_tag_new with track := some (ascii "3/4") }

/-- A tag of plain values in canonical form: a title, disc 1 of 2, track 3. -/
def tag_canonical : File_Tag :=
  { et_file_tag_new with title := some (ascii "Song"), disc_number := some (ascii "1"),
                         disc_total := some (ascii "2"), track := some (ascii "3") }

/-- A well-formed block of 41 bytes: type 3, MIME `image/gif`, empty
description, zero dimensions, empty data. -/
def block_gif : List Byte :=
  [0, 0, 0, 3, 0, 0, 0, 9] ++ ascii "image/gif"
    ++ [0, 0, 0, 0, 0, 0, 0, 0, 0, 0, 0, 0, 0, 0, 0, 0, 0, 0, 0, 0, 0, 0, 0, 0]

/-- A well-formed block of 42 bytes: type 3, MIME `image/png`, empty
description, zero dimensions, one byte of data. -/
def block_png : List Byte :=
  [0, 0, 0, 3, 0, 0, 0, 9] ++ ascii "image/png"
    ++ [0, 0, 0, 0, 0, 0, 0, 0, 0, 0, 0, 0, 0, 0, 0, 0, 0, 0, 0, 0, 0, 0, 0, 1, 7]

/-- A block of 32 bytes whose type field is 21. -/
def block_type_21 : List Byte :=
  [0, 0, 0, 21, 0, 0, 0, 0, 0, 0, 0, 0, 0, 0, 0, 0, 0, 0, 0, 0, 0, 0, 0, 0, 0, 0, 0, 0, 0,
   0, 0, 0]

/-- A front cover with the description `c` and a payload that starts with the
JPEG magic number. -/
def picture_jpeg : EtPicture :=
  { type := 3, description := some (ascii "c"), width := 0, height := 0,
    bytes := [255, 216, 255, 224] }

/-- A packed block with type 3, MIME `image/png`, the three description bytes
`A`, NUL, `B`, declared dimensions 640 by 480, one byte of data and two
trailing bytes. -/
def block_nul_description : List Byte :=
  picture_layout 3 (ascii "image/png") [65, 0, 66] 640 480 24 0 [7] ++ [1, 2]

/-- A comment under the key `METADATA_BLOCK_PICTURE`, written in lower case,
whose value `AAAA` is the base64 text of three zero bytes. -/
def comment_short_block : Str := ascii "metadata_block_picture=AAAA"

/-- A fresh tag marked as saved. -/
def tag_saved : File_Tag := { et_file_tag_new with saved := true }

/-- Every split setting off. -/
def settings_split_off : OggSettings := ⟨false, false, false, false, false, false, false⟩

/-- Every split setting on. -/
def settings_split_on : OggSettings := ⟨true, true, true, true, true, true, true⟩

/-- An MP4 tag without text, year or items whose property map holds the one
key `key` with the one string `v`. -/
def mp4_tag_of_property (key v : Str) : MP4_Tag :=
  { title := [], artist := [], album := [], genre := [], comment := [], year := 0,
    properties := [(key, [v])], itemListMap := [] }

/-- A record without a path, as `et_file_name_new` leaves it apart from the
undo key. -/
def file_name_empty : File_Name :=
  { key := 1, saved := false, value := none, value_utf8 := none, value_ck := none }

/-- A record for the path `a.ogg`, the collation key being given as the same
text. -/
def file_name_a : File_Name :=
  { key := 2, saved := false, value := some (ascii "a.ogg"), value_utf8 := some (ascii "a.ogg"),
    value_ck := some (ascii "a.ogg") }

/-- A record for the path `A.ogg` whose collation key equals that of
`file_name_a`. -/
def file_name_a_upper : File_Name :=
  { key := 3, saved := true, value := some (ascii "A.ogg"), value_utf8 := some (ascii "A.ogg"),
    value_ck := some (ascii "a.ogg") }

/-- A record for the path `b.ogg`. -/
def file_name_b : File_Name :=
  { key := 4, saved := false, value := some (ascii "b.ogg"), value_utf8 := some (ascii "b.ogg"),
    value_ck := some (ascii "b.ogg") }

/-! # Theorems -/

/-! ## Structured picture blocks -/

theorem except_ok_bind {ε α β : Type} (a : α) (f : α → Except ε β) :
    (Except.ok a >>= f) = f a := rfl

theorem except_pure_eq {ε α : Type} (a : α) : (pure a : Except ε α) = Except.ok a := rfl

theorem getElem?_in_bounds (buf : List Byte) (i : Nat) (h : i < buf.length) :
    buf[i]? = some (buf.getD i 0) := by
  simp [List.getD, List.getElem?_eq_getElem h]

theorem read_guint32_in_bounds (buf : List Byte) (pos : Nat) (h : pos + 4 ≤ buf.length) :
    read_guint32_from_byte buf pos = .ok (be32 buf pos) := by
  simp only [read_guint32_from_byte, read_guint32_loop, be32]
  rw [getElem?_in_bounds buf pos (by omega), getElem?_in_bounds buf (pos + 1) (by omega),
    getElem?_in_bounds buf (pos + 1 + 1) (by omega),
    getElem?_in_bounds buf (pos + 1 + 1 + 1) (by omega)]

theorem strncmp_at_in_bounds (buf : List Byte) (n : Nat) :
    ∀ (pos : Nat) (lit : Str), pos + n ≤ buf.length → ∃ r, strncmp_at buf pos lit n = .ok r := by
  induction n with
  | zero => intro pos lit _; exact ⟨0, rfl⟩
  | succ n ih =>
    intro pos lit h
    simp only [strncmp_at]
    rw [getElem?_in_bounds buf pos (by omega)]
    simp only []
    split
    · exact ⟨_, rfl⟩
    · split
      · exact ⟨_, rfl⟩
      · exact ih (pos + 1) lit.tail (by omega)

theorem g_strndup_at_in_bounds (buf : List Byte) (n : Nat) :
    ∀ pos : Nat, pos + n ≤ buf.length → ∃ d, g_strndup_at buf pos n = .ok d := by
  induction n with
  | zero => intro pos _; exact ⟨[], rfl⟩
  | succ n ih =>
    intro pos h
    simp only [g_strndup_at]
    rw [getElem?_in_bounds buf pos (by omega)]
    simp only []
    split
    · exact ⟨_, rfl⟩
    · obtain ⟨d, hd⟩ := ih (pos + 1) (by omega)
      rw [hd]; exact ⟨_, rfl⟩

theorem mime_invalid_in_bounds (buf : List Byte) (pos n : Nat) (h : pos + n ≤ buf.length) :
    ∃ b, mime_invalid buf pos n = .ok b := by
  obtain ⟨r1, h1⟩ := strncmp_at_in_bounds buf n pos (ascii "image/") h
  obtain ⟨r2, h2⟩ := strncmp_at_in_bounds buf n pos (ascii "image/png") h
  obtain ⟨r3, h3⟩ := strncmp_at_in_bounds buf n pos (ascii "image/jpeg") h
  simp only [mime_invalid, h1, h2, h3, except_ok_bind]
  split
  · split
    · exact ⟨_, rfl⟩
    · exact ⟨_, rfl⟩
  · exact ⟨_, rfl⟩

theorem read_block_short (E : Collab) (buf : List Byte) (h : buf.length < 32) :
    read_metadata_block_picture E buf = .ok none := by
  simp [read_metadata_block_picture, h, except_pure_eq]

theorem read_block_eq (E : Collab) (buf : List Byte) (h : 32 ≤ buf.length) :
    read_metadata_block_picture E buf =
      if be32 buf 0 ≥ E.ET_PICTURE_TYPE_UNDEFINED then .ok none
      else if be32 buf 4 > buf.length - 32 then .ok none
      else (if be32 buf 4 > 0 then mime_invalid buf 8 (be32 buf 4) else .ok false) >>= fun bad =>
        if bad then .ok none
        else if be32 buf (8 + be32 buf 4) > buf.length - 32 - be32 buf 4 then .ok none
        else g_strndup_at buf (12 + be32 buf 4) (be32 buf (8 + be32 buf 4)) >>= fun description =>
          if be32 buf (28 + be32 buf 4 + be32 buf (8 + be32 buf 4))
              > buf.length - 32 - be32 buf 4 - be32 buf (8 + be32 buf 4) then .ok none
          else .ok (some (et_picture_new (be32 buf 0) description 0 0
            ((buf.drop (32 + be32 buf 4 + be32 buf (8 + be32 buf 4))).take
              (be32 buf (28 + be32 buf 4 + be32 buf (8 + be32 buf 4)))))) := by
  unfold read_metadata_block_picture
  simp only [show ¬ buf.length < 8 * 4 from by omega, if_false]
  rw [read_guint32_in_bounds buf 0 (by omega), read_guint32_in_bounds buf 4 (by omega)]
  simp only [except_ok_bind, except_pure_eq]
  by_cases h1 : be32 buf 0 ≥ E.ET_PICTURE_TYPE_UNDEFINED
  · simp only [h1, if_true]
  · simp only [h1, if_false]
    have e8 : gsize_sub buf.length 8 = .ok (buf.length - 8) := by
      simp [gsize_sub]; omega
    have e24 : gsize_sub (buf.length - 8) (6 * 4) = .ok (buf.length - 32) := by
      simp only [gsize_sub]; rw [if_pos (by omega)]; congr 1
    simp only [e8, Except.bind, e24, except_ok_bind]
    by_cases h2 : be32 buf 4 > buf.length - 32
    · simp only [h2, if_true]
    · simp only [h2, if_false]
      have tail : (do
              let desclen ← read_guint32_from_byte buf (8 + be32 buf 4)
              let room ←
                (gsize_sub buf.length (8 + be32 buf 4 + 4)).bind fun x => gsize_sub x (5 * 4)
              if desclen > room then Except.ok none
                else do
                  let description ← g_strndup_at buf (8 + be32 buf 4 + 4) desclen
                  let data_size ← read_guint32_from_byte buf (8 + be32 buf 4 + 4 + (desclen + 16))
                  let room ← gsize_sub buf.length (8 + be32 buf 4 + 4 + (desclen + 16) + 4)
                  if data_size > room then Except.ok none
                    else do
                      let pic_bytes ←
                        g_bytes_new_from_bytes buf (8 + be32 buf 4 + 4 + (desclen + 16) + 4) data_size
                      Except.ok (some (et_picture_new (be32 buf 0) description 0 0 pic_bytes)))
          = (if be32 buf (8 + be32 buf 4) > buf.length - 32 - be32 buf 4 then .ok none
        else g_strndup_at buf (12 + be32 buf 4) (be32 buf (8 + be32 buf 4)) >>= fun description =>
          if be32 buf (28 + be32 buf 4 + be32 buf (8 + be32 buf 4))
              > buf.length - 32 - be32 buf 4 - be32 buf (8 + be32 buf 4) then .ok none
          else .ok (some (et_picture_new (be32 buf 0) description 0 0
            ((buf.drop (32 + be32 buf 4 + be32 buf (8 + be32 buf 4))).take
              (be32 buf (28 + be32 buf 4 + be32 buf (8 + be32 buf 4))))))) := by
        generalize be32 buf 4 = m at h2 ⊢
        rw [read_guint32_in_bounds buf (8 + m) (by omega)]
        have e1 : gsize_sub buf.length (8 + m + 4) = .ok (buf.length - (8 + m + 4)) := by
          simp only [gsize_sub]; rw [if_pos (by omega)]
        have e2 : gsize_sub (buf.length - (8 + m + 4)) (5 * 4) = .ok (buf.length - 32 - m) := by
          simp only [gsize_sub]; rw [if_pos (by omega)]; congr 1; omega
        simp only [except_ok_bind, e1, Except.bind, e2]
        generalize be32 buf (8 + m) = d
        by_cases h3 : d > buf.length - 32 - m
        · simp only [h3, if_true]
        · simp only [h3, if_false]
          have p12 : 8 + m + 4 = 12 + m := by omega
          rw [p12]
          cases g_strndup_at buf (12 + m) d with
          | error e => rfl
          | ok description =>
            have p28 : 12 + m + (d + 16) = 28 + m + d := by omega
            rw [p28, read_guint32_in_bounds buf (28 + m + d) (by omega)]
            have e3 : gsize_sub buf.length (28 + m + d + 4) = .ok (buf.length - 32 - m - d) := by
              simp only [gsize_sub]; rw [if_pos (by omega)]; congr 1; omega
            simp only [except_ok_bind, e3]
            generalize be32 buf (28 + m + d) = n
            by_cases h4 : n > buf.length - 32 - m - d
            · simp only [h4, if_true]
            · simp only [h4, if_false]
              have p32 : 28 + m + d + 4 = 32 + m + d := by omega
              simp only [g_bytes_new_from_bytes, p32]
              rw [if_pos (by omega)]
              rfl
      by_cases h0 : be32 buf 4 > 0
      · simp only [h0, if_true]
        cases mime_invalid buf 8 (be32 buf 4) with
        | error e => rfl
        | ok y =>
          simp only [except_ok_bind]
          cases y with
          | true => simp
          | false => simpa using tail
      · simp only [h0, if_false, except_ok_bind]
        simpa using tail


theorem read_block_cases (E : Collab) (decoded_ustr : List Byte) :
    read_metadata_block_picture E decoded_ustr = .ok none
      ∨ ∃ pic, read_metadata_block_picture E decoded_ustr = .ok (some pic) := by
  have total : ∃ r, read_metadata_block_picture E decoded_ustr = .ok r := by
    by_cases h : decoded_ustr.length < 32
    · exact ⟨none, read_block_short E decoded_ustr h⟩
    · rw [read_block_eq E decoded_ustr (by omega)]
      split
      · exact ⟨_, rfl⟩
      · rename_i h1
        split
        · exact ⟨_, rfl⟩
        · rename_i h2
          have hb : ∃ b, (if be32 decoded_ustr 4 > 0
              then mime_invalid decoded_ustr 8 (be32 decoded_ustr 4) else .ok false)
              = .ok b := by
            split
            · exact mime_invalid_in_bounds decoded_ustr 8 _ (by omega)
            · exact ⟨_, rfl⟩
          obtain ⟨b, hb⟩ := hb
          rw [hb, except_ok_bind]
          split
          · exact ⟨_, rfl⟩
          · split
            · exact ⟨_, rfl⟩
            · rename_i h3
              obtain ⟨d, hd⟩ := g_strndup_at_in_bounds decoded_ustr
                (be32 decoded_ustr (8 + be32 decoded_ustr 4)) (12 + be32 decoded_ustr 4)
                (by omega)
              rw [hd, except_ok_bind]
              split
              · exact ⟨_, rfl⟩
              · exact ⟨_, rfl⟩
  obtain ⟨r, hr⟩ := total
  cases r with
  | none => exact Or.inl hr
  | some pic => exact Or.inr ⟨pic, hr⟩

/-- C8: for every decoded buffer the structured picture parser finishes without
a memory fault: every checked read (the four-byte integers, the MIME
comparison, the description copy, the payload slice) is inside the buffer and
no unsigned subtraction goes below zero; the result is a picture or a dropped
block. -/
theorem picture_block_memory_safe (E : Collab) (decoded_ustr : List Byte) :
    read_metadata_block_picture E decoded_ustr = .ok none
      ∨ ∃ pic, read_metadata_block_picture E decoded_ustr = .ok (some pic) :=
  read_block_cases E decoded_ustr

/-- C9: a structured block is dropped when the buffer is shorter than 32 bytes
or when its MIME length, description length or data length exceeds the bytes
remaining after the fixed fields; hence a picture is accepted only if the
buffer holds at least `32 + mime_length + description_length + data_length`
bytes. -/
theorem picture_block_length_validation (E : Collab) (buf : List Byte) :
    (buf.length < 32
        ∨ block_mime_length buf > buf.length - 32
        ∨ block_description_length buf > buf.length - 32 - block_mime_length buf
        ∨ block_data_length buf
            > buf.length - 32 - block_mime_length buf - block_description_length buf
      → read_metadata_block_picture E buf = .ok none)
    ∧ (∀ pic, read_metadata_block_picture E buf = .ok (some pic) →
        32 + block_mime_length buf + block_description_length buf + block_data_length buf
          ≤ buf.length) := by
  have drop : (buf.length < 32
        ∨ block_mime_length buf > buf.length - 32
        ∨ block_description_length buf > buf.length - 32 - block_mime_length buf
        ∨ block_data_length buf
            > buf.length - 32 - block_mime_length buf - block_description_length buf)
      → read_metadata_block_picture E buf = .ok none := by
    intro h
    by_cases hs : buf.length < 32
    · exact read_block_short E buf hs
    · rcases read_block_cases E buf with hn | ⟨pic, hp⟩
      · exact hn
      · exfalso
        have hp2 := hp
        rw [read_block_eq E buf (by omega)] at hp2
        simp only [block_mime_length, block_description_length, block_data_length] at h
        split at hp2
        · cases hp2
        · rename_i h1
          split at hp2
          · cases hp2
          · rename_i h2
            cases hb : (if be32 buf 4 > 0 then mime_invalid buf 8 (be32 buf 4) else .ok false) with
            | error e => rw [hb] at hp2; cases hp2
            | ok b =>
              rw [hb, except_ok_bind] at hp2
              split at hp2
              · cases hp2
              · split at hp2
                · cases hp2
                · rename_i h3
                  cases hd : g_strndup_at buf (12 + be32 buf 4) (be32 buf (8 + be32 buf 4)) with
                  | error e => rw [hd] at hp2; cases hp2
                  | ok d =>
                    rw [hd, except_ok_bind] at hp2
                    split at hp2
                    · cases hp2
                    · rename_i h4
                      omega
  refine ⟨drop, ?_⟩
  intro pic hp
  by_contra hlt
  have hd : read_metadata_block_picture E buf = .ok none := by
    apply drop
    omega
  rw [hd] at hp
  cases hp


/-- Witness for C9: a 36-byte block whose MIME length 5 exceeds the 4 bytes
that remain is dropped. -/
theorem picture_block_length_validation_witness :
    block_mime_length block_mime_too_long > block_mime_too_long.length - 32
      ∧ read_metadata_block_picture reference_collab block_mime_too_long = .ok none :=
  ⟨by decide,
   (picture_block_length_validation reference_collab block_mime_too_long).1
     (Or.inr (Or.inl (by decide)))⟩

/-- C10, at the failing input: a block whose MIME string is the single byte
`i` (not an image type) is decoded to a picture, and the comment that carries
it leaves the tag clean with that picture attached. -/
theorem picture_block_mime_i_accepted :
    read_metadata_block_picture reference_collab block_mime_i
        = .ok (some (et_picture_new 3 [] 0 0 []))
      ∧ base64_decode (ascii "AAAAAwAAAAFpAAAAAAAAAAAAAAAAAAAAAAAAAAAAAAAA") = block_mime_i
      ∧ (et_add_file_tags_from_vorbis_comments reference_collab
          [ascii "METADATA_BLOCK_PICTURE=AAAAAwAAAAFpAAAAAAAAAAAAAAAAAAAAAAAAAAAAAAAA"]
          { et_file_tag_new with saved := true }).picture = [et_picture_new 3 [] 0 0 []]
      ∧ (et_add_file_tags_from_vorbis_comments reference_collab
          [ascii "METADATA_BLOCK_PICTURE=AAAAAwAAAAFpAAAAAAAAAAAAAAAAAAAAAAAAAAAAAAAA"]
          { et_file_tag_new with saved := true }).saved = true := by
  refine ⟨rfl, by decide, by decide, by decide⟩


/-! ## Key matching -/

theorem toupper_ne_zero (x : Nat) (h : x ≠ 0) : toupper x ≠ 0 := by
  unfold toupper; split <;> omega

theorem tolower_ne_zero (x : Nat) (h : x ≠ 0) : tolower x ≠ 0 := by
  unfold tolower; split <;> omega

theorem toupper_eq_iff_tolower_eq (a b : Nat) : toupper a = toupper b ↔ tolower a = tolower b := by
  unfold toupper tolower
  split <;> split <;> split <;> split <;> omega

/-- The comparison of `tagcompare` looks at the first `n` bytes only. -/
theorem tagcompare_take (n k : Nat) : ∀ (c K : Str),
    tagcompare (c.take (n + k)) K n = tagcompare c K n := by
  induction n with
  | zero => intro c K; simp [tagcompare]
  | succ n ih =>
    intro c K
    cases c with
    | nil => simp
    | cons b cs =>
      have e : n + 1 + k = (n + k) + 1 := by omega
      simp only [e, List.take_succ_cons, tagcompare, peek, List.headD_cons, List.tail_cons]
      rw [ih]

/-- For a key without NUL, `tagcompare` gives `0` exactly when the first bytes
of the comment are the key up to case. -/
theorem tagcompare_eq_zero_iff (K : Str) : ∀ (c : Str), (∀ b ∈ K, b ≠ 0) →
    (tagcompare c K K.length = 0 ↔ (c.take K.length).map toupper = K.map toupper) := by
  induction K with
  | nil => intro c _; simp [tagcompare]
  | cons x xs ih =>
    intro c hK
    have hx : x ≠ 0 := hK x (List.mem_cons_self _ _)
    have hxs : ∀ b ∈ xs, b ≠ 0 := fun b hb => hK b (List.mem_cons_of_mem _ hb)
    cases c with
    | nil =>
      have h0 : toupper 0 = 0 := by decide
      have hne : ¬ (0 = toupper x) := fun h => toupper_ne_zero x hx h.symm
      simp [tagcompare, peek, h0, hne]
    | cons b cs =>
      simp only [List.length_cons, tagcompare, peek, List.headD_cons, List.tail_cons,
        List.take_succ_cons, List.map_cons, List.cons.injEq]
      by_cases hb : toupper b = toupper x
      · simp [hb, ih cs hxs]
      · simp [hb]

/-- For a key without NUL, `strncasecmp` gives `0` exactly when `tagcompare`
does. -/
theorem strncasecmp_eq_zero_iff (K : Str) : ∀ (c : Str), (∀ b ∈ K, b ≠ 0) →
    (strncasecmp c K K.length = 0 ↔ tagcompare c K K.length = 0) := by
  induction K with
  | nil => intro c _; simp [tagcompare, strncasecmp]
  | cons x xs ih =>
    intro c hK
    have hx : x ≠ 0 := hK x (List.mem_cons_self _ _)
    have hxs : ∀ b ∈ xs, b ≠ 0 := fun b hb => hK b (List.mem_cons_of_mem _ hb)
    have hlow := tolower_ne_zero x hx
    simp only [List.length_cons, tagcompare, strncasecmp, peek, List.headD_cons, List.tail_cons]
    by_cases hb : tolower (c.headD 0) = tolower x
    · have hb2 : toupper (c.headD 0) = toupper x := (toupper_eq_iff_tolower_eq _ _).2 hb
      have hc0 : c.headD 0 ≠ 0 := by
        intro h0; rw [h0] at hb
        have h00 : tolower 0 = 0 := by decide
        rw [h00] at hb; exact hlow hb.symm
      simp only [hb, hb2, ne_eq, not_true_eq_false, if_false, hc0]
      exact ih c.tail hxs
    · have hb2 : ¬ toupper (c.headD 0) = toupper x :=
        fun h => hb ((toupper_eq_iff_tolower_eq _ _).1 h)
      simp only [hb, hb2, ne_eq, not_false_eq_true, if_true]
      constructor
      · intro h; omega
      · intro h; omega


/-! ## Queries and the in-place truncation -/

theorem query_eq_values (tag : Str) : ∀ (vc : List Str) (n : Nat),
    vorbis_comment_query vc tag n = (comment_values vc tag)[n]? := by
  intro vc
  induction vc with
  | nil => intro n; simp [vorbis_comment_query, comment_values]
  | cons c rest ih =>
    intro n
    simp only [vorbis_comment_query, comment_values, List.filterMap_cons]
    by_cases h : tagcompare c (fulltag tag) (fulltag tag).length = 0
    · simp only [h, if_true]
      cases n with
      | zero => simp
      | succ k => simp only [List.getElem?_cons_succ]; exact ih k
    · simp only [h, if_false]; exact ih n

theorem truncate_first_length (T : Str) (k : Nat) : ∀ vc : List Str,
    (truncate_first vc T k).length = vc.length := by
  intro vc
  induction vc with
  | nil => rfl
  | cons c rest ih =>
    simp only [truncate_first]
    split
    · simp
    · simp [ih]

theorem tags_disjoint_spec (T tag : Str) (h : tags_disjoint T tag = true) (c : Str)
    (hT : tagcompare c (fulltag T) (fulltag T).length = 0) :
    tagcompare c (fulltag tag) (fulltag tag).length ≠ 0 := by
  simp only [tags_disjoint, Bool.and_eq_true, List.all_eq_true, decide_eq_true_eq] at h
  obtain ⟨⟨z1, z2⟩, hne⟩ := h
  intro htag
  rw [tagcompare_eq_zero_iff _ _ z1] at hT
  rw [tagcompare_eq_zero_iff _ _ z2] at htag
  apply hne
  have e1 := congrArg (List.take (min (fulltag T).length (fulltag tag).length)) hT
  have e2 := congrArg (List.take (min (fulltag T).length (fulltag tag).length)) htag
  rw [← e1, ← e2]
  simp only [← List.map_take, List.take_take]
  congr 2; omega

theorem values_truncate_first (T tag : Str) (k : Nat) (h : tags_disjoint T tag = true) :
    ∀ vc : List Str, comment_values (truncate_first vc T k) tag = comment_values vc tag := by
  intro vc
  induction vc with
  | nil => rfl
  | cons c rest ih =>
    simp only [truncate_first]
    by_cases hT : tagcompare c (fulltag T) (fulltag T).length = 0
    · have hT2 : tagcompare (c.take ((fulltag T).length + k)) (fulltag T) (fulltag T).length = 0 := by
        rw [tagcompare_take]; exact hT
      have n1 := tags_disjoint_spec T tag h c hT
      have n2 := tags_disjoint_spec T tag h _ hT2
      simp only [hT, if_true, comment_values, List.filterMap_cons, n1, n2, if_false]
    · simp only [hT, if_false]
      simp only [comment_values, List.filterMap_cons] at ih ⊢
      rw [ih]

theorem query_truncate_first (T tag : Str) (k : Nat) (h : tags_disjoint T tag = true)
    (vc : List Str) (n : Nat) :
    vorbis_comment_query (truncate_first vc T k) tag n = vorbis_comment_query vc tag n := by
  rw [query_eq_values, query_eq_values, values_truncate_first T tag k h]


theorem read_multi_loop_congr (E : Collab) (vc vc2 : List Str) (tag : Str)
    (h : ∀ n, vorbis_comment_query vc2 tag n = vorbis_comment_query vc tag n) :
    ∀ (fuel n : Nat) (f : Option Str),
      read_multi_loop E vc2 tag fuel n f = read_multi_loop E vc tag fuel n f := by
  intro fuel
  induction fuel with
  | zero => intro n f; rfl
  | succ fuel ih =>
    intro n f
    simp only [read_multi_loop, h n]
    cases vorbis_comment_query vc tag n with
    | none => rfl
    | some s => simp only [ih]

theorem read_multi_stable (E : Collab) (tag : Str) (f : Option Str)
    (hD : tags_disjoint (ascii "DISCNUMBER") tag = true)
    (hT : tags_disjoint (ascii "TRACKNUMBER") tag = true) :
    truncation_stable (fun vc => read_multi E vc tag f) := by
  intro vc k
  simp only [read_multi, truncate_first_length]
  exact ⟨read_multi_loop_congr E vc _ tag (query_truncate_first _ tag k hD vc) _ _ _,
    read_multi_loop_congr E vc _ tag (query_truncate_first _ tag k hT vc) _ _ _⟩

theorem read_comment_loop_congr (E : Collab) (vc vc2 : List Str)
    (h : ∀ tag ∈ [ascii "DESCRIPTION", ascii "COMMENT", ascii ""], ∀ n,
      vorbis_comment_query vc2 tag n = vorbis_comment_query vc tag n) :
    ∀ (fuel n : Nat) (f : Option Str),
      read_comment_loop E vc2 fuel n f = read_comment_loop E vc fuel n f := by
  intro fuel
  induction fuel with
  | zero => intro n f; rfl
  | succ fuel ih =>
    intro n f
    simp only [read_comment_loop, h (ascii "DESCRIPTION") (by simp) n,
      h (ascii "COMMENT") (by simp) n, h (ascii "") (by simp) n, ih]

theorem read_comment_stable (E : Collab) (f : Option Str) :
    truncation_stable (fun vc => read_comment E vc f) := by
  intro vc k
  simp only [read_comment, truncate_first_length]
  constructor
  · apply read_comment_loop_congr
    intro tag htag n
    apply query_truncate_first
    simp only [List.mem_cons, List.mem_singleton, List.not_mem_nil, or_false] at htag
    rcases htag with rfl | rfl | rfl <;> decide
  · apply read_comment_loop_congr
    intro tag htag n
    apply query_truncate_first
    simp only [List.mem_cons, List.mem_singleton, List.not_mem_nil, or_false] at htag
    rcases htag with rfl | rfl | rfl <;> decide

theorem read_coverart_loop_congr (E : Collab) (vc vc2 : List Str)
    (h : ∀ tag ∈ [ascii "COVERART", ascii "COVERARTTYPE", ascii "COVERARTDESCRIPTION"], ∀ n,
      vorbis_comment_query vc2 tag n = vorbis_comment_query vc tag n) :
    ∀ (fuel n : Nat) (st : Bool × List EtPicture),
      read_coverart_loop E vc2 fuel n st = read_coverart_loop E vc fuel n st := by
  intro fuel
  induction fuel with
  | zero => intro n st; rfl
  | succ fuel ih =>
    intro n st
    simp only [read_coverart_loop, h (ascii "COVERART") (by simp) n,
      h (ascii "COVERARTTYPE") (by simp) n, h (ascii "COVERARTDESCRIPTION") (by simp) n, ih]

theorem read_block_loop_congr (E : Collab) (vc vc2 : List Str)
    (h : ∀ n, vorbis_comment_query vc2 (ascii "METADATA_BLOCK_PICTURE") n
      = vorbis_comment_query vc (ascii "METADATA_BLOCK_PICTURE") n) :
    ∀ (fuel n : Nat) (st : Bool × List EtPicture),
      read_block_loop E vc2 fuel n st = read_block_loop E vc fuel n st := by
  intro fuel
  induction fuel with
  | zero => intro n st; rfl
  | succ fuel ih =>
    intro n st
    simp only [read_block_loop, h n, ih]

theorem read_pictures_stable (E : Collab) (saved : Bool) :
    truncation_stable (fun vc => read_pictures E vc saved) := by
  intro vc k
  simp only [read_pictures, truncate_first_length]
  constructor
  · rw [read_block_loop_congr E vc _ (fun n => query_truncate_first _ _ k (by decide) vc n),
      read_coverart_loop_congr E vc _]
    intro tag htag n
    apply query_truncate_first
    simp only [List.mem_cons, List.mem_singleton, List.not_mem_nil, or_false] at htag
    rcases htag with rfl | rfl | rfl <;> decide
  · rw [read_block_loop_congr E vc _ (fun n => query_truncate_first _ _ k (by decide) vc n),
      read_coverart_loop_congr E vc _]
    intro tag htag n
    apply query_truncate_first
    simp only [List.mem_cons, List.mem_singleton, List.not_mem_nil, or_false] at htag
    rcases htag with rfl | rfl | rfl <;> decide


theorem supported_of_strncasecmp (K : Str) (n : Nat) (hmem : (K, n) ∈ supported_fields)
    (c : Str) (h : strncasecmp c K n = 0) : is_unsupported c = false := by
  simp only [is_unsupported, List.all_eq_false]
  exact ⟨(K, n), hmem, by simp [h]⟩

theorem supported_of_tagcompare (T : Str) (hmem : (fulltag T, (fulltag T).length) ∈ supported_fields)
    (hz : ∀ b ∈ fulltag T, b ≠ 0) (c : Str)
    (h : tagcompare c (fulltag T) (fulltag T).length = 0) : is_unsupported c = false :=
  supported_of_strncasecmp _ _ hmem c ((strncasecmp_eq_zero_iff _ c hz).2 h)

theorem filter_truncate_first (T : Str) (k : Nat)
    (hmem : (fulltag T, (fulltag T).length) ∈ supported_fields)
    (hz : ∀ b ∈ fulltag T, b ≠ 0) : ∀ vc : List Str,
    (truncate_first vc T k).filter is_unsupported = vc.filter is_unsupported := by
  intro vc
  induction vc with
  | nil => rfl
  | cons c rest ih =>
    simp only [truncate_first]
    by_cases hT : tagcompare c (fulltag T) (fulltag T).length = 0
    · have hT2 : tagcompare (c.take ((fulltag T).length + k)) (fulltag T) (fulltag T).length = 0 := by
        rw [tagcompare_take]; exact hT
      simp only [hT, if_true, List.filter_cons, supported_of_tagcompare T hmem hz c hT,
        supported_of_tagcompare T hmem hz _ hT2]
      simp
    · simp only [hT, if_false, List.filter_cons, ih]

theorem filter_unsupported_stable : truncation_stable (fun vc => vc.filter is_unsupported) := by
  intro vc k
  exact ⟨filter_truncate_first _ k (by decide) (by decide) vc,
    filter_truncate_first _ k (by decide) (by decide) vc⟩

theorem read_other_stable (E : Collab) : truncation_stable (fun vc => read_other E vc) := by
  intro vc k
  simp only [read_other, (filter_unsupported_stable vc k).1, (filter_unsupported_stable vc k).2,
    and_self]

theorem read_disc_fst (E : Collab) (vc : List Str) (t : File_Tag) :
    (read_disc E vc t).1 = vc
      ∨ ∃ k, (read_disc E vc t).1 = truncate_first vc (ascii "DISCNUMBER") k := by
  unfold read_disc
  split
  · exact Or.inl rfl
  · split
    · exact Or.inl rfl
    · split
      · exact Or.inr ⟨_, rfl⟩
      · exact Or.inl rfl

theorem read_track_fst (E : Collab) (vc : List Str) (t : File_Tag) :
    (read_track E vc t).1 = vc
      ∨ ∃ k, (read_track E vc t).1 = truncate_first vc (ascii "TRACKNUMBER") k := by
  unfold read_track
  split
  · exact Or.inl rfl
  · split
    · exact Or.inl rfl
    · split
      · exact Or.inr ⟨_, rfl⟩
      · exact Or.inl rfl

/-- A truncation-stable function sees the comment list after the disc and
track sections as it was before them. -/
theorem stable_after_sections {α : Type} (F : List Str → α) (hF : truncation_stable F)
    (E : Collab) (vc : List Str) (t t2 : File_Tag) :
    F (read_track E (read_disc E vc t).1 t2).1 = F vc
      ∧ F (read_disc E vc t).1 = F vc := by
  have h1 : F (read_disc E vc t).1 = F vc := by
    rcases read_disc_fst E vc t with h | ⟨k, h⟩
    · rw [h]
    · rw [h]; exact (hF vc k).1
  refine ⟨?_, h1⟩
  rcases read_track_fst E (read_disc E vc t).1 t2 with h | ⟨k, h⟩
  · rw [h]; exact h1
  · rw [h, (hF _ k).2]; exact h1


theorem read_disc_snd (E : Collab) (vc : List Str) (t : File_Tag) :
    (read_disc E vc t).2 = { t with disc_number := (read_disc E vc t).2.disc_number,
                                    disc_total := (read_disc E vc t).2.disc_total } := by
  unfold read_disc
  split
  · rfl
  · split
    · rfl
    · split <;> rfl

theorem read_track_snd (E : Collab) (vc : List Str) (t : File_Tag) :
    (read_track E vc t).2 = { t with track := (read_track E vc t).2.track,
                                     track_total := (read_track E vc t).2.track_total } := by
  unfold read_track
  split
  · rfl
  · split
    · rfl
    · split <;> rfl

theorem read_year_eq (vc : List Str) (t : File_Tag) :
    read_year vc t = { t with year := (read_year vc t).year } := by
  unfold read_year
  split <;> rfl

theorem read_disc_congr (E : Collab) (vc : List Str) (t t2 : File_Tag)
    (h1 : t.disc_number = t2.disc_number) (h2 : t.disc_total = t2.disc_total) :
    (read_disc E vc t).2.disc_number = (read_disc E vc t2).2.disc_number
      ∧ (read_disc E vc t).2.disc_total = (read_disc E vc t2).2.disc_total := by
  unfold read_disc
  split
  · exact ⟨h1, h2⟩
  · split
    · exact ⟨rfl, rfl⟩
    · split
      · exact ⟨rfl, rfl⟩
      · exact ⟨rfl, h2⟩

theorem read_year_congr (vc : List Str) (t t2 : File_Tag) (h : t.year = t2.year) :
    (read_year vc t).year = (read_year vc t2).year := by
  unfold read_year
  split
  · exact h
  · rfl

theorem read_track_congr (E : Collab) (vc : List Str) (t t2 : File_Tag)
    (h1 : t.track = t2.track) (h2 : t.track_total = t2.track_total) :
    (read_track E vc t).2.track = (read_track E vc t2).2.track
      ∧ (read_track E vc t).2.track_total = (read_track E vc t2).2.track_total := by
  unfold read_track
  split
  · exact ⟨h1, h2⟩
  · split
    · exact ⟨rfl, rfl⟩
    · split
      · exact ⟨rfl, rfl⟩
      · exact ⟨rfl, h2⟩

theorem read_year_truncate (vc : List Str) (k : Nat) (t : File_Tag) :
    (read_year (truncate_first vc (ascii "DISCNUMBER") k) t).year = (read_year vc t).year := by
  simp only [read_year, query_truncate_first _ _ k (show tags_disjoint (ascii "DISCNUMBER")
    (ascii "DATE") = true by decide)]

theorem read_track_truncate (E : Collab) (vc : List Str) (k : Nat) (t : File_Tag) :
    (read_track E (truncate_first vc (ascii "DISCNUMBER") k) t).2 = (read_track E vc t).2 := by
  simp only [read_track, query_truncate_first _ _ k (show tags_disjoint (ascii "DISCNUMBER")
    (ascii "TRACKNUMBER") = true by decide), query_truncate_first _ _ k
    (show tags_disjoint (ascii "DISCNUMBER") (ascii "TRACKTOTAL") = true by decide)]
  split
  · rfl
  · split
    · rfl
    · split <;> rfl

theorem decode_title (E : Collab) (vc : List Str) (t : File_Tag) :
    (et_add_file_tags_from_vorbis_comments E vc t).title
      = read_multi E vc (ascii "TITLE") t.title := by
  simp only [et_add_file_tags_from_vorbis_comments]
  rw [read_track_snd, read_year_eq, read_disc_snd]

theorem decode_artist (E : Collab) (vc : List Str) (t : File_Tag) :
    (et_add_file_tags_from_vorbis_comments E vc t).artist
      = read_multi E vc (ascii "ARTIST") t.artist := by
  simp only [et_add_file_tags_from_vorbis_comments]
  rw [read_track_snd, read_year_eq, read_disc_snd]

theorem decode_album_artist (E : Collab) (vc : List Str) (t : File_Tag) :
    (et_add_file_tags_from_vorbis_comments E vc t).album_artist
      = read_multi E vc (ascii "ALBUMARTIST") t.album_artist := by
  simp only [et_add_file_tags_from_vorbis_comments]
  rw [read_track_snd, read_year_eq, read_disc_snd]

theorem decode_album (E : Collab) (vc : List Str) (t : File_Tag) :
    (et_add_file_tags_from_vorbis_comments E vc t).album
      = read_multi E vc (ascii "ALBUM") t.album := by
  simp only [et_add_file_tags_from_vorbis_comments]
  rw [read_track_snd, read_year_eq, read_disc_snd]

theorem decode_genre (E : Collab) (vc : List Str) (t : File_Tag) :
    (et_add_file_tags_from_vorbis_comments E vc t).genre
      = read_multi E vc (ascii "GENRE") t.genre := by
  simp only [et_add_file_tags_from_vorbis_comments]
  rw [(stable_after_sections _ (read_multi_stable E (ascii "GENRE") _ (by decide) (by decide))
    E vc _ _).1]
  rw [read_track_snd, read_year_eq, read_disc_snd]

theorem decode_composer (E : Collab) (vc : List Str) (t : File_Tag) :
    (et_add_file_tags_from_vorbis_comments E vc t).composer
      = read_multi E vc (ascii "COMPOSER") t.composer := by
  simp only [et_add_file_tags_from_vorbis_comments]
  rw [(stable_after_sections _ (read_multi_stable E (ascii "COMPOSER") _ (by decide) (by decide))
    E vc _ _).1]
  rw [read_track_snd, read_year_eq, read_disc_snd]

theorem decode_orig_artist (E : Collab) (vc : List Str) (t : File_Tag) :
    (et_add_file_tags_from_vorbis_comments E vc t).orig_artist
      = read_multi E vc (ascii "PERFORMER") t.orig_artist := by
  simp only [et_add_file_tags_from_vorbis_comments]
  rw [(stable_after_sections _ (read_multi_stable E (ascii "PERFORMER") _ (by decide) (by decide))
    E vc _ _).1]
  rw [read_track_snd, read_year_eq, read_disc_snd]

theorem decode_copyright (E : Collab) (vc : List Str) (t : File_Tag) :
    (et_add_file_tags_from_vorbis_comments E vc t).copyright
      = read_multi E vc (ascii "COPYRIGHT") t.copyright := by
  simp only [et_add_file_tags_from_vorbis_comments]
  rw [(stable_after_sections _ (read_multi_stable E (ascii "COPYRIGHT") _ (by decide) (by decide))
    E vc _ _).1]
  rw [read_track_snd, read_year_eq, read_disc_snd]

theorem decode_url (E : Collab) (vc : List Str) (t : File_Tag) :
    (et_add_file_tags_from_vorbis_comments E vc t).url
      = read_multi E vc (ascii "CONTACT") t.url := by
  simp only [et_add_file_tags_from_vorbis_comments]
  rw [(stable_after_sections _ (read_multi_stable E (ascii "CONTACT") _ (by decide) (by decide))
    E vc _ _).1]
  rw [read_track_snd, read_year_eq, read_disc_snd]

theorem decode_encoded_by (E : Collab) (vc : List Str) (t : File_Tag) :
    (et_add_file_tags_from_vorbis_comments E vc t).encoded_by
      = read_multi E vc (ascii "ENCODED-BY") t.encoded_by := by
  simp only [et_add_file_tags_from_vorbis_comments]
  rw [(stable_after_sections _ (read_multi_stable E (ascii "ENCODED-BY") _ (by decide) (by decide))
    E vc _ _).1]
  rw [read_track_snd, read_year_eq, read_disc_snd]

theorem decode_comment (E : Collab) (vc : List Str) (t : File_Tag) :
    (et_add_file_tags_from_vorbis_comments E vc t).comment = read_comment E vc t.comment := by
  simp only [et_add_file_tags_from_vorbis_comments]
  rw [(stable_after_sections _ (read_comment_stable E _) E vc _ _).1]
  rw [read_track_snd, read_year_eq, read_disc_snd]

theorem decode_other (E : Collab) (vc : List Str) (t : File_Tag) :
    (et_add_file_tags_from_vorbis_comments E vc t).other = t.other ++ read_other E vc := by
  simp only [et_add_file_tags_from_vorbis_comments]
  rw [(stable_after_sections _ (read_other_stable E) E vc _ _).1]
  rw [read_track_snd, read_year_eq, read_disc_snd]

theorem decode_saved (E : Collab) (vc : List Str) (t : File_Tag) :
    (et_add_file_tags_from_vorbis_comments E vc t).saved = (read_pictures E vc t.saved).1 := by
  simp only [et_add_file_tags_from_vorbis_comments]
  rw [(stable_after_sections _ (read_pictures_stable E _) E vc _ _).1]
  rw [read_track_snd, read_year_eq, read_disc_snd]

theorem decode_picture (E : Collab) (vc : List Str) (t : File_Tag) :
    (et_add_file_tags_from_vorbis_comments E vc t).picture
      = if (read_pictures E vc t.saved).2 = [] then t.picture
        else (read_pictures E vc t.saved).2 := by
  simp only [et_add_file_tags_from_vorbis_comments]
  rw [(stable_after_sections _ (read_pictures_stable E _) E vc _ _).1]
  rw [read_track_snd, read_year_eq, read_disc_snd]

theorem decode_disc_number (E : Collab) (vc : List Str) (t : File_Tag) :
    (et_add_file_tags_from_vorbis_comments E vc t).disc_number
      = (read_disc E vc t).2.disc_number := by
  simp only [et_add_file_tags_from_vorbis_comments]
  rw [read_track_snd, read_year_eq]
  dsimp only
  exact (read_disc_congr E vc _ t (by rfl) (by rfl)).1

theorem decode_disc_total (E : Collab) (vc : List Str) (t : File_Tag) :
    (et_add_file_tags_from_vorbis_comments E vc t).disc_total
      = (read_disc E vc t).2.disc_total := by
  simp only [et_add_file_tags_from_vorbis_comments]
  rw [read_track_snd, read_year_eq]
  dsimp only
  exact (read_disc_congr E vc _ t (by rfl) (by rfl)).2

theorem decode_year (E : Collab) (vc : List Str) (t : File_Tag) :
    (et_add_file_tags_from_vorbis_comments E vc t).year = (read_year vc t).year := by
  simp only [et_add_file_tags_from_vorbis_comments]
  rw [read_track_snd]
  simp only []
  have h : ∀ t2 : File_Tag, (read_year (read_disc E vc t2).1 (read_disc E vc t2).2).year
      = (read_year vc (read_disc E vc t2).2).year := by
    intro t2
    rcases read_disc_fst E vc t2 with h | ⟨k, h⟩
    · rw [h]
    · rw [h, read_year_truncate]
  rw [h]
  apply read_year_congr
  rw [read_disc_snd]

theorem decode_track (E : Collab) (vc : List Str) (t : File_Tag) :
    (et_add_file_tags_from_vorbis_comments E vc t).track = (read_track E vc t).2.track := by
  simp only [et_add_file_tags_from_vorbis_comments]
  have h : ∀ t2 t3 : File_Tag, (read_track E (read_disc E vc t2).1 t3).2
      = (read_track E vc t3).2 := by
    intro t2 t3
    rcases read_disc_fst E vc t2 with h | ⟨k, h⟩
    · rw [h]
    · rw [h, read_track_truncate]
  rw [h]
  apply (read_track_congr E vc _ t _ _).1
  · rw [read_year_eq, read_disc_snd]
  · rw [read_year_eq, read_disc_snd]

theorem decode_track_total (E : Collab) (vc : List Str) (t : File_Tag) :
    (et_add_file_tags_from_vorbis_comments E vc t).track_total
      = (read_track E vc t).2.track_total := by
  simp only [et_add_file_tags_from_vorbis_comments]
  have h : ∀ t2 t3 : File_Tag, (read_track E (read_disc E vc t2).1 t3).2
      = (read_track E vc t3).2 := by
    intro t2 t3
    rcases read_disc_fst E vc t2 with h | ⟨k, h⟩
    · rw [h]
    · rw [h, read_track_truncate]
  rw [h]
  apply (read_track_congr E vc _ t _ _).2
  · rw [read_year_eq, read_disc_snd]
  · rw [read_year_eq, read_disc_snd]

theorem file_tag_ext (a b : File_Tag) (h0 : a.saved = b.saved) (h1 : a.title = b.title)
    (h2 : a.artist = b.artist) (h3 : a.album_artist = b.album_artist) (h4 : a.album = b.album)
    (h5 : a.disc_number = b.disc_number) (h6 : a.disc_total = b.disc_total)
    (h7 : a.year = b.year) (h8 : a.track = b.track) (h9 : a.track_total = b.track_total)
    (h10 : a.genre = b.genre) (h11 : a.comment = b.comment) (h12 : a.composer = b.composer)
    (h13 : a.orig_artist = b.orig_artist) (h14 : a.copyright = b.copyright)
    (h15 : a.url = b.url) (h16 : a.encoded_by = b.encoded_by) (h17 : a.picture = b.picture)
    (h18 : a.other = b.other) : a = b := by
  cases a; cases b; simp_all

/-- The reader, section by section, on the comment list as it was on entry:
the two in-place truncations are not seen by any later section. -/
theorem decode_eq (E : Collab) (vc : List Str) (t : File_Tag) :
    et_add_file_tags_from_vorbis_comments E vc t =
      { saved := (read_pictures E vc t.saved).1,
        title := read_multi E vc (ascii "TITLE") t.title,
        artist := read_multi E vc (ascii "ARTIST") t.artist,
        album_artist := read_multi E vc (ascii "ALBUMARTIST") t.album_artist,
        album := read_multi E vc (ascii "ALBUM") t.album,
        disc_number := (read_disc E vc t).2.disc_number,
        disc_total := (read_disc E vc t).2.disc_total,
        year := (read_year vc t).year,
        track := (read_track E vc t).2.track,
        track_total := (read_track E vc t).2.track_total,
        genre := read_multi E vc (ascii "GENRE") t.genre,
        comment := read_comment E vc t.comment,
        composer := read_multi E vc (ascii "COMPOSER") t.composer,
        orig_artist := read_multi E vc (ascii "PERFORMER") t.orig_artist,
        copyright := read_multi E vc (ascii "COPYRIGHT") t.copyright,
        url := read_multi E vc (ascii "CONTACT") t.url,
        encoded_by := read_multi E vc (ascii "ENCODED-BY") t.encoded_by,
        picture := if (read_pictures E vc t.saved).2 = [] then t.picture
          else (read_pictures E vc t.saved).2,
        other := t.other ++ read_other E vc } := by
  apply file_tag_ext
  · exact decode_saved E vc t
  · exact decode_title E vc t
  · exact decode_artist E vc t
  · exact decode_album_artist E vc t
  · exact decode_album E vc t
  · exact decode_disc_number E vc t
  · exact decode_disc_total E vc t
  · exact decode_year E vc t
  · exact decode_track E vc t
  · exact decode_track_total E vc t
  · exact decode_genre E vc t
  · exact decode_comment E vc t
  · exact decode_composer E vc t
  · exact decode_orig_artist E vc t
  · exact decode_copyright E vc t
  · exact decode_url E vc t
  · exact decode_encoded_by E vc t
  · exact decode_picture E vc t
  · exact decode_other E vc t


/-! ## The extension list -/

theorem map_toupper_eq_iff : ∀ (a b : Str),
    a.map toupper = b.map toupper ↔ a.map tolower = b.map tolower := by
  intro a
  induction a with
  | nil => intro b; cases b <;> simp
  | cons x xs ih =>
    intro b
    cases b with
    | nil => simp
    | cons y ys => simp [toupper_eq_iff_tolower_eq, ih]

theorem toupper_eq_61 (b : Nat) : toupper b = toupper 61 ↔ b = 61 := by
  unfold toupper
  split
  · simp; omega
  · simp

theorem strchr_lt (x : Nat) : ∀ (c : Str) (i : Nat), g_utf8_strchr c x = some i → i < c.length := by
  intro c
  induction c with
  | nil => intro i h; simp [g_utf8_strchr] at h
  | cons b bs ih =>
    intro i h
    simp only [g_utf8_strchr] at h
    split at h
    · cases h; simp
    · cases hr : g_utf8_strchr bs x with
      | none => rw [hr] at h; simp at h
      | some j =>
        rw [hr] at h; simp at h
        have := ih j hr
        simp; omega

theorem strchr_of_key : ∀ (name c : Str), 61 ∉ name →
    (c.take (name.length + 1)).map toupper = (name ++ [61]).map toupper →
    g_utf8_strchr c 61 = some name.length := by
  intro name
  induction name with
  | nil =>
    intro c _ h
    cases c with
    | nil => simp at h
    | cons b bs =>
      simp at h
      have hb : b = 61 := (toupper_eq_61 b).1 h
      simp [g_utf8_strchr, hb]
  | cons x xs ih =>
    intro c hx h
    cases c with
    | nil => simp at h
    | cons b bs =>
      simp only [List.length_cons, List.take_succ_cons, List.map_cons, List.cons_append,
        List.cons.injEq] at h
      have hx1 : x ≠ 61 := fun e => hx (by simp [e])
      have hxs : 61 ∉ xs := fun e => hx (List.mem_cons_of_mem _ e)
      have hb : b ≠ 61 := by
        intro e
        rw [e] at h
        exact hx1 ((toupper_eq_61 x).1 h.1.symm)
      simp [g_utf8_strchr, hb, ih bs hxs h.2]

/-- A key `name=` matches the first bytes of a comment up to case exactly when
it equals, up to case, the key of the comment. -/
theorem key_match_iff (name c : Str) (hname : 61 ∉ name) :
    (c.take (name ++ [61]).length).map toupper = (name ++ [61]).map toupper
      ↔ ∃ k, comment_key c = some k ∧ same_ignoring_case k (name ++ [61]) = true := by
  constructor
  · intro h
    have hlen : (name ++ [61]).length = name.length + 1 := by simp
    rw [hlen] at h
    refine ⟨c.take (name.length + 1), ?_, ?_⟩
    · simp [comment_key, strchr_of_key name c hname h]
    · simp only [same_ignoring_case, decide_eq_true_eq]
      exact (map_toupper_eq_iff _ _).1 h
  · rintro ⟨k, hk, hsame⟩
    simp only [comment_key] at hk
    cases hi : g_utf8_strchr c 61 with
    | none => rw [hi] at hk; simp at hk
    | some i =>
      rw [hi] at hk
      simp only [Option.map_some', Option.some.injEq] at hk
      simp only [same_ignoring_case, decide_eq_true_eq] at hsame
      have hup := (map_toupper_eq_iff _ _).2 hsame
      have hl := congrArg List.length hup
      have hlt := strchr_lt 61 c i hi
      rw [← hk] at hl hup
      simp only [List.length_map, List.length_take] at hl
      have : (name ++ [61]).length = i + 1 := by omega
      rw [this]; exact hup

/-- C4, at the failing input: the `DISCTOTAL` comment supplies `disc_total` and
is also kept in the extension list. -/
theorem disctotal_decoded_and_preserved :
    (et_add_file_tags_from_vorbis_comments reference_collab
        [ascii "DISCNUMBER=1", ascii "DISCTOTAL=2"] et_file_tag_new).disc_total
        = some (ascii "2")
      ∧ (et_add_file_tags_from_vorbis_comments reference_collab
        [ascii "DISCNUMBER=1", ascii "DISCTOTAL=2"] et_file_tag_new).other
        = [some (ascii "DISCTOTAL=2")] := by
  decide

/-! ## Writing the extension list back -/

theorem reference_sanitizer_id (s : Str) (h : g_utf8_validate s = true) :
    reference_collab.Try_To_Validate_Utf8_String s = s := by
  simp [reference_collab, h]

theorem g_utf8_strlen_pos (s : Str) (h : s ≠ []) : g_utf8_strlen s > 0 := by
  cases s with
  | nil => exact absurd rfl h
  | cons b bs => simp [g_utf8_strlen, g_utf8_strlen_loop]

theorem g_utf8_strlen_nil : g_utf8_strlen [] = 0 := rfl

theorem if_nonempty_some (s : Str) (h : s ≠ []) : if_nonempty (some s) = some s := by
  simp [if_nonempty, g_utf8_strlen_pos s h]

theorem if_nonempty_eq_none (o : Option Str) (h : ∀ s, o = some s → s = []) :
    if_nonempty o = none := by
  cases o with
  | none => rfl
  | some s => rw [h s rfl]; rfl

theorem strchr_first (x : Nat) : ∀ (a b : Str), x ∉ a →
    g_utf8_strchr (a ++ x :: b) x = some a.length := by
  intro a
  induction a with
  | nil => intro b _; simp [g_utf8_strchr]
  | cons y ys ih =>
    intro b h
    have hy : y ≠ x := fun e => h (by simp [e])
    have hys : x ∉ ys := fun e => h (List.mem_cons_of_mem _ e)
    simp [g_utf8_strchr, hy, ih b hys]

theorem read_track_slash (E : Collab) (vc : List Str) (t : File_Tag) (a b : Str)
    (hv : vorbis_comment_query vc (ascii "TRACKNUMBER") 0 = some (a ++ 47 :: b))
    (ha : 47 ∉ a)
    (htot : if_nonempty (vorbis_comment_query vc (ascii "TRACKTOTAL") 0) = none) :
    (read_track E vc t).2.track = some a
      ∧ (read_track E vc t).2.track_total
          = some (E.et_track_number_to_string (atoi b)) := by
  simp [read_track, hv, if_nonempty_some (a ++ 47 :: b) (by simp), htot, strchr_first 47 a b ha]

theorem read_disc_slash (E : Collab) (vc : List Str) (t : File_Tag) (a b : Str)
    (hv : vorbis_comment_query vc (ascii "DISCNUMBER") 0 = some (a ++ 47 :: b))
    (ha : 47 ∉ a)
    (htot : if_nonempty (vorbis_comment_query vc (ascii "DISCTOTAL") 0) = none) :
    (read_disc E vc t).2.disc_number = some (E.et_disc_number_to_string (atoi a))
      ∧ (read_disc E vc t).2.disc_total
          = some (E.et_disc_number_to_string (atoi b)) := by
  simp [read_disc, hv, if_nonempty_some (a ++ 47 :: b) (by simp), htot, strchr_first 47 a b ha]

theorem read_track_with_total (E : Collab) (vc : List Str) (t : File_Tag) (v s : Str)
    (hv : vorbis_comment_query vc (ascii "TRACKNUMBER") 0 = some v) (hne : v ≠ [])
    (hs : vorbis_comment_query vc (ascii "TRACKTOTAL") 0 = some s) (hsne : s ≠ []) :
    (read_track E vc t).2.track = some v
      ∧ (read_track E vc t).2.track_total
          = some (E.et_track_number_to_string (atoi s)) := by
  simp [read_track, hv, hs, if_nonempty_some v hne, if_nonempty_some s hsne]

theorem read_disc_with_total (E : Collab) (vc : List Str) (t : File_Tag) (v s : Str)
    (hv : vorbis_comment_query vc (ascii "DISCNUMBER") 0 = some v) (hne : v ≠ [])
    (hs : vorbis_comment_query vc (ascii "DISCTOTAL") 0 = some s) (hsne : s ≠ []) :
    (read_disc E vc t).2.disc_number = some (E.et_disc_number_to_string (atoi v))
      ∧ (read_disc E vc t).2.disc_total
          = some (E.et_disc_number_to_string (atoi s)) := by
  simp [read_disc, hv, hs, if_nonempty_some v hne, if_nonempty_some s hsne]

/-- C6: when the first `TRACKNUMBER` value is `a/b` (`a` without slash) and no
`TRACKTOTAL` occurrence is non-empty, the reader sets the track to `a` and the
track total to the formatted `atoi` of `b`; when the first `DISCNUMBER` value
is `a/b` and no `DISCTOTAL` occurrence is non-empty, it sets the disc number
to the formatted `atoi` of `a` and the disc total to the formatted `atoi` of
`b`. -/
theorem vorbis_slash_pair_decode (E : Collab) (vc : List Str) (FileTag : File_Tag) :
    (∀ a b : Str,
        vorbis_comment_query vc (ascii "TRACKNUMBER") 0 = some (a ++ 47 :: b) → 47 ∉ a →
        (∀ n s, vorbis_comment_query vc (ascii "TRACKTOTAL") n = some s → s = []) →
        (et_add_file_tags_from_vorbis_comments E vc FileTag).track = some a
          ∧ (et_add_file_tags_from_vorbis_comments E vc FileTag).track_total
              = some (E.et_track_number_to_string (atoi b)))
      ∧ (∀ a b : Str,
        vorbis_comment_query vc (ascii "DISCNUMBER") 0 = some (a ++ 47 :: b) → 47 ∉ a →
        (∀ n s, vorbis_comment_query vc (ascii "DISCTOTAL") n = some s → s = []) →
        (et_add_file_tags_from_vorbis_comments E vc FileTag).disc_number
            = some (E.et_disc_number_to_string (atoi a))
          ∧ (et_add_file_tags_from_vorbis_comments E vc FileTag).disc_total
              = some (E.et_disc_number_to_string (atoi b))) := by
  constructor
  · intro a b hv ha htot
    rw [decode_track, decode_track_total]
    exact read_track_slash E vc FileTag a b hv ha (if_nonempty_eq_none _ (htot 0))
  · intro a b hv ha htot
    rw [decode_disc_number, decode_disc_total]
    exact read_disc_slash E vc FileTag a b hv ha (if_nonempty_eq_none _ (htot 0))

/-- Witness for C6: `TRACKNUMBER=3/12` alone decodes to track `3` and track
total `12` with the reference collaborators. -/
theorem vorbis_slash_pair_decode_witness :
    (et_add_file_tags_from_vorbis_comments reference_collab [ascii "TRACKNUMBER=3/12"]
        et_file_tag_new).track = some (ascii "3")
      ∧ (et_add_file_tags_from_vorbis_comments reference_collab [ascii "TRACKNUMBER=3/12"]
        et_file_tag_new).track_total = some (ascii "12") :=
  (vorbis_slash_pair_decode reference_collab [ascii "TRACKNUMBER=3/12"] et_file_tag_new).1
    (ascii "3") (ascii "12") (by decide) (by decide)
    (by
      intro n s h
      have hnone : comment_values [ascii "TRACKNUMBER=3/12"] (ascii "TRACKTOTAL") = [] := by
        decide
      rw [query_eq_values, hnone] at h
      simp at h)

/-- C7: when the first `TRACKNUMBER` and the first `TRACKTOTAL` are non-empty
the track total is the formatted `atoi` of the `TRACKTOTAL` text, whatever the
`TRACKNUMBER` text holds; likewise the disc total comes from a non-empty first
`DISCTOTAL`. Hence `TRACKNUMBER=3` with `TRACKTOTAL=12` decodes to the same
track and track total as `TRACKNUMBER=3/12`. -/
theorem vorbis_total_key_precedence (E : Collab) (vc : List Str) (FileTag : File_Tag) :
    (∀ v s : Str,
        vorbis_comment_query vc (ascii "TRACKNUMBER") 0 = some v → v ≠ [] →
        vorbis_comment_query vc (ascii "TRACKTOTAL") 0 = some s → s ≠ [] →
        (et_add_file_tags_from_vorbis_comments E vc FileTag).track_total
          = some (E.et_track_number_to_string (atoi s)))
      ∧ (∀ v s : Str,
        vorbis_comment_query vc (ascii "DISCNUMBER") 0 = some v → v ≠ [] →
        vorbis_comment_query vc (ascii "DISCTOTAL") 0 = some s → s ≠ [] →
        (et_add_file_tags_from_vorbis_comments E vc FileTag).disc_total
          = some (E.et_disc_number_to_string (atoi s)))
      ∧ (et_add_file_tags_from_vorbis_comments E
            [ascii "TRACKNUMBER=3", ascii "TRACKTOTAL=12"] FileTag).track
          = (et_add_file_tags_from_vorbis_comments E [ascii "TRACKNUMBER=3/12"] FileTag).track
      ∧ (et_add_file_tags_from_vorbis_comments E
            [ascii "TRACKNUMBER=3", ascii "TRACKTOTAL=12"] FileTag).track_total
          = (et_add_file_tags_from_vorbis_comments E [ascii "TRACKNUMBER=3/12"]
              FileTag).track_total := by
  have h1 := read_track_with_total E [ascii "TRACKNUMBER=3", ascii "TRACKTOTAL=12"] FileTag
    (ascii "3") (ascii "12") (by decide) (by decide) (by decide) (by decide)
  have h2 := read_track_slash E [ascii "TRACKNUMBER=3/12"] FileTag (ascii "3") (ascii "12")
    (by decide) (by decide) (by decide)
  refine ⟨?_, ?_, ?_, ?_⟩
  · intro v s hv hne hs hsne
    rw [decode_track_total]
    exact (read_track_with_total E vc FileTag v s hv hne hs hsne).2
  · intro v s hv hne hs hsne
    rw [decode_disc_total]
    exact (read_disc_with_total E vc FileTag v s hv hne hs hsne).2
  · rw [decode_track, decode_track, h1.1, h2.1]
  · rw [decode_track_total, decode_track_total, h1.2, h2.2]

/-- Witness for C7: with `TRACKNUMBER=3/9` and `TRACKTOTAL=12` the decoded
track total is `12`. -/
theorem vorbis_total_key_precedence_witness :
    (et_add_file_tags_from_vorbis_comments reference_collab
        [ascii "TRACKNUMBER=3/9", ascii "TRACKTOTAL=12"] et_file_tag_new).track_total
      = some (ascii "12") :=
  (vorbis_total_key_precedence reference_collab
    [ascii "TRACKNUMBER=3/9", ascii "TRACKTOTAL=12"] et_file_tag_new).1
    (ascii "3/9") (ascii "12") (by decide) (by decide) (by decide) (by decide)


/-! ## Multi-valued fields -/

theorem comment_values_append (a b : List Str) (tag : Str) :
    comment_values (a ++ b) tag = comment_values a tag ++ comment_values b tag := by
  simp [comment_values, List.filterMap_append]

theorem comment_values_length_le (vc : List Str) (tag : Str) :
    (comment_values vc tag).length ≤ vc.length := by
  simp only [comment_values]
  exact List.length_filterMap_le _ _

theorem tagcompare_self_append : ∀ (K v : Str), tagcompare (K ++ v) K K.length = 0 := by
  intro K
  induction K with
  | nil => intro v; rfl
  | cons x xs ih => intro v; simp [tagcompare, peek, ih]

/-- An entry written under the key of the tag is a value of that tag. -/
theorem comment_values_entry_same (tag v : Str) :
    comment_values [fulltag tag ++ v] tag = [v] := by
  simp [comment_values, tagcompare_self_append]

/-- An entry written under another key is not a value of the tag. -/
theorem comment_values_entry_other (T tag v : Str) (h : tags_disjoint T tag = true) :
    comment_values [fulltag T ++ v] tag = [] := by
  have := tags_disjoint_spec T tag h (fulltag T ++ v) (tagcompare_self_append _ v)
  simp [comment_values, this]

theorem read_multi_loop_eq (E : Collab) (vc : List Str) (tag : Str) :
    ∀ (fuel n : Nat) (f : Option Str), (comment_values vc tag).length < fuel + n →
      read_multi_loop E vc tag fuel n f
        = ((comment_values vc tag).drop n).foldl (join_step E) f := by
  intro fuel
  induction fuel with
  | zero =>
    intro n f h
    simp only [read_multi_loop]
    rw [List.drop_eq_nil_of_le (by omega)]
    rfl
  | succ fuel ih =>
    intro n f h
    simp only [read_multi_loop, query_eq_values]
    cases hq : (comment_values vc tag)[n]? with
    | none =>
      have : (comment_values vc tag).length ≤ n := List.getElem?_eq_none_iff.1 hq
      rw [List.drop_eq_nil_of_le this]
      rfl
    | some v =>
      have hlt : n < (comment_values vc tag).length := by
        by_contra hge
        rw [List.getElem?_eq_none (by omega)] at hq
        cases hq
      have hv : (comment_values vc tag)[n] = v := by
        rw [List.getElem?_eq_getElem hlt] at hq
        exact Option.some.inj hq
      rw [List.drop_eq_getElem_cons hlt, hv]
      simp only [List.foldl_cons]
      rw [ih (n + 1) _ (by omega)]
      rfl

/-- A multi-valued loop folds the values of its tag, in order. -/
theorem read_multi_eq (E : Collab) (vc : List Str) (tag : Str) (f : Option Str) :
    read_multi E vc tag f = (comment_values vc tag).foldl (join_step E) f := by
  have := comment_values_length_le vc tag
  rw [read_multi, read_multi_loop_eq E vc tag _ 0 f (by omega), List.drop_zero]


theorem read_comment_loop_eq (E : Collab) (vc : List Str)
    (hC : comment_values vc (ascii "COMMENT") = [])
    (hX : comment_values vc (ascii "") = []) :
    ∀ (fuel n : Nat) (f : Option Str),
      (comment_values vc (ascii "DESCRIPTION")).length < fuel + n →
      read_comment_loop E vc fuel n f
        = ((comment_values vc (ascii "DESCRIPTION")).drop n).foldl (join_step E) f := by
  intro fuel
  induction fuel with
  | zero =>
    intro n f h
    simp only [read_comment_loop]
    rw [List.drop_eq_nil_of_le (by omega)]
    rfl
  | succ fuel ih =>
    intro n f h
    simp only [read_comment_loop, query_eq_values, hC, hX]
    cases hq : (comment_values vc (ascii "DESCRIPTION"))[n]? with
    | none =>
      have : (comment_values vc (ascii "DESCRIPTION")).length ≤ n :=
        List.getElem?_eq_none_iff.1 hq
      rw [List.drop_eq_nil_of_le this]
      simp
    | some v =>
      have hlt : n < (comment_values vc (ascii "DESCRIPTION")).length := by
        by_contra hge
        rw [List.getElem?_eq_none (by omega)] at hq
        cases hq
      have hv : (comment_values vc (ascii "DESCRIPTION"))[n] = v := by
        rw [List.getElem?_eq_getElem hlt] at hq
        exact Option.some.inj hq
      rw [List.drop_eq_getElem_cons hlt, hv]
      simp only [List.foldl_cons]
      rw [← ih (n + 1) _ (by omega)]
      simp only [Option.isSome_some, Bool.true_or, if_true, Option.map_some', Option.map_none',
        Option.isSome_none, Bool.or_self, Bool.or_false]
      congr 1
      simp only [join_step, if_nonempty]
      by_cases hpos : g_utf8_strlen (E.Try_To_Validate_Utf8_String v) > 0
      · simp only [hpos, if_true]
      · simp only [hpos, if_false]

/-- Without `COMMENT` and empty-key comments the comment loop folds the
`DESCRIPTION` values. -/
theorem read_comment_eq (E : Collab) (vc : List Str) (f : Option Str)
    (hC : comment_values vc (ascii "COMMENT") = [])
    (hX : comment_values vc (ascii "") = []) :
    read_comment E vc f = (comment_values vc (ascii "DESCRIPTION")).foldl (join_step E) f := by
  have := comment_values_length_le vc (ascii "DESCRIPTION")
  rw [read_comment, read_comment_loop_eq E vc hC hX _ 0 f (by omega), List.drop_zero]

/-- Without picture comments the picture loops leave the state alone. -/
theorem read_pictures_none (E : Collab) (vc : List Str) (saved : Bool)
    (hC : comment_values vc (ascii "COVERART") = [])
    (hM : comment_values vc (ascii "METADATA_BLOCK_PICTURE") = []) :
    read_pictures E vc saved = (saved, []) := by
  simp [read_pictures, read_block_loop, read_coverart_loop, query_eq_values, hC, hM]


/-! ## Splitting on the separator -/

theorem starts_with_spec : ∀ (pat s : Str), starts_with pat s = true →
    s = pat ++ s.drop pat.length := by
  intro pat
  induction pat with
  | nil => intro s _; simp
  | cons p ps ih =>
    intro s h
    cases s with
    | nil => simp [starts_with] at h
    | cons b bs =>
      simp only [starts_with, Bool.and_eq_true, decide_eq_true_eq] at h
      simp only [List.length_cons, List.drop_succ_cons, List.cons_append, List.cons.injEq]
      exact ⟨h.1.symm, ih bs h.2⟩

theorem strstr_spec (pat : Str) : ∀ (s : Str) (k : Nat), strstr s pat = some k →
    s = s.take k ++ pat ++ s.drop (k + pat.length) := by
  intro s
  induction s with
  | nil =>
    intro k h
    simp only [strstr] at h
    split at h
    · rename_i hp; cases h; simp [hp]
    · cases h
  | cons b bs ih =>
    intro k h
    simp only [strstr] at h
    split at h
    · rename_i hs
      cases h
      simpa using starts_with_spec pat (b :: bs) hs
    · cases hr : strstr bs pat with
      | none => rw [hr] at h; simp at h
      | some j =>
        rw [hr] at h
        simp only [Option.map_some', Option.some.injEq] at h
        subst h
        have := ih j hr
        have e : j + 1 + pat.length = (j + pat.length) + 1 := by omega
        simp only [List.take_succ_cons, e, List.drop_succ_cons, List.cons_append, List.cons.injEq,
          true_and]
        simpa using this

/-- Appending the tokens of a split one after the other, as the multi-valued
loops do, rebuilds the string that was split. -/
theorem foldl_append_split (delimiter : Str) (hd : delimiter = MULTIFIELD_SEPARATOR) :
    ∀ (cuts : Nat) (s : Str) (f : Option Str),
      (g_strsplit_loop delimiter cuts s).foldl append_value f = append_value f s := by
  intro cuts
  induction cuts with
  | zero => intro s f; rfl
  | succ cuts ih =>
    intro s f
    simp only [g_strsplit_loop]
    cases hk : strstr s delimiter with
    | none => rfl
    | some k =>
      simp only [List.foldl_cons]
      rw [ih]
      have hs := strstr_spec delimiter s k hk
      generalize s.take k = a at hs ⊢
      generalize s.drop (k + delimiter.length) = b at hs ⊢
      subst hs
      cases f with
      | none => simp [append_value, hd]
      | some t => simp [append_value, hd]

theorem split_loop_first_ne_nil (delimiter : Str) (cuts : Nat) (s : Str)
    (h : ∀ p ∈ g_strsplit_loop delimiter cuts s, p ≠ []) : s ≠ [] := by
  intro hs
  subst hs
  cases cuts with
  | zero => exact h [] (by simp [g_strsplit_loop]) rfl
  | succ c =>
    simp only [g_strsplit_loop] at h
    cases hk : strstr [] delimiter with
    | none => rw [hk] at h; exact h [] (by simp) rfl
    | some k => rw [hk] at h; exact h ([].take k) (by simp) (by simp)

/-- With fewer cuts allowed the tokens stay non-empty. -/
theorem split_loop_nonempty_mono (delimiter : Str) : ∀ (cuts more : Nat) (s : Str),
    cuts ≤ more → (∀ p ∈ g_strsplit_loop delimiter more s, p ≠ []) →
    ∀ p ∈ g_strsplit_loop delimiter cuts s, p ≠ [] := by
  intro cuts
  induction cuts with
  | zero =>
    intro more s _ h p hp
    simp only [g_strsplit_loop, List.mem_singleton] at hp
    subst hp
    exact split_loop_first_ne_nil delimiter more _ h
  | succ cuts ih =>
    intro more s hle h p hp
    cases more with
    | zero => omega
    | succ more =>
      simp only [g_strsplit_loop] at h hp
      cases hk : strstr s delimiter with
      | none => rw [hk] at h hp; exact h p hp
      | some k =>
        rw [hk] at h hp
        simp only [List.mem_cons] at hp
        rcases hp with rfl | hp
        · exact h _ (by simp)
        · exact ih more _ (by omega) (fun q hq => h q (List.mem_cons_of_mem _ hq)) p hp

theorem foldl_write_entries (K : Str) (ps : List Str) : ∀ vc : List Str,
    ps.foldl (fun vc s => if s ≠ [] then et_ogg_write_tag vc K s else vc) vc
      = vc ++ (ps.filter (· ≠ [])).map (K ++ ·) := by
  induction ps with
  | nil => intro vc; simp
  | cons p ps ih =>
    intro vc
    simp only [List.foldl_cons, ih]
    by_cases hp : p = []
    · simp [hp]
    · simp [hp, et_ogg_write_tag]

theorem comment_values_entries (tag : Str) (ps : List Str) :
    comment_values (ps.map (fulltag tag ++ ·)) tag = ps := by
  induction ps with
  | nil => rfl
  | cons p ps ih =>
    rw [List.map_cons, ← List.singleton_append, comment_values_append, ih,
      comment_values_entry_same]
    rfl

theorem comment_values_entries_other (T tag : Str) (h : tags_disjoint T tag = true)
    (ps : List Str) : comment_values (ps.map (fulltag T ++ ·)) tag = [] := by
  induction ps with
  | nil => rfl
  | cons p ps ih =>
    rw [List.map_cons, ← List.singleton_append, comment_values_append, ih,
      comment_values_entry_other T tag p h]
    rfl


/-! ## UTF-8 validity and the separator -/

theorem utf8_scan_split (x : Nat) (hx : x < 128) : ∀ (a b : Str) (due lo hi : Nat),
    128 ≤ lo → utf8_scan due lo hi (a ++ x :: b) = true →
    utf8_scan due lo hi a = true ∧ utf8_scan 0 128 191 b = true := by
  intro a
  induction a with
  | nil =>
    intro b due lo hi hlo h
    cases due with
    | zero =>
      simp only [List.nil_append, utf8_scan, hx, if_true] at h
      exact ⟨by simp [utf8_scan], h⟩
    | succ d =>
      simp only [List.nil_append, utf8_scan] at h
      rw [if_neg (by omega)] at h
      cases h
  | cons y ys ih =>
    intro b due lo hi hlo h
    cases due with
    | zero =>
      simp only [List.cons_append, utf8_scan] at h ⊢
      split at h
      · rw [if_pos (by assumption)]; exact ih b _ _ _ (by omega) h
      · split at h
        · rw [if_neg (by assumption), if_pos (by assumption)]; exact ih b _ _ _ (by omega) h
        · split at h
          · rw [if_neg (by assumption), if_neg (by assumption), if_pos (by assumption)]
            exact ih b _ _ _ (by omega) h
          · split at h
            · rw [if_neg (by assumption), if_neg (by assumption), if_neg (by assumption),
                if_pos (by assumption)]
              exact ih b _ _ _ (by omega) h
            · split at h
              · rw [if_neg (by assumption), if_neg (by assumption), if_neg (by assumption),
                  if_neg (by assumption), if_pos (by assumption)]
                exact ih b _ _ _ (by omega) h
              · split at h
                · rw [if_neg (by assumption), if_neg (by assumption), if_neg (by assumption),
                    if_neg (by assumption), if_neg (by assumption), if_pos (by assumption)]
                  exact ih b _ _ _ (by omega) h
                · split at h
                  · rw [if_neg (by assumption), if_neg (by assumption), if_neg (by assumption),
                      if_neg (by assumption), if_neg (by assumption), if_neg (by assumption),
                      if_pos (by assumption)]
                    exact ih b _ _ _ (by omega) h
                  · split at h
                    · rw [if_neg (by assumption), if_neg (by assumption),
                        if_neg (by assumption), if_neg (by assumption), if_neg (by assumption),
                        if_neg (by assumption), if_neg (by assumption), if_pos (by assumption)]
                      exact ih b _ _ _ (by omega) h
                    · cases h
    | succ d =>
      simp only [List.cons_append, utf8_scan] at h ⊢
      split at h
      · rw [if_pos (by assumption)]; exact ih b _ _ _ (by omega) h
      · cases h

theorem utf8_validate_ascii_cons (x : Nat) (hx : x < 128) (b : Str) :
    g_utf8_validate (x :: b) = g_utf8_validate b := by
  simp only [g_utf8_validate, utf8_scan, hx, if_true]

/-- Cutting valid UTF-8 at an ASCII byte leaves valid UTF-8 on both sides. -/
theorem utf8_validate_split (x : Nat) (hx : x < 128) (a b : Str)
    (h : g_utf8_validate (a ++ x :: b) = true) :
    g_utf8_validate a = true ∧ g_utf8_validate b = true :=
  utf8_scan_split x hx a b 0 128 191 (by omega) h

theorem utf8_validate_split_separator (a b : Str)
    (h : g_utf8_validate (a ++ MULTIFIELD_SEPARATOR ++ b) = true) :
    g_utf8_validate a = true ∧ g_utf8_validate b = true := by
  have e : a ++ MULTIFIELD_SEPARATOR ++ b = a ++ 32 :: (45 :: 32 :: b) := by
    simp [MULTIFIELD_SEPARATOR, ascii]
  rw [e] at h
  have := utf8_validate_split 32 (by omega) a _ h
  refine ⟨this.1, ?_⟩
  have h2 := this.2
  rw [utf8_validate_ascii_cons 45 (by omega), utf8_validate_ascii_cons 32 (by omega)] at h2
  exact h2

/-- The tokens of valid UTF-8 split on the separator are valid UTF-8. -/
theorem split_loop_valid : ∀ (cuts : Nat) (s : Str), g_utf8_validate s = true →
    ∀ p ∈ g_strsplit_loop MULTIFIELD_SEPARATOR cuts s, g_utf8_validate p = true := by
  intro cuts
  induction cuts with
  | zero =>
    intro s h p hp
    simp only [g_strsplit_loop, List.mem_singleton] at hp
    rw [hp]; exact h
  | succ cuts ih =>
    intro s h p hp
    simp only [g_strsplit_loop] at hp
    cases hk : strstr s MULTIFIELD_SEPARATOR with
    | none => rw [hk] at hp; simp only [List.mem_singleton] at hp; rw [hp]; exact h
    | some k =>
      rw [hk] at hp
      have hs := strstr_spec MULTIFIELD_SEPARATOR s k hk
      rw [hs] at h
      have hv := utf8_validate_split_separator _ _ h
      simp only [List.mem_cons] at hp
      rcases hp with rfl | hp
      · exact hv.1
      · exact ih _ hv.2 p hp


/-! ## Split on save, join on load -/

theorem foldl_join_step_eq (E : Collab)
    (hE : ∀ s, g_utf8_validate s = true → E.Try_To_Validate_Utf8_String s = s) :
    ∀ (ps : List Str) (f : Option Str),
      (∀ p ∈ ps, g_utf8_validate p = true ∧ p ≠ []) →
      ps.foldl (join_step E) f = ps.foldl append_value f := by
  intro ps
  induction ps with
  | nil => intro f _; rfl
  | cons p ps ih =>
    intro f h
    have hp := h p (List.mem_cons_self _ _)
    simp only [List.foldl_cons]
    rw [ih _ (fun q hq => h q (List.mem_cons_of_mem _ hq))]
    simp only [join_step, hE p hp.1, g_utf8_strlen_pos p hp.2, if_true]

/-- The entries written for a value with its split flag on are the tokens of
the 255-token split, all under the key of the field, when no token is
empty. -/
theorem split_entries (K s : Str) (hne : s ≠ [])
    (hpieces : ∀ p ∈ g_strsplit s MULTIFIELD_SEPARATOR 0, p ≠ []) :
    et_ogg_set_tag [] K (some s) true
        = (g_strsplit_loop MULTIFIELD_SEPARATOR 254 s).map (K ++ ·)
      ∧ ∀ p ∈ g_strsplit_loop MULTIFIELD_SEPARATOR 254 s, p ≠ [] := by
  have hall : ∀ p ∈ g_strsplit_loop MULTIFIELD_SEPARATOR 254 s, p ≠ [] := by
    apply split_loop_nonempty_mono MULTIFIELD_SEPARATOR 254 (G_MAXINT - 1) s (by decide)
    simpa [g_strsplit, hne] using hpieces
  refine ⟨?_, hall⟩
  simp only [et_ogg_set_tag, if_true, et_ogg_write_delimited_tag, foldl_write_entries,
    List.nil_append, g_strsplit, hne, if_false]
  congr 1
  apply List.filter_eq_self.2
  intro p hp
  simpa using hall p hp

theorem split_field_values (E : Collab)
    (hE : ∀ s, g_utf8_validate s = true → E.Try_To_Validate_Utf8_String s = s)
    (tag s : Str) (hvalid : g_utf8_validate s = true) (hne : s ≠ [])
    (hpieces : ∀ p ∈ g_strsplit s MULTIFIELD_SEPARATOR 0, p ≠ []) :
    (comment_values (et_ogg_set_tag [] (fulltag tag) (some s) true) tag).foldl
      (join_step E) none = some s := by
  obtain ⟨hent, hall⟩ := split_entries (fulltag tag) s hne hpieces
  rw [hent, comment_values_entries]
  rw [foldl_join_step_eq E hE _ none
    (fun p hp => ⟨split_loop_valid 254 s hvalid p hp, hall p hp⟩)]
  rw [foldl_append_split MULTIFIELD_SEPARATOR rfl]
  rfl

/-- C5: a non-empty valid UTF-8 value whose pieces between separators are all
non-empty, written with the split flag on under any of the keys of the
multi-valued fields, is decoded from the emitted entries to exactly the same
value (the 255-token limit of the split included). -/
theorem multifield_split_join_round_trip (E : Collab) (s : Str)
    (hE : ∀ s, g_utf8_validate s = true → E.Try_To_Validate_Utf8_String s = s)
    (hvalid : g_utf8_validate s = true) (hne : s ≠ [])
    (hpieces : ∀ p ∈ g_strsplit s MULTIFIELD_SEPARATOR 0, p ≠ []) :
    (et_add_file_tags_from_vorbis_comments E
        (et_ogg_set_tag [] (ascii "TITLE=") (some s) true) et_file_tag_new).title = some s
      ∧ (et_add_file_tags_from_vorbis_comments E
        (et_ogg_set_tag [] (ascii "ARTIST=") (some s) true) et_file_tag_new).artist = some s
      ∧ (et_add_file_tags_from_vorbis_comments E
        (et_ogg_set_tag [] (ascii "ALBUMARTIST=") (some s) true) et_file_tag_new).album_artist
          = some s
      ∧ (et_add_file_tags_from_vorbis_comments E
        (et_ogg_set_tag [] (ascii "ALBUM=") (some s) true) et_file_tag_new).album = some s
      ∧ (et_add_file_tags_from_vorbis_comments E
        (et_ogg_set_tag [] (ascii "GENRE=") (some s) true) et_file_tag_new).genre = some s
      ∧ (et_add_file_tags_from_vorbis_comments E
        (et_ogg_set_tag [] (ascii "DESCRIPTION=") (some s) true) et_file_tag_new).comment
          = some s
      ∧ (et_add_file_tags_from_vorbis_comments E
        (et_ogg_set_tag [] (ascii "COMPOSER=") (some s) true) et_file_tag_new).composer
          = some s
      ∧ (et_add_file_tags_from_vorbis_comments E
        (et_ogg_set_tag [] (ascii "PERFORMER=") (some s) true) et_file_tag_new).orig_artist
          = some s := by
  have key := fun tag => split_field_values E hE tag s hvalid hne hpieces
  refine ⟨?_, ?_, ?_, ?_, ?_, ?_, ?_, ?_⟩
  · rw [decode_title, read_multi_eq]; exact key (ascii "TITLE")
  · rw [decode_artist, read_multi_eq]; exact key (ascii "ARTIST")
  · rw [decode_album_artist, read_multi_eq]; exact key (ascii "ALBUMARTIST")
  · rw [decode_album, read_multi_eq]; exact key (ascii "ALBUM")
  · rw [decode_genre, read_multi_eq]; exact key (ascii "GENRE")
  · rw [decode_comment, read_comment_eq]
    · exact key (ascii "DESCRIPTION")
    · obtain ⟨hent, _⟩ := split_entries (fulltag (ascii "DESCRIPTION")) s hne hpieces
      exact hent ▸ comment_values_entries_other (ascii "DESCRIPTION") (ascii "COMMENT")
        (by decide) _
    · obtain ⟨hent, _⟩ := split_entries (fulltag (ascii "DESCRIPTION")) s hne hpieces
      exact hent ▸ comment_values_entries_other (ascii "DESCRIPTION") (ascii "")
        (by decide) _
  · rw [decode_composer, read_multi_eq]; exact key (ascii "COMPOSER")
  · rw [decode_orig_artist, read_multi_eq]; exact key (ascii "PERFORMER")

/-- Witness for C5: the artist `A - B` written with the split flag on gives the
entries `ARTIST=A` and `ARTIST=B`, which decode to `A - B`. -/
theorem multifield_split_join_round_trip_witness :
    et_ogg_set_tag [] (ascii "ARTIST=") (some (ascii "A - B")) true
        = [ascii "ARTIST=A", ascii "ARTIST=B"]
      ∧ (et_add_file_tags_from_vorbis_comments reference_collab
        (et_ogg_set_tag [] (ascii "ARTIST=") (some (ascii "A - B")) true)
        et_file_tag_new).artist = some (ascii "A - B") :=
  ⟨by decide,
   (multifield_split_join_round_trip reference_collab (ascii "A - B") reference_sanitizer_id
     (by decide) (by decide) (by decide)).2.1⟩


/-! ## Writing plain values -/

theorem split_plain (v : Str) (h : plain_value v) :
    g_strsplit v MULTIFIELD_SEPARATOR 255 = [v] := by
  obtain ⟨hne, _, hsep⟩ := h
  simp only [g_strsplit, hne, if_false]
  have e : (if 255 < 1 then G_MAXINT else 255) - 1 = 253 + 1 := by decide
  rw [e, g_strsplit_loop, hsep]

/-- For an absent or plain value `et_ogg_set_tag` adds at most the one entry
`key value`, whatever the split flag. -/
theorem set_tag_plain (vc : List Str) (K : Str) (field : Option Str) (split : Bool)
    (h : plain_field field) :
    et_ogg_set_tag vc K field split = vc ++ entry_of K field := by
  cases field with
  | none => simp [et_ogg_set_tag, entry_of]
  | some v =>
    have hp := h v rfl
    cases split with
    | false => simp [et_ogg_set_tag, et_ogg_write_tag, entry_of]
    | true =>
      simp [et_ogg_set_tag, et_ogg_write_delimited_tag, split_plain v hp, hp.1,
        et_ogg_write_tag, entry_of]

theorem single_entries_cons (k : Str) (ks : List Str) (o : Option Str) (vs : List (Option Str)) :
    single_entries (k :: ks) (o :: vs) = entry_of (fulltag k) o ++ single_entries ks vs := by
  cases o <;> rfl

/-- The comment list written for a tag of plain values without pictures and
extension fields: one entry for each field that is present. -/
theorem write_plain (E : Collab) (S : OggSettings) (t : File_Tag)
    (hf : ∀ o ∈ field_values t, plain_field o) (hpic : t.picture = []) (hoth : t.other = []) :
    ogg_tag_write_file_tag E S t = single_entries vorbis_field_tags (field_values t) := by
  have h1 := fun K vc split =>
    set_tag_plain vc K t.title split (hf _ (by simp [field_values]))
  have h2 := fun K vc split =>
    set_tag_plain vc K t.artist split (hf _ (by simp [field_values]))
  have h3 := fun K vc split =>
    set_tag_plain vc K t.album_artist split (hf _ (by simp [field_values]))
  have h4 := fun K vc split =>
    set_tag_plain vc K t.album split (hf _ (by simp [field_values]))
  have h5 := fun K vc split =>
    set_tag_plain vc K t.disc_number split (hf _ (by simp [field_values]))
  have h6 := fun K vc split =>
    set_tag_plain vc K t.disc_total split (hf _ (by simp [field_values]))
  have h7 := fun K vc split =>
    set_tag_plain vc K t.year split (hf _ (by simp [field_values]))
  have h8 := fun K vc split =>
    set_tag_plain vc K t.track split (hf _ (by simp [field_values]))
  have h9 := fun K vc split =>
    set_tag_plain vc K t.track_total split (hf _ (by simp [field_values]))
  have h10 := fun K vc split =>
    set_tag_plain vc K t.genre split (hf _ (by simp [field_values]))
  have h11 := fun K vc split =>
    set_tag_plain vc K t.comment split (hf _ (by simp [field_values]))
  have h12 := fun K vc split =>
    set_tag_plain vc K t.composer split (hf _ (by simp [field_values]))
  have h13 := fun K vc split =>
    set_tag_plain vc K t.orig_artist split (hf _ (by simp [field_values]))
  have h14 := fun K vc split =>
    set_tag_plain vc K t.copyright split (hf _ (by simp [field_values]))
  have h15 := fun K vc split =>
    set_tag_plain vc K t.url split (hf _ (by simp [field_values]))
  have h16 := fun K vc split =>
    set_tag_plain vc K t.encoded_by split (hf _ (by simp [field_values]))
  simp only [ogg_tag_write_file_tag, hpic, hoth, List.foldl_nil, h1, h2, h3, h4, h5, h6, h7, h8,
    h9, h10, h11, h12, h13, h14, h15, h16, vorbis_field_tags, field_values, single_entries_cons]
  simp only [List.nil_append, List.append_assoc, single_entries, List.append_nil]
  rfl


theorem comment_values_entry_of_same (tag : Str) (o : Option Str) :
    comment_values (entry_of (fulltag tag) o) tag = o.toList := by
  cases o with
  | none => rfl
  | some v => simp [entry_of, comment_values_entry_same]

theorem comment_values_entry_of_other (T tag : Str) (o : Option Str)
    (h : tags_disjoint T tag = true) : comment_values (entry_of (fulltag T) o) tag = [] := by
  cases o with
  | none => rfl
  | some v => simp [entry_of, comment_values_entry_other T tag v h]

theorem values_single_other (tag : Str) : ∀ (keys : List Str) (vals : List (Option Str)),
    keys.all (tags_disjoint · tag) = true →
    comment_values (single_entries keys vals) tag = [] := by
  intro keys
  induction keys with
  | nil => intro vals _; cases vals <;> rfl
  | cons k ks ih =>
    intro vals h
    simp only [List.all_cons, Bool.and_eq_true] at h
    cases vals with
    | nil => rfl
    | cons o vs =>
      rw [single_entries_cons, comment_values_append, comment_values_entry_of_other k tag o h.1,
        ih vs h.2]
      rfl

/-- The values found for a tag in the entries of single fields: the value of
the field stored under that tag. -/
theorem values_single_at (tag : Str) : ∀ (keys : List Str) (vals : List (Option Str)) (i : Nat),
    (keys.take i).all (tags_disjoint · tag) = true → keys[i]? = some tag →
    (keys.drop (i + 1)).all (tags_disjoint · tag) = true →
    comment_values (single_entries keys vals) tag = (vals.getD i none).toList := by
  intro keys
  induction keys with
  | nil => intro vals i _ hi _; simp at hi
  | cons k ks ih =>
    intro vals i hpre hi hpost
    cases vals with
    | nil => simp [single_entries, comment_values]
    | cons o vs =>
      rw [single_entries_cons, comment_values_append]
      cases i with
      | zero =>
        simp only [List.getElem?_cons_zero, Option.some.injEq] at hi
        subst hi
        simp only [Nat.zero_add, List.drop_succ_cons, List.drop_zero] at hpost
        rw [comment_values_entry_of_same, values_single_other _ ks vs hpost]
        simp
      | succ j =>
        simp only [List.take_succ_cons, List.all_cons, Bool.and_eq_true] at hpre
        simp only [List.getElem?_cons_succ] at hi
        simp only [List.drop_succ_cons] at hpost
        rw [comment_values_entry_of_other k tag o hpre.1, ih vs j hpre.2 hi hpost]
        simp

theorem join_plain (E : Collab)
    (hE : ∀ s, g_utf8_validate s = true → E.Try_To_Validate_Utf8_String s = s)
    (o : Option Str) (h : plain_field o) : o.toList.foldl (join_step E) none = o := by
  cases o with
  | none => rfl
  | some v =>
    obtain ⟨hne, hv, _⟩ := h v rfl
    simp [join_step, hE v hv, g_utf8_strlen_pos v hne, append_value]

theorem query_zero_of_values (vc : List Str) (tag : Str) (o : Option Str)
    (h : comment_values vc tag = o.toList) : vorbis_comment_query vc tag 0 = o := by
  rw [query_eq_values, h]
  cases o <;> rfl

theorem if_nonempty_plain (o : Option Str) (h : plain_field o) : if_nonempty o = o := by
  cases o with
  | none => rfl
  | some v => exact if_nonempty_some v (h v rfl).1

theorem strchr_none (x : Nat) : ∀ s : Str, x ∉ s → g_utf8_strchr s x = none := by
  intro s
  induction s with
  | nil => intro _; rfl
  | cons b bs ih =>
    intro h
    have hb : b ≠ x := fun e => h (by simp [e])
    have hbs : x ∉ bs := fun e => h (List.mem_cons_of_mem _ e)
    simp [g_utf8_strchr, hb, ih hbs]

theorem filter_single_supported : ∀ (keys : List Str) (vals : List (Option Str)),
    (∀ p ∈ keys.zip vals, p.2 ≠ none → supported_tag p.1 = true) →
    (single_entries keys vals).filter is_unsupported = [] := by
  intro keys
  induction keys with
  | nil => intro vals _; cases vals <;> rfl
  | cons k ks ih =>
    intro vals h
    cases vals with
    | nil => rfl
    | cons o vs =>
      rw [single_entries_cons, List.filter_append,
        ih vs (fun p hp => h p (by simp [List.zip_cons_cons, hp]))]
      cases o with
      | none => rfl
      | some v =>
        have hk := h (k, some v) (by simp [List.zip_cons_cons]) (by simp)
        simp only [supported_tag, Bool.and_eq_true, decide_eq_true_eq, List.all_eq_true] at hk
        have := supported_of_tagcompare k hk.1 (fun b hb => by simpa using hk.2 b hb)
          (fulltag k ++ v) (tagcompare_self_append _ v)
        simp [entry_of, this]


/-! ## Round trip of plain values -/

theorem read_disc_plain (E : Collab) (vc : List Str) (t0 : File_Tag) (dn dt : Option Str)
    (hq1 : vorbis_comment_query vc (ascii "DISCNUMBER") 0 = dn)
    (hq2 : vorbis_comment_query vc (ascii "DISCTOTAL") 0 = dt)
    (hp1 : plain_field dn) (hp2 : plain_field dt)
    (hdn : ∀ v, dn = some v → E.et_disc_number_to_string (atoi v) = v)
    (hdt : ∀ v, dt = some v → E.et_disc_number_to_string (atoi v) = v ∧ dn ≠ none)
    (hds : dt = none → ∀ v, dn = some v → 47 ∉ v)
    (h0 : t0.disc_number = none ∧ t0.disc_total = none) :
    (read_disc E vc t0).2.disc_number = dn ∧ (read_disc E vc t0).2.disc_total = dt := by
  simp only [read_disc, hq1, hq2, if_nonempty_plain dn hp1, if_nonempty_plain dt hp2]
  cases dn with
  | none =>
    cases dt with
    | none => exact h0
    | some w => exact absurd rfl (hdt w rfl).2
  | some v =>
    cases dt with
    | none =>
      simp only [strchr_none 47 v (hds rfl v rfl), hdn v rfl]
      exact ⟨trivial, h0.2⟩
    | some w =>
      simp only [hdn v rfl, (hdt w rfl).1]
      exact ⟨trivial, trivial⟩

theorem read_track_plain (E : Collab) (vc : List Str) (t0 : File_Tag) (tn tt : Option Str)
    (hq1 : vorbis_comment_query vc (ascii "TRACKNUMBER") 0 = tn)
    (hq2 : vorbis_comment_query vc (ascii "TRACKTOTAL") 0 = tt)
    (hp1 : plain_field tn) (hp2 : plain_field tt)
    (htt : ∀ v, tt = some v → E.et_track_number_to_string (atoi v) = v ∧ tn ≠ none)
    (hts : tt = none → ∀ v, tn = some v → 47 ∉ v)
    (h0 : t0.track = none ∧ t0.track_total = none) :
    (read_track E vc t0).2.track = tn ∧ (read_track E vc t0).2.track_total = tt := by
  simp only [read_track, hq1, hq2, if_nonempty_plain tn hp1, if_nonempty_plain tt hp2]
  cases tn with
  | none =>
    cases tt with
    | none => exact h0
    | some w => exact absurd rfl (htt w rfl).2
  | some v =>
    cases tt with
    | none =>
      simp only [strchr_none 47 v (hts rfl v rfl)]
      exact ⟨trivial, h0.2⟩
    | some w =>
      simp only [(htt w rfl).1]
      exact ⟨trivial, trivial⟩

theorem read_year_plain (vc : List Str) (t0 : File_Tag) (y : Option Str)
    (hq : vorbis_comment_query vc (ascii "DATE") 0 = y) (hp : plain_field y)
    (h0 : t0.year = none) : (read_year vc t0).year = y := by
  simp only [read_year, hq, if_nonempty_plain y hp]
  cases y with
  | none => exact h0
  | some v => rfl

/-- C1 as amended: for a tag without pictures and extension fields whose text
fields are absent or plain (non-empty, valid UTF-8, no separator), whose disc
number, disc total and track total are fixed by the number formatters, whose
totals come with their numbers, and whose number holds no slash when its total
is absent, decoding the written comment list into a fresh tag gives back every
text field, the saved flag and the empty picture sequence, for every setting
of the split flags; when the disc total is absent the extension list is empty
as well and the decoded tag is the original. -/
theorem vorbis_round_trip_canonical (E : Collab) (S : OggSettings) (t : File_Tag)
    (hE : ∀ s, g_utf8_validate s = true → E.Try_To_Validate_Utf8_String s = s)
    (hf : ∀ o ∈ field_values t, plain_field o)
    (hpic : t.picture = []) (hoth : t.other = [])
    (hdn : ∀ v, t.disc_number = some v → E.et_disc_number_to_string (atoi v) = v)
    (hdt : ∀ v, t.disc_total = some v →
      E.et_disc_number_to_string (atoi v) = v ∧ t.disc_number ≠ none)
    (hds : t.disc_total = none → ∀ v, t.disc_number = some v → 47 ∉ v)
    (htt : ∀ v, t.track_total = some v →
      E.et_track_number_to_string (atoi v) = v ∧ t.track ≠ none)
    (hts : t.track_total = none → ∀ v, t.track = some v → 47 ∉ v) :
    et_add_file_tags_from_vorbis_comments E (ogg_tag_write_file_tag E S t)
        { et_file_tag_new with saved := t.saved }
      = { t with other := (et_add_file_tags_from_vorbis_comments E
            (ogg_tag_write_file_tag E S t) { et_file_tag_new with saved := t.saved }).other }
    ∧ (t.disc_total = none →
        et_add_file_tags_from_vorbis_comments E (ogg_tag_write_file_tag E S t)
          { et_file_tag_new with saved := t.saved } = t) := by
  have hp : ∀ i : Nat, plain_field ((field_values t).getD i none) := by
    intro i
    by_cases hi : i < (field_values t).length
    · rw [List.getD_eq_getElem _ _ hi]
      exact hf _ (List.getElem_mem _)
    · rw [List.getD_eq_default _ _ (by omega)]
      intro v hv; cases hv
  have hval := fun tag i h1 h2 h3 =>
    values_single_at tag vorbis_field_tags (field_values t) i h1 h2 h3
  have hnone := fun tag h => values_single_other tag vorbis_field_tags (field_values t) h
  have hmulti : ∀ (tag : Str) (i : Nat),
      ((vorbis_field_tags.take i).all (tags_disjoint · tag) = true) →
      vorbis_field_tags[i]? = some tag →
      ((vorbis_field_tags.drop (i + 1)).all (tags_disjoint · tag) = true) →
      read_multi E (single_entries vorbis_field_tags (field_values t)) tag none
        = (field_values t).getD i none := by
    intro tag i h1 h2 h3
    rw [read_multi_eq, hval tag i h1 h2 h3, join_plain E hE _ (hp i)]
  have hquery : ∀ (tag : Str) (i : Nat),
      ((vorbis_field_tags.take i).all (tags_disjoint · tag) = true) →
      vorbis_field_tags[i]? = some tag →
      ((vorbis_field_tags.drop (i + 1)).all (tags_disjoint · tag) = true) →
      vorbis_comment_query (single_entries vorbis_field_tags (field_values t)) tag 0
        = (field_values t).getD i none :=
    fun tag i h1 h2 h3 => query_zero_of_values _ tag _ (hval tag i h1 h2 h3)
  have hdisc := read_disc_plain E (single_entries vorbis_field_tags (field_values t))
    { et_file_tag_new with saved := t.saved } t.disc_number t.disc_total
    (hquery (ascii "DISCNUMBER") 4 (by decide) (by decide) (by decide))
    (hquery (ascii "DISCTOTAL") 5 (by decide) (by decide) (by decide))
    (hp 4) (hp 5) hdn hdt hds ⟨rfl, rfl⟩
  have htrack := read_track_plain E (single_entries vorbis_field_tags (field_values t))
    { et_file_tag_new with saved := t.saved } t.track t.track_total
    (hquery (ascii "TRACKNUMBER") 7 (by decide) (by decide) (by decide))
    (hquery (ascii "TRACKTOTAL") 8 (by decide) (by decide) (by decide))
    (hp 7) (hp 8) htt hts ⟨rfl, rfl⟩
  have hyear := read_year_plain (single_entries vorbis_field_tags (field_values t))
    { et_file_tag_new with saved := t.saved } t.year
    (hquery (ascii "DATE") 6 (by decide) (by decide) (by decide)) (hp 6) rfl
  have hcomment : read_comment E (single_entries vorbis_field_tags (field_values t)) none
      = t.comment := by
    rw [read_comment_eq E _ none (hnone (ascii "COMMENT") (by decide))
      (hnone (ascii "") (by decide)),
      hval (ascii "DESCRIPTION") 10 (by decide) (by decide) (by decide),
      join_plain E hE _ (hp 10)]
    rfl
  have hpics := read_pictures_none E (single_entries vorbis_field_tags (field_values t))
    t.saved (hnone (ascii "COVERART") (by decide))
    (hnone (ascii "METADATA_BLOCK_PICTURE") (by decide))
  have hfields : et_add_file_tags_from_vorbis_comments E (ogg_tag_write_file_tag E S t)
        { et_file_tag_new with saved := t.saved }
      = { t with other := (et_add_file_tags_from_vorbis_comments E
            (ogg_tag_write_file_tag E S t) { et_file_tag_new with saved := t.saved }).other } := by
    rw [write_plain E S t hf hpic hoth]
    apply file_tag_ext
    · rw [decode_saved, hpics]
    · rw [decode_title]
      exact hmulti (ascii "TITLE") 0 (by decide) (by decide) (by decide)
    · rw [decode_artist]
      exact hmulti (ascii "ARTIST") 1 (by decide) (by decide) (by decide)
    · rw [decode_album_artist]
      exact hmulti (ascii "ALBUMARTIST") 2 (by decide) (by decide) (by decide)
    · rw [decode_album]
      exact hmulti (ascii "ALBUM") 3 (by decide) (by decide) (by decide)
    · rw [decode_disc_number]; exact hdisc.1
    · rw [decode_disc_total]; exact hdisc.2
    · rw [decode_year]; exact hyear
    · rw [decode_track]; exact htrack.1
    · rw [decode_track_total]; exact htrack.2
    · rw [decode_genre]
      exact hmulti (ascii "GENRE") 9 (by decide) (by decide) (by decide)
    · rw [decode_comment]; exact hcomment
    · rw [decode_composer]
      exact hmulti (ascii "COMPOSER") 11 (by decide) (by decide) (by decide)
    · rw [decode_orig_artist]
      exact hmulti (ascii "PERFORMER") 12 (by decide) (by decide) (by decide)
    · rw [decode_copyright]
      exact hmulti (ascii "COPYRIGHT") 13 (by decide) (by decide) (by decide)
    · rw [decode_url]
      exact hmulti (ascii "CONTACT") 14 (by decide) (by decide) (by decide)
    · rw [decode_encoded_by]
      exact hmulti (ascii "ENCODED-BY") 15 (by decide) (by decide) (by decide)
    · rw [decode_picture, hpics]
      simp [hpic, et_file_tag_new]
    · rfl
  refine ⟨hfields, ?_⟩
  intro hnt
  rw [hfields]
  have hother : (et_add_file_tags_from_vorbis_comments E (ogg_tag_write_file_tag E S t)
      { et_file_tag_new with saved := t.saved }).other = [] := by
    rw [write_plain E S t hf hpic hoth, decode_other, read_other,
      filter_single_supported vorbis_field_tags (field_values t)]
    · rfl
    · intro p hp2
      simp only [vorbis_field_tags, field_values, List.zip_cons_cons, List.zip_nil_right,
        List.mem_cons, List.mem_singleton, List.not_mem_nil, or_false] at hp2
      rcases hp2 with rfl | rfl | rfl | rfl | rfl | rfl | rfl | rfl | rfl | rfl | rfl | rfl
        | rfl | rfl | rfl | rfl
      all_goals first
        | (intro _; dsimp only; decide)
        | (intro hne; exact absurd hnt hne)
  rw [hother, ← hoth]


/-- C1 fails as stated: the tag whose only field is the track `3/4` (non-empty,
valid UTF-8, no separator, no pictures, no extension fields) is written as
`TRACKNUMBER=3/4` and decoded to track `3` with track total `4`, with the
split flags all off and all on. -/
theorem vorbis_round_trip_counterexample :
    g_utf8_validate (ascii "3/4") = true
      ∧ strstr (ascii "3/4") MULTIFIELD_SEPARATOR = none
      ∧ tag_track_slash.picture = [] ∧ tag_track_slash.other = []
      ∧ ogg_tag_write_file_tag reference_collab
          ⟨false, false, false, false, false, false, false⟩ tag_track_slash
          = [ascii "TRACKNUMBER=3/4"]
      ∧ (et_add_file_tags_from_vorbis_comments reference_collab
          (ogg_tag_write_file_tag reference_collab
            ⟨false, false, false, false, false, false, false⟩ tag_track_slash)
          et_file_tag_new).track = some (ascii "3")
      ∧ (et_add_file_tags_from_vorbis_comments reference_collab
          (ogg_tag_write_file_tag reference_collab
            ⟨false, false, false, false, false, false, false⟩ tag_track_slash)
          et_file_tag_new).track_total = some (ascii "4")
      ∧ et_add_file_tags_from_vorbis_comments reference_collab
          (ogg_tag_write_file_tag reference_collab
            ⟨false, false, false, false, false, false, false⟩ tag_track_slash)
          et_file_tag_new ≠ tag_track_slash
      ∧ et_add_file_tags_from_vorbis_comments reference_collab
          (ogg_tag_write_file_tag reference_collab
            ⟨true, true, true, true, true, true, true⟩ tag_track_slash)
          et_file_tag_new ≠ tag_track_slash := by
  decide

theorem plain_field_none : plain_field none := by
  intro v hv; cases hv

theorem plain_field_some (v : Str) (h1 : v ≠ []) (h2 : g_utf8_validate v = true)
    (h3 : strstr v MULTIFIELD_SEPARATOR = none) : plain_field (some v) := by
  intro w hw; cases hw; exact ⟨h1, h2, h3⟩

/-- Witness for the amended C1: the tag with title `Song`, disc `1` of `2` and
track `3` is read back from its written comment list in every text field. -/
theorem vorbis_round_trip_canonical_witness :
    et_add_file_tags_from_vorbis_comments reference_collab
        (ogg_tag_write_file_tag reference_collab ⟨true, true, true, true, true, true, true⟩
          tag_canonical)
        { et_file_tag_new with saved := tag_canonical.saved }
      = { tag_canonical with other := (et_add_file_tags_from_vorbis_comments reference_collab
            (ogg_tag_write_file_tag reference_collab ⟨true, true, true, true, true, true, true⟩
              tag_canonical)
            { et_file_tag_new with saved := tag_canonical.saved }).other } :=
  (vorbis_round_trip_canonical reference_collab ⟨true, true, true, true, true, true, true⟩
    tag_canonical reference_sanitizer_id
    (by
      intro o ho
      simp only [field_values, tag_canonical, et_file_tag_new, List.mem_cons,
        List.mem_singleton, List.not_mem_nil, or_false] at ho
      rcases ho with rfl | rfl | rfl | rfl | rfl | rfl | rfl | rfl | rfl | rfl | rfl | rfl
        | rfl | rfl | rfl | rfl
      all_goals first
        | exact plain_field_none
        | exact plain_field_some _ (by decide) (by decide) (by decide))
    rfl rfl
    (by intro v hv; simp only [tag_canonical, Option.some.injEq] at hv; subst hv; decide)
    (by intro v hv; simp only [tag_canonical, Option.some.injEq] at hv; subst hv; decide)
    (by intro h; simp [tag_canonical] at h)
    (by intro v hv; simp [tag_canonical, et_file_tag_new] at hv)
    (by intro _ v hv; simp only [tag_canonical, Option.some.injEq] at hv; subst hv; decide)).1

/-! ## MIME and type checks of structured blocks -/

theorem strncmp_at_zero (buf : List Byte) (n : Nat) : ∀ (pos : Nat) (lit : Str),
    pos + n ≤ buf.length → n ≤ lit.length → (buf.drop pos).take n = lit.take n →
    strncmp_at buf pos lit n = .ok 0 := by
  induction n with
  | zero => intro pos lit _ _ _; rfl
  | succ n ih =>
    intro pos lit hpos hlit h
    cases lit with
    | nil => simp at hlit
    | cons l ls =>
      have hlt : pos < buf.length := by omega
      rw [List.drop_eq_getElem_cons hlt] at h
      simp only [List.take_succ_cons, List.cons.injEq] at h
      simp only [strncmp_at]
      rw [getElem?_in_bounds buf pos hlt]
      have ha : buf.getD pos 0 = l := by
        rw [← h.1]; simp [List.getD, List.getElem?_eq_getElem hlt]
      simp only [ha, peek, List.headD_cons, ne_eq, not_true_eq_false, if_false, List.tail_cons]
      split
      · rfl
      · exact ih (pos + 1) ls (by omega) (by simpa using hlit) h.2

/-- The MIME test passes when the MIME bytes are one of the three literals. -/
theorem mime_literal_valid (buf : List Byte) (m : Nat) (h : 8 + m ≤ buf.length)
    (hmime : (buf.drop 8).take m = ascii "image/" ∨ (buf.drop 8).take m = ascii "image/png"
      ∨ (buf.drop 8).take m = ascii "image/jpeg") :
    mime_invalid buf 8 m = .ok false := by
  have hlen : ((buf.drop 8).take m).length = m := by
    simp only [List.length_take, List.length_drop]; omega
  obtain ⟨r1, h1⟩ := strncmp_at_in_bounds buf m 8 (ascii "image/") h
  obtain ⟨r2, h2⟩ := strncmp_at_in_bounds buf m 8 (ascii "image/png") h
  rcases hmime with hm | hm | hm
  · have hz := strncmp_at_zero buf m 8 (ascii "image/") h
      (by rw [← hlen, hm]) (by rw [hm, ← hlen, hm]; simp)
    simp [mime_invalid, hz, except_ok_bind, except_pure_eq]
  · have hz := strncmp_at_zero buf m 8 (ascii "image/png") h
      (by rw [← hlen, hm]) (by rw [hm, ← hlen, hm]; simp)
    simp only [mime_invalid, h1, hz, except_ok_bind, except_pure_eq]
    split <;> simp
  · have hz := strncmp_at_zero buf m 8 (ascii "image/jpeg") h
      (by rw [← hlen, hm]) (by rw [hm, ← hlen, hm]; simp)
    simp only [mime_invalid, h1, h2, hz, except_ok_bind, except_pure_eq]
    split
    · split <;> simp
    · rfl

/-- What an accepted block looks like: every check has passed and the picture
is built from the type field, the description copy and the data slice. -/
theorem read_block_some (E : Collab) (buf : List Byte) (pic : EtPicture)
    (h : read_metadata_block_picture E buf = .ok (some pic)) :
    32 ≤ buf.length ∧ be32 buf 0 < E.ET_PICTURE_TYPE_UNDEFINED
      ∧ 32 + block_mime_length buf + block_description_length buf + block_data_length buf
          ≤ buf.length
      ∧ ∃ description,
          g_strndup_at buf (12 + block_mime_length buf) (block_description_length buf)
            = .ok description
          ∧ pic = et_picture_new (be32 buf 0) description 0 0
              ((buf.drop (32 + block_mime_length buf + block_description_length buf)).take
                (block_data_length buf)) := by
  have h32 : 32 ≤ buf.length := by
    by_contra hlt
    rw [read_block_short E buf (by omega)] at h
    cases h
  simp only [block_mime_length, block_description_length, block_data_length]
  rw [read_block_eq E buf h32] at h
  split at h
  · cases h
  · rename_i h1
    split at h
    · cases h
    · rename_i h2
      cases hb : (if be32 buf 4 > 0 then mime_invalid buf 8 (be32 buf 4) else .ok false) with
      | error e => rw [hb] at h; cases h
      | ok b =>
        rw [hb, except_ok_bind] at h
        split at h
        · cases h
        · split at h
          · cases h
          · rename_i h3
            cases hd : g_strndup_at buf (12 + be32 buf 4) (be32 buf (8 + be32 buf 4)) with
            | error e => rw [hd] at h; cases h
            | ok d =>
              rw [hd, except_ok_bind] at h
              split at h
              · cases h
              · rename_i h4
                simp only [Except.ok.injEq, Option.some.injEq] at h
                exact ⟨h32, by omega, by omega, d, rfl, h.symm⟩

/-- C11 as amended: a structured block that passes the type check and the
three length checks and whose MIME bytes are exactly `image/`, `image/png` or
`image/jpeg` passes the MIME check, and a picture is produced. -/
theorem picture_block_mime_literal_accepted (E : Collab) (buf : List Byte)
    (h32 : 32 ≤ buf.length) (htype : be32 buf 0 < E.ET_PICTURE_TYPE_UNDEFINED)
    (hm : block_mime_length buf ≤ buf.length - 32)
    (hd : block_description_length buf ≤ buf.length - 32 - block_mime_length buf)
    (hn : block_data_length buf
      ≤ buf.length - 32 - block_mime_length buf - block_description_length buf)
    (hmime : (buf.drop 8).take (block_mime_length buf) = ascii "image/"
      ∨ (buf.drop 8).take (block_mime_length buf) = ascii "image/png"
      ∨ (buf.drop 8).take (block_mime_length buf) = ascii "image/jpeg") :
    mime_invalid buf 8 (block_mime_length buf) = .ok false
      ∧ ∃ pic, read_metadata_block_picture E buf = .ok (some pic) := by
  simp only [block_mime_length, block_description_length, block_data_length] at *
  have hv := mime_literal_valid buf (be32 buf 4) (by omega) hmime
  refine ⟨hv, ?_⟩
  obtain ⟨d, hdd⟩ := g_strndup_at_in_bounds buf (be32 buf (8 + be32 buf 4)) (12 + be32 buf 4)
    (by omega)
  rw [read_block_eq E buf h32, if_neg (by omega), if_neg (by omega)]
  have hbad : (if be32 buf 4 > 0 then mime_invalid buf 8 (be32 buf 4) else .ok false)
      = .ok false := by
    split
    · exact hv
    · rfl
  rw [hbad, except_ok_bind, hdd, except_ok_bind]
  simp only [Bool.false_eq_true, if_false]
  rw [if_neg (by omega), if_neg (by omega)]
  exact ⟨_, rfl⟩

/-- Witness for the amended C11: the 42-byte block with MIME `image/png` is
decoded to a picture. -/
theorem picture_block_mime_literal_accepted_witness :
    ∃ pic, read_metadata_block_picture reference_collab block_png = .ok (some pic) :=
  (picture_block_mime_literal_accepted reference_collab block_png (by decide) (by decide)
    (by decide) (by decide) (by decide) (Or.inr (Or.inl (by decide)))).2

/-- C11 fails as stated: the 41-byte block with type 3 and MIME `image/gif`
passes the type check and the three length checks, its MIME begins with
`image/`, and it is dropped. -/
theorem picture_block_gif_counterexample :
    32 ≤ block_gif.length
      ∧ be32 block_gif 0 < reference_collab.ET_PICTURE_TYPE_UNDEFINED
      ∧ 32 + block_mime_length block_gif + block_description_length block_gif
          + block_data_length block_gif ≤ block_gif.length
      ∧ (block_gif.drop 8).take (block_mime_length block_gif) = ascii "image/gif"
      ∧ starts_with (ascii "image/") (block_gif.drop 8) = true
      ∧ mime_invalid block_gif 8 (block_mime_length block_gif) = .ok true
      ∧ read_metadata_block_picture reference_collab block_gif = .ok none := by
  refine ⟨by decide, by decide, by decide, by decide, by decide, rfl, rfl⟩

/-! ## The picture loops -/

theorem read_block_loop_eq (E : Collab) (vc : List Str) :
    ∀ (fuel n : Nat) (st : Bool × List EtPicture),
      (comment_values vc (ascii "METADATA_BLOCK_PICTURE")).length < fuel + n →
      read_block_loop E vc fuel n st
        = ((comment_values vc (ascii "METADATA_BLOCK_PICTURE")).drop n).foldl
            (block_step E) st := by
  intro fuel
  induction fuel with
  | zero =>
    intro n st h
    simp only [read_block_loop]
    rw [List.drop_eq_nil_of_le (by omega)]
    rfl
  | succ fuel ih =>
    intro n st h
    simp only [read_block_loop, query_eq_values]
    cases hq : (comment_values vc (ascii "METADATA_BLOCK_PICTURE"))[n]? with
    | none =>
      have : (comment_values vc (ascii "METADATA_BLOCK_PICTURE")).length ≤ n :=
        List.getElem?_eq_none_iff.1 hq
      rw [List.drop_eq_nil_of_le this]
      rfl
    | some v =>
      have hlt : n < (comment_values vc (ascii "METADATA_BLOCK_PICTURE")).length := by
        by_contra hge
        rw [List.getElem?_eq_none (by omega)] at hq
        cases hq
      have hv : (comment_values vc (ascii "METADATA_BLOCK_PICTURE"))[n] = v := by
        rw [List.getElem?_eq_getElem hlt] at hq
        exact Option.some.inj hq
      rw [List.drop_eq_getElem_cons hlt, hv]
      simp only [List.foldl_cons]
      rw [← ih (n + 1) _ (by omega)]
      simp only [block_step]
      split <;> rfl

/-- The picture loops: the legacy loop first, then one step for each
`METADATA_BLOCK_PICTURE` value, in order. -/
theorem read_pictures_eq (E : Collab) (vc : List Str) (saved : Bool) :
    read_pictures E vc saved
      = (comment_values vc (ascii "METADATA_BLOCK_PICTURE")).foldl (block_step E)
          (read_coverart_loop E vc (vc.length + 1) 0 (saved, [])) := by
  have := comment_values_length_le vc (ascii "METADATA_BLOCK_PICTURE")
  rw [read_pictures, read_block_loop_eq E vc _ 0 _ (by omega), List.drop_zero]

/-- The block steps keep the pictures decoded, in order, and clear the saved
flag as soon as one value is not decoded. -/
theorem foldl_block_step (E : Collab) : ∀ (vals : List Str) (st : Bool × List EtPicture),
    vals.foldl (block_step E) st
      = (st.1 && vals.all (fun v => (block_picture E v).isSome),
         st.2 ++ vals.filterMap (block_picture E)) := by
  intro vals
  induction vals with
  | nil => intro st; simp
  | cons v vs ih =>
    intro st
    simp only [List.foldl_cons, ih, List.all_cons, List.filterMap_cons]
    simp only [block_step, block_picture]
    split
    · rename_i pic hpic
      simp
    · rename_i hno
      have : (match read_metadata_block_picture E (E.g_base64_decode v) with
          | .ok (some pic) => some pic
          | _ => none) = none := by
        split
        · rename_i pic hpic
          exact absurd hpic (hno pic)
        · rfl
      simp [this]

theorem block_picture_none_of_dropped (E : Collab) (v : Str)
    (h : read_metadata_block_picture E (E.g_base64_decode v) = .ok none) :
    block_picture E v = none := by
  simp [block_picture, h]

/-- C12: a structured block of at least 32 bytes whose type field is not below
the sentinel is dropped, and a comment list holding such a block leaves the
tag marked as not saved; every picture that the structured decoder produces
has a type below the sentinel. -/
theorem picture_type_range_check (E : Collab) :
    (∀ buf : List Byte, 32 ≤ buf.length → be32 buf 0 ≥ E.ET_PICTURE_TYPE_UNDEFINED →
        read_metadata_block_picture E buf = .ok none)
      ∧ (∀ (vc : List Str) (FileTag : File_Tag) (v : Str),
        v ∈ comment_values vc (ascii "METADATA_BLOCK_PICTURE") →
        32 ≤ (E.g_base64_decode v).length →
        be32 (E.g_base64_decode v) 0 ≥ E.ET_PICTURE_TYPE_UNDEFINED →
        (et_add_file_tags_from_vorbis_comments E vc FileTag).saved = false)
      ∧ (∀ (buf : List Byte) (pic : EtPicture),
        read_metadata_block_picture E buf = .ok (some pic) →
        pic.type < E.ET_PICTURE_TYPE_UNDEFINED) := by
  have hdrop : ∀ buf : List Byte, 32 ≤ buf.length → be32 buf 0 ≥ E.ET_PICTURE_TYPE_UNDEFINED →
      read_metadata_block_picture E buf = .ok none := by
    intro buf h32 ht
    rw [read_block_eq E buf h32, if_pos ht]
  refine ⟨hdrop, ?_, ?_⟩
  · intro vc FileTag v hv h32 ht
    rw [decode_saved, read_pictures_eq, foldl_block_step]
    have hnone := block_picture_none_of_dropped E v (hdrop _ h32 ht)
    have hall : (comment_values vc (ascii "METADATA_BLOCK_PICTURE")).all
        (fun v => (block_picture E v).isSome) = false := by
      rw [List.all_eq_false]
      exact ⟨v, hv, by simp [hnone]⟩
    simp [hall]
  · intro buf pic h
    obtain ⟨_, ht, _, d, _, hp⟩ := read_block_some E buf pic h
    rw [hp]
    exact ht

/-- Witness for C12: with 21 picture types, the 32-byte block whose type field
is 21 is dropped. -/
theorem picture_type_range_check_witness :
    read_metadata_block_picture reference_collab block_type_21 = .ok none :=
  (picture_type_range_check reference_collab).1 block_type_21 (by decide) (by decide)

/-! ## Packing a picture -/

theorem convert_to_byte_array_length (n : Nat) : (convert_to_byte_array n).length = 4 := rfl

theorem take_convert_to_byte_array (n : Nat) :
    (convert_to_byte_array n).take 4 = convert_to_byte_array n := rfl

theorem description_length_eq (pic : EtPicture) :
    (match pic.description with
      | some d => d.length
      | none => 0) = (pic.description.getD []).length := by
  cases pic.description <;> rfl

theorem picture_ustring_eq (mime : Str) (pic : EtPicture) (data : List Byte) :
    picture_ustring mime pic data
      = picture_layout pic.type mime (pic.description.getD []) pic.width pic.height 0 0 data := by
  simp only [picture_ustring, add_to_guchar_str, description_length_eq,
    take_convert_to_byte_array, List.take_length, List.nil_append, picture_layout]

theorem picture_layout_length (type : Nat) (mime description : Str)
    (width height depth colors : Nat) (data : List Byte) :
    (picture_layout type mime description width height depth colors data).length
      = 32 + mime.length + description.length + data.length := by
  simp only [picture_layout, List.length_append, convert_to_byte_array_length]
  omega

theorem add_checked_ok (size : Nat) (ustr str : List Byte) (str_len : Nat)
    (h1 : str_len ≤ str.length) (h2 : ustr.length + str_len ≤ size) :
    add_to_guchar_str_checked size ustr str str_len
      = .ok (add_to_guchar_str ustr str str_len) := by
  simp [add_to_guchar_str_checked, h1, h2]

theorem add_to_guchar_str_length (ustr str : List Byte) (str_len : Nat)
    (h : str_len ≤ str.length) :
    (add_to_guchar_str ustr str str_len).length = ustr.length + str_len := by
  simp [add_to_guchar_str, List.length_take, h]

theorem picture_ustring_checked_eq (mime : Str) (pic : EtPicture) (data : List Byte) :
    picture_ustring_checked mime pic data = .ok (picture_ustring mime pic data) := by
  simp only [picture_ustring_checked, picture_ustring, description_length_eq]
  have hs : picture_ustring_size mime pic data
      = 4 * 8 + mime.length + (pic.description.getD []).length + data.length := rfl
  rw [add_checked_ok _ _ _ _ (by simp [convert_to_byte_array_length])
    (by simp only [List.length_nil]; omega), except_ok_bind]
  rw [add_checked_ok _ _ _ _ (by simp [convert_to_byte_array_length])
    (by simp only [add_to_guchar_str, List.length_append, List.length_take,
      convert_to_byte_array_length, List.length_nil]; omega), except_ok_bind]
  rw [add_checked_ok _ _ _ _ (Nat.le_refl _)
    (by simp only [add_to_guchar_str, List.length_append, List.length_take,
      convert_to_byte_array_length, List.length_nil]; omega), except_ok_bind]
  rw [add_checked_ok _ _ _ _ (by simp [convert_to_byte_array_length])
    (by simp only [add_to_guchar_str, List.length_append, List.length_take,
      convert_to_byte_array_length, List.length_nil]; omega), except_ok_bind]
  rw [add_checked_ok _ _ _ _ (Nat.le_refl _)
    (by simp only [add_to_guchar_str, List.length_append, List.length_take,
      convert_to_byte_array_length, List.length_nil]; omega), except_ok_bind]
  rw [add_checked_ok _ _ _ _ (by simp [convert_to_byte_array_length])
    (by simp only [add_to_guchar_str, List.length_append, List.length_take,
      convert_to_byte_array_length, List.length_nil]; omega), except_ok_bind]
  rw [add_checked_ok _ _ _ _ (by simp [convert_to_byte_array_length])
    (by simp only [add_to_guchar_str, List.length_append, List.length_take,
      convert_to_byte_array_length, List.length_nil]; omega), except_ok_bind]
  rw [add_checked_ok _ _ _ _ (by simp [convert_to_byte_array_length])
    (by simp only [add_to_guchar_str, List.length_append, List.length_take,
      convert_to_byte_array_length, List.length_nil]; omega), except_ok_bind]
  rw [add_checked_ok _ _ _ _ (by simp [convert_to_byte_array_length])
    (by simp only [add_to_guchar_str, List.length_append, List.length_take,
      convert_to_byte_array_length, List.length_nil]; omega), except_ok_bind]
  rw [add_checked_ok _ _ _ _ (by simp [convert_to_byte_array_length])
    (by simp only [add_to_guchar_str, List.length_append, List.length_take,
      convert_to_byte_array_length, List.length_nil]; omega), except_ok_bind]
  rw [add_checked_ok _ _ _ _ (Nat.le_refl _)
    (by simp only [add_to_guchar_str, List.length_append, List.length_take,
      convert_to_byte_array_length, List.length_nil]; omega)]

theorem write_picture_direct (E : Collab) (pic : EtPicture)
    (hfmt : E.Picture_Format_From_Data pic.bytes = .PICTURE_FORMAT_PNG
      ∨ E.Picture_Format_From_Data pic.bytes = .PICTURE_FORMAT_JPEG) :
    write_picture E pic = some (ascii "METADATA_BLOCK_PICTURE=" ++ E.g_base64_encode
      (picture_ustring (E.Picture_Mime_Type_String (E.Picture_Format_From_Data pic.bytes))
        pic pic.bytes)) := by
  simp only [write_picture]
  rw [if_neg]
  rintro ⟨h1, h2⟩
  rcases hfmt with h | h
  · exact h1 h
  · exact h2 h

/-- C15: for a picture in PNG or JPEG format the byte string packed before
base64 encoding is the type, the MIME length, the MIME string, the description
length, the description, width, height, two zero fields, the data length and
the data, each integer as the four bytes of `convert_to_byte_array`; its
length is `32 + |mime| + |description| + |data|`, the allocated size, and no
call of `add_to_guchar_str` reads or stores outside its buffers. -/
theorem picture_block_encode_layout (E : Collab) (pic : EtPicture)
    (hfmt : E.Picture_Format_From_Data pic.bytes = .PICTURE_FORMAT_PNG
      ∨ E.Picture_Format_From_Data pic.bytes = .PICTURE_FORMAT_JPEG) :
    write_picture E pic = some (ascii "METADATA_BLOCK_PICTURE=" ++ E.g_base64_encode
        (picture_ustring (E.Picture_Mime_Type_String (E.Picture_Format_From_Data pic.bytes))
          pic pic.bytes))
      ∧ picture_ustring (E.Picture_Mime_Type_String (E.Picture_Format_From_Data pic.bytes))
          pic pic.bytes
        = convert_to_byte_array pic.type
          ++ convert_to_byte_array
              (E.Picture_Mime_Type_String (E.Picture_Format_From_Data pic.bytes)).length
          ++ E.Picture_Mime_Type_String (E.Picture_Format_From_Data pic.bytes)
          ++ convert_to_byte_array (pic.description.getD []).length
          ++ pic.description.getD []
          ++ convert_to_byte_array pic.width ++ convert_to_byte_array pic.height
          ++ convert_to_byte_array 0 ++ convert_to_byte_array 0
          ++ convert_to_byte_array pic.bytes.length ++ pic.bytes
      ∧ (picture_ustring (E.Picture_Mime_Type_String (E.Picture_Format_From_Data pic.bytes))
          pic pic.bytes).length
        = 32 + (E.Picture_Mime_Type_String (E.Picture_Format_From_Data pic.bytes)).length
          + (pic.description.getD []).length + pic.bytes.length
      ∧ (picture_ustring (E.Picture_Mime_Type_String (E.Picture_Format_From_Data pic.bytes))
          pic pic.bytes).length
        = picture_ustring_size
            (E.Picture_Mime_Type_String (E.Picture_Format_From_Data pic.bytes)) pic pic.bytes
      ∧ picture_ustring_checked
          (E.Picture_Mime_Type_String (E.Picture_Format_From_Data pic.bytes)) pic pic.bytes
        = .ok (picture_ustring
          (E.Picture_Mime_Type_String (E.Picture_Format_From_Data pic.bytes)) pic pic.bytes) := by
  refine ⟨write_picture_direct E pic hfmt, ?_, ?_, ?_, picture_ustring_checked_eq _ _ _⟩
  · rw [picture_ustring_eq]; rfl
  · rw [picture_ustring_eq, picture_layout_length]
  · rw [picture_ustring_eq, picture_layout_length]; rfl

/-- Witness for C15: the JPEG front cover with description `c` is packed to 47
bytes. -/
theorem picture_block_encode_layout_witness :
    (picture_ustring (ascii "image/jpeg") picture_jpeg picture_jpeg.bytes).length = 47
      ∧ picture_ustring (ascii "image/jpeg") picture_jpeg picture_jpeg.bytes
        = [0, 0, 0, 3, 0, 0, 0, 10] ++ ascii "image/jpeg" ++ [0, 0, 0, 1, 99]
          ++ [0, 0, 0, 0, 0, 0, 0, 0, 0, 0, 0, 0, 0, 0, 0, 0] ++ [0, 0, 0, 4, 255, 216, 255, 224] :=
  ⟨(picture_block_encode_layout reference_collab picture_jpeg (Or.inr (by decide))).2.2.1,
   by decide⟩

/-! ## Reading a packed picture -/

theorem getD_append_right_add (pre l : List Byte) (i : Nat) :
    (pre ++ l).getD (pre.length + i) 0 = l.getD i 0 := by
  simp [List.getD, List.getElem?_append_right]

theorem be32_convert (n : Nat) (rest : List Byte) :
    be32 (convert_to_byte_array n ++ rest) 0 = n % 2 ^ 32 := by
  simp only [be32, convert_to_byte_array, List.cons_append, List.nil_append, List.getD_cons_zero,
    List.getD_cons_succ, Nat.zero_add]
  omega

theorem be32_append (pre l : List Byte) (pos : Nat) (h : pos = pre.length) :
    be32 (pre ++ l) pos = be32 l 0 := by
  subst h
  simp only [be32, Nat.zero_add]
  have h0 := getD_append_right_add pre l 0
  simp only [Nat.add_zero] at h0
  rw [h0, getD_append_right_add, getD_append_right_add, getD_append_right_add]

/-- The integer read at the position of a packed 4-byte field. -/
theorem be32_field (pre rest : List Byte) (n pos : Nat) (h : pos = pre.length) :
    be32 (pre ++ (convert_to_byte_array n ++ rest)) pos = n % 2 ^ 32 := by
  rw [be32_append pre _ pos h, be32_convert]

theorem g_strndup_at_eq (buf : List Byte) (n : Nat) : ∀ pos : Nat, pos + n ≤ buf.length →
    g_strndup_at buf pos n = .ok (((buf.drop pos).take n).takeWhile (· ≠ 0)) := by
  induction n with
  | zero => intro pos _; simp [g_strndup_at]
  | succ n ih =>
    intro pos h
    have hlt : pos < buf.length := by omega
    simp only [g_strndup_at]
    rw [getElem?_in_bounds buf pos hlt, List.drop_eq_getElem_cons hlt]
    have hb : buf.getD pos 0 = buf[pos] := by
      simp [List.getD, List.getElem?_eq_getElem hlt]
    simp only [hb, List.take_succ_cons]
    by_cases h0 : buf[pos] = 0
    · simp [h0]
    · rw [ih (pos + 1) (by omega)]
      simp [h0, List.takeWhile_cons, Except.map]

theorem drop_take_segment (pre seg rest : List Byte) (pos n : Nat) (hp : pos = pre.length)
    (hn : n = seg.length) : ((pre ++ (seg ++ rest)).drop pos).take n = seg := by
  subst hp; subst hn
  simp

/-- The parser on a buffer that starts with a packed block: the picture holds
the type, the description up to its first NUL and the data. -/
theorem read_block_layout (E : Collab) (type : Nat) (mime description : Str)
    (width height depth colors : Nat) (data trailing : List Byte)
    (htype : type < E.ET_PICTURE_TYPE_UNDEFINED) (ht32 : type < 2 ^ 32)
    (hmime : mime = ascii "image/png" ∨ mime = ascii "image/jpeg")
    (hd : description.length < 2 ^ 32) (hn : data.length < 2 ^ 32) :
    read_metadata_block_picture E
        (picture_layout type mime description width height depth colors data ++ trailing)
      = .ok (some (et_picture_new type (description.takeWhile (· ≠ 0)) 0 0 data)) := by
  have hm32 : mime.length < 2 ^ 32 := by
    rcases hmime with h | h <;> rw [h] <;> decide
  have hmpos : 0 < mime.length := by
    rcases hmime with h | h <;> rw [h] <;> decide
  generalize hbuf : picture_layout type mime description width height depth colors data
    ++ trailing = buf
  have hlen : buf.length
      = 32 + mime.length + description.length + data.length + trailing.length := by
    rw [← hbuf, List.length_append, picture_layout_length]
  have e0 : be32 buf 0 = type := by
    rw [← hbuf]
    have := be32_field [] (convert_to_byte_array mime.length ++ mime
      ++ convert_to_byte_array description.length ++ description
      ++ convert_to_byte_array width ++ convert_to_byte_array height
      ++ convert_to_byte_array depth ++ convert_to_byte_array colors
      ++ convert_to_byte_array data.length ++ data ++ trailing) type 0 rfl
    simp only [List.nil_append] at this
    simp only [picture_layout, List.append_assoc]
    simp only [List.append_assoc] at this
    rw [this]; exact Nat.mod_eq_of_lt ht32
  have e4 : be32 buf 4 = mime.length := by
    rw [← hbuf]
    have := be32_field (convert_to_byte_array type) (mime
      ++ convert_to_byte_array description.length ++ description
      ++ convert_to_byte_array width ++ convert_to_byte_array height
      ++ convert_to_byte_array depth ++ convert_to_byte_array colors
      ++ convert_to_byte_array data.length ++ data ++ trailing) mime.length 4 rfl
    simp only [picture_layout, List.append_assoc]
    simp only [List.append_assoc] at this
    rw [this]; exact Nat.mod_eq_of_lt hm32
  have emime : (buf.drop 8).take mime.length = mime := by
    rw [← hbuf]
    have := drop_take_segment (convert_to_byte_array type ++ convert_to_byte_array mime.length)
      mime (convert_to_byte_array description.length ++ description
      ++ convert_to_byte_array width ++ convert_to_byte_array height
      ++ convert_to_byte_array depth ++ convert_to_byte_array colors
      ++ convert_to_byte_array data.length ++ data ++ trailing) 8 mime.length rfl rfl
    simp only [picture_layout, List.append_assoc]
    simp only [List.append_assoc] at this
    exact this
  have ed : be32 buf (8 + mime.length) = description.length := by
    rw [← hbuf]
    have := be32_field (convert_to_byte_array type ++ convert_to_byte_array mime.length ++ mime)
      (description
      ++ convert_to_byte_array width ++ convert_to_byte_array height
      ++ convert_to_byte_array depth ++ convert_to_byte_array colors
      ++ convert_to_byte_array data.length ++ data ++ trailing) description.length
      (8 + mime.length) (by simp only [List.length_append, convert_to_byte_array_length]; try omega)
    simp only [picture_layout, List.append_assoc]
    simp only [List.append_assoc] at this
    rw [this]; exact Nat.mod_eq_of_lt hd
  have edesc : (buf.drop (12 + mime.length)).take description.length = description := by
    rw [← hbuf]
    have := drop_take_segment (convert_to_byte_array type ++ convert_to_byte_array mime.length
      ++ mime ++ convert_to_byte_array description.length) description
      (convert_to_byte_array width ++ convert_to_byte_array height
      ++ convert_to_byte_array depth ++ convert_to_byte_array colors
      ++ convert_to_byte_array data.length ++ data ++ trailing) (12 + mime.length)
      description.length (by simp only [List.length_append, convert_to_byte_array_length]; try omega) rfl
    simp only [picture_layout, List.append_assoc]
    simp only [List.append_assoc] at this
    exact this
  have en : be32 buf (28 + mime.length + description.length) = data.length := by
    rw [← hbuf]
    have := be32_field (convert_to_byte_array type ++ convert_to_byte_array mime.length ++ mime
      ++ convert_to_byte_array description.length ++ description
      ++ convert_to_byte_array width ++ convert_to_byte_array height
      ++ convert_to_byte_array depth ++ convert_to_byte_array colors)
      (data ++ trailing) data.length
      (28 + mime.length + description.length)
      (by simp only [List.length_append, convert_to_byte_array_length]; try omega)
    simp only [picture_layout, List.append_assoc]
    simp only [List.append_assoc] at this
    rw [this]; exact Nat.mod_eq_of_lt hn
  have edata : (buf.drop (32 + mime.length + description.length)).take data.length = data := by
    rw [← hbuf]
    have := drop_take_segment (convert_to_byte_array type ++ convert_to_byte_array mime.length
      ++ mime ++ convert_to_byte_array description.length ++ description
      ++ convert_to_byte_array width ++ convert_to_byte_array height
      ++ convert_to_byte_array depth ++ convert_to_byte_array colors
      ++ convert_to_byte_array data.length) data trailing
      (32 + mime.length + description.length) data.length
      (by simp only [List.length_append, convert_to_byte_array_length]; try omega) rfl
    simp only [picture_layout, List.append_assoc]
    simp only [List.append_assoc] at this
    exact this
  have hv := mime_literal_valid buf mime.length (by omega)
    (by rw [emime]; exact Or.inr hmime)
  rw [read_block_eq E buf (by omega), e0, e4, ed, en, if_neg (by omega), if_neg (by omega),
    if_pos hmpos, hv, except_ok_bind]
  simp only [Bool.false_eq_true, if_false]
  rw [if_neg (by omega), g_strndup_at_eq buf _ _ (by omega), edesc, except_ok_bind,
    if_neg (by omega), edata]

theorem read_coverart_none (E : Collab) (vc : List Str)
    (h : comment_values vc (ascii "COVERART") = []) (fuel : Nat) (st : Bool × List EtPicture) :
    read_coverart_loop E vc fuel 0 st = st := by
  cases fuel with
  | zero => rfl
  | succ f => simp [read_coverart_loop, query_eq_values, h]

/-- The picture loops on a comment list that holds a single
`METADATA_BLOCK_PICTURE` comment. -/
theorem read_pictures_single (E : Collab) (v : Str) (saved : Bool) :
    read_pictures E [ascii "METADATA_BLOCK_PICTURE=" ++ v] saved
      = block_step E (saved, []) v := by
  have hk : ascii "METADATA_BLOCK_PICTURE=" = fulltag (ascii "METADATA_BLOCK_PICTURE") := by
    decide
  rw [hk, read_pictures_eq, comment_values_entry_same,
    read_coverart_none E _ (comment_values_entry_other _ _ v (by decide))]
  rfl

theorem block_step_accept (E : Collab) (v : Str) (st : Bool × List EtPicture) (pic : EtPicture)
    (h : read_metadata_block_picture E (E.g_base64_decode v) = .ok (some pic)) :
    block_step E st v = (st.1, st.2 ++ [pic]) := by
  simp [block_step, h]

/-- C13 as amended: a buffer that starts with type, MIME length, MIME, description
length, description, width, height, depth, colours, data length and data (the
integers in four big-endian bytes), with the type below the sentinel and the
MIME `image/png` or `image/jpeg`, is decoded to exactly one picture with that
type, with the description bytes up to their first NUL (all of them when none
is NUL), with exactly the data bytes as payload whatever follows them, and
with width and height 0 whatever the block declares. -/
theorem picture_block_well_formed_decode (E : Collab) (type : Nat) (mime description : Str)
    (width height depth colors : Nat) (data trailing : List Byte)
    (htype : type < E.ET_PICTURE_TYPE_UNDEFINED) (ht32 : type < 2 ^ 32)
    (hmime : mime = ascii "image/png" ∨ mime = ascii "image/jpeg")
    (hd : description.length < 2 ^ 32) (hn : data.length < 2 ^ 32) :
    read_metadata_block_picture E
        (picture_layout type mime description width height depth colors data ++ trailing)
        = .ok (some { type := type, description := some (description.takeWhile (· ≠ 0)),
                      width := 0, height := 0, bytes := data })
      ∧ ∀ (v : Str) (FileTag : File_Tag),
        E.g_base64_decode v
          = picture_layout type mime description width height depth colors data ++ trailing →
        (et_add_file_tags_from_vorbis_comments E [ascii "METADATA_BLOCK_PICTURE=" ++ v]
            FileTag).picture
          = [{ type := type, description := some (description.takeWhile (· ≠ 0)),
               width := 0, height := 0, bytes := data }] := by
  have hread := read_block_layout E type mime description width height depth colors data
    trailing htype ht32 hmime hd hn
  refine ⟨hread, ?_⟩
  intro v FileTag hv
  rw [decode_picture, read_pictures_single, block_step_accept E v _ _ (by rw [hv]; exact hread)]
  simp [et_picture_new]

/-- Witness for the amended C13: the block with type 3, MIME `image/png`,
description `A`, NUL, `B`, declared size 640 by 480 and data `7` is decoded to
a front cover with description `A`, payload `7` and size 0 by 0. -/
theorem picture_block_well_formed_decode_witness :
    read_metadata_block_picture reference_collab block_nul_description
      = .ok (some { type := ET_PICTURE_TYPE_FRONT_COVER, description := some [65],
                    width := 0, height := 0, bytes := [7] }) :=
  (picture_block_well_formed_decode reference_collab 3 (ascii "image/png") [65, 0, 66] 640 480
    24 0 [7] [1, 2] (by decide) (by decide) (Or.inl rfl) (by decide) (by decide)).1

/-- C13 fails as stated: in the block laid out with the description bytes `A`,
NUL, `B` the decoded description is `A`, not the three description bytes. -/
theorem picture_block_description_counterexample :
    block_nul_description
        = picture_layout 3 (ascii "image/png") [65, 0, 66] 640 480 24 0 [7] ++ [1, 2]
      ∧ (3 : Nat) < reference_collab.ET_PICTURE_TYPE_UNDEFINED
      ∧ read_metadata_block_picture reference_collab block_nul_description
        = .ok (some (et_picture_new 3 [65] 0 0 [7]))
      ∧ (et_picture_new 3 [65] 0 0 [7]).description ≠ some [65, 0, 66] := by
  refine ⟨rfl, by decide, rfl, by decide⟩

/-! ## The reference base64 -/

theorem base64_rank_char : ∀ x, x < 64 →
    mime_base64_rank (base64_char x) = x ∧ base64_char x ≠ 61 := by
  decide

theorem base64_step_accept (c : Nat) (rest : Str) (v i l0 l1 : Nat)
    (h : mime_base64_rank c ≠ 255) :
    base64_decode_loop (c :: rest) v i l0 l1
      = if i + 1 = 4 then
          ([(v * 64 + mime_base64_rank c) % 2 ^ 32 / 2 ^ 16 % 256]
            ++ (if l0 ≠ 61 then [(v * 64 + mime_base64_rank c) % 2 ^ 32 / 2 ^ 8 % 256] else [])
            ++ (if c ≠ 61 then [(v * 64 + mime_base64_rank c) % 2 ^ 32 % 256] else []))
            ++ base64_decode_loop rest ((v * 64 + mime_base64_rank c) % 2 ^ 32) 0 c l0
        else base64_decode_loop rest ((v * 64 + mime_base64_rank c) % 2 ^ 32) (i + 1) c l0 := by
  simp only [base64_decode_loop, h, if_false]

theorem base64_step_char (x : Nat) (hx : x < 64) (rest : Str) (v i l0 l1 : Nat) :
    base64_decode_loop (base64_char x :: rest) v i l0 l1
      = if i + 1 = 4 then
          ([(v * 64 + x) % 2 ^ 32 / 2 ^ 16 % 256]
            ++ (if l0 ≠ 61 then [(v * 64 + x) % 2 ^ 32 / 2 ^ 8 % 256] else [])
            ++ [(v * 64 + x) % 2 ^ 32 % 256])
            ++ base64_decode_loop rest ((v * 64 + x) % 2 ^ 32) 0 (base64_char x) l0
        else base64_decode_loop rest ((v * 64 + x) % 2 ^ 32) (i + 1) (base64_char x) l0 := by
  have hr := base64_rank_char x hx
  rw [base64_step_accept _ _ _ _ _ _ (by rw [hr.1]; omega), hr.1]
  simp only [hr.2, ne_eq, not_false_eq_true, if_true]

theorem base64_step_pad (rest : Str) (v i l0 l1 : Nat) :
    base64_decode_loop (61 :: rest) v i l0 l1
      = if i + 1 = 4 then
          ([(v * 64) % 2 ^ 32 / 2 ^ 16 % 256]
            ++ (if l0 ≠ 61 then [(v * 64) % 2 ^ 32 / 2 ^ 8 % 256] else []))
            ++ base64_decode_loop rest ((v * 64) % 2 ^ 32) 0 61 l0
        else base64_decode_loop rest ((v * 64) % 2 ^ 32) (i + 1) 61 l0 := by
  rw [base64_step_accept _ _ _ _ _ _ (by decide)]
  simp [show mime_base64_rank 61 = 0 from by decide]

/-- The reference base64 decoder undoes the reference encoder on bytes. -/
theorem base64_round_trip : ∀ (n : Nat) (x : List Nat), x.length ≤ n → (∀ b ∈ x, b < 256) →
    ∀ v l0 l1 : Nat, base64_decode_loop (base64_encode x) v 0 l0 l1 = x := by
  intro n
  induction n with
  | zero =>
    intro x hlen _ v l0 l1
    have : x = [] := List.length_eq_zero.1 (by omega)
    subst this
    rfl
  | succ n ih =>
    intro x hlen hb v l0 l1
    match x, hlen, hb with
    | [], _, _ => rfl
    | [a], _, hb =>
      have ha : a < 256 := hb a (by simp)
      have hc0 := base64_rank_char (a / 4) (by omega)
      have hc1 := base64_rank_char (a % 4 * 16) (by omega)
      simp only [base64_encode]
      rw [base64_step_char _ (by omega), if_neg (by omega), base64_step_char _ (by omega),
        if_neg (by omega), base64_step_pad, if_neg (by omega), base64_step_pad,
        if_pos (by omega)]
      simp only [ne_eq, not_true_eq_false, if_false, List.append_nil, base64_decode_loop]
      congr 1
      omega
    | [a, b], _, hb =>
      have ha : a < 256 := hb a (by simp)
      have hb2 : b < 256 := hb b (by simp)
      have hc2 := base64_rank_char (b % 16 * 4) (by omega)
      simp only [base64_encode]
      rw [base64_step_char _ (by omega), if_neg (by omega), base64_step_char _ (by omega),
        if_neg (by omega), base64_step_char _ (by omega), if_neg (by omega), base64_step_pad,
        if_pos (by omega)]
      simp only [hc2.2, ne_eq, not_false_eq_true, if_true, base64_decode_loop,
        List.append_nil, List.singleton_append, List.cons.injEq, and_true]
      constructor <;> omega
    | a :: b :: c :: rest, hlen, hb =>
      have ha : a < 256 := hb a (by simp)
      have hb2 : b < 256 := hb b (by simp)
      have hc : c < 256 := hb c (by simp)
      have hc2 := base64_rank_char (b % 16 * 4 + c / 64) (by omega)
      simp only [base64_encode]
      rw [base64_step_char _ (by omega), if_neg (by omega), base64_step_char _ (by omega),
        if_neg (by omega), base64_step_char _ (by omega), if_neg (by omega),
        base64_step_char _ (by omega), if_pos (by omega)]
      simp only [List.length_cons] at hlen
      rw [ih rest (by omega) (fun x hx => hb x (by simp [hx]))]
      simp only [hc2.2, ne_eq, not_false_eq_true, if_true, List.singleton_append,
        List.cons_append, List.nil_append, List.cons.injEq, and_true]
      refine ⟨?_, ?_, ?_⟩ <;> omega

theorem reference_base64_round_trip (x : List Nat) (h : ∀ b ∈ x, b < 256) :
    reference_collab.g_base64_decode (reference_collab.g_base64_encode x) = x :=
  base64_round_trip x.length x (Nat.le_refl _) h 0 0 0

/-! ## Picture round trip -/

theorem convert_to_byte_array_bytes (n : Nat) : ∀ b ∈ convert_to_byte_array n, b < 256 := by
  intro b hb
  simp only [convert_to_byte_array, List.mem_cons, List.mem_singleton, List.not_mem_nil,
    or_false] at hb
  rcases hb with rfl | rfl | rfl | rfl <;> exact Nat.mod_lt _ (by decide)

theorem picture_layout_bytes (type : Nat) (mime description : List Nat)
    (width height depth colors : Nat) (data : List Nat)
    (hm : ∀ b ∈ mime, b < 256) (hd : ∀ b ∈ description, b < 256) (hn : ∀ b ∈ data, b < 256) :
    ∀ b ∈ picture_layout type mime description width height depth colors data, b < 256 := by
  intro b hb
  simp only [picture_layout, List.mem_append] at hb
  rcases hb with (((((((((h | h) | h) | h) | h) | h) | h) | h) | h) | h) | h
  · exact convert_to_byte_array_bytes _ b h
  · exact convert_to_byte_array_bytes _ b h
  · exact hm b h
  · exact convert_to_byte_array_bytes _ b h
  · exact hd b h
  · exact convert_to_byte_array_bytes _ b h
  · exact convert_to_byte_array_bytes _ b h
  · exact convert_to_byte_array_bytes _ b h
  · exact convert_to_byte_array_bytes _ b h
  · exact convert_to_byte_array_bytes _ b h
  · exact hn b h

theorem takeWhile_no_nul (d : List Nat) (h : 0 ∉ d) : d.takeWhile (· ≠ 0) = d := by
  rw [List.takeWhile_eq_self_iff]
  intro b hb
  have : b ≠ 0 := fun e => h (e ▸ hb)
  simp [this]

theorem write_single_picture (E : Collab) (S : OggSettings) (pic : EtPicture) (entry : Str)
    (h : write_picture E pic = some entry) :
    ogg_tag_write_file_tag E S { et_file_tag_new with picture := [pic] } = [entry] := by
  simp [ogg_tag_write_file_tag, et_file_tag_new, et_ogg_set_tag, h]

/-- C14: for a picture with a type below the sentinel, a description without
NUL and a payload in PNG or JPEG format, description and payload being byte
strings shorter than 2^32, the block that the writer packs is decoded to a
picture with the same type, description and payload, and decoding the written
comment list leaves the saved flag of the tag as it was. The assumptions on
the collaborators are that base64 decoding undoes base64 encoding on bytes,
that the MIME strings of PNG and JPEG are `image/png` and `image/jpeg`, and
that the sentinel is a 32-bit value. -/
theorem picture_round_trip (E : Collab) (S : OggSettings) (pic : EtPicture) (d : List Nat)
    (FileTag : File_Tag)
    (hb64 : ∀ x : List Nat, (∀ b ∈ x, b < 256) → E.g_base64_decode (E.g_base64_encode x) = x)
    (hpng : E.Picture_Mime_Type_String .PICTURE_FORMAT_PNG = ascii "image/png")
    (hjpeg : E.Picture_Mime_Type_String .PICTURE_FORMAT_JPEG = ascii "image/jpeg")
    (hU : E.ET_PICTURE_TYPE_UNDEFINED ≤ 2 ^ 32)
    (htype : pic.type < E.ET_PICTURE_TYPE_UNDEFINED)
    (hdesc : pic.description = some d) (hnul : 0 ∉ d)
    (hfmt : E.Picture_Format_From_Data pic.bytes = .PICTURE_FORMAT_PNG
      ∨ E.Picture_Format_From_Data pic.bytes = .PICTURE_FORMAT_JPEG)
    (hdb : ∀ b ∈ d, b < 256) (hpb : ∀ b ∈ pic.bytes, b < 256)
    (hdl : d.length < 2 ^ 32) (hpl : pic.bytes.length < 2 ^ 32) :
    ∃ v : Str,
      write_picture E pic = some (ascii "METADATA_BLOCK_PICTURE=" ++ v)
        ∧ read_metadata_block_picture E (E.g_base64_decode v)
            = .ok (some { pic with width := 0, height := 0 })
        ∧ (et_add_file_tags_from_vorbis_comments E
            (ogg_tag_write_file_tag E S { et_file_tag_new with picture := [pic] })
            FileTag).picture = [{ pic with width := 0, height := 0 }]
        ∧ (et_add_file_tags_from_vorbis_comments E
            (ogg_tag_write_file_tag E S { et_file_tag_new with picture := [pic] })
            FileTag).saved = FileTag.saved := by
  have hmime : E.Picture_Mime_Type_String (E.Picture_Format_From_Data pic.bytes)
        = ascii "image/png"
      ∨ E.Picture_Mime_Type_String (E.Picture_Format_From_Data pic.bytes)
        = ascii "image/jpeg" := by
    rcases hfmt with h | h
    · rw [h]; exact Or.inl hpng
    · rw [h]; exact Or.inr hjpeg
  have hmb : ∀ b ∈ E.Picture_Mime_Type_String (E.Picture_Format_From_Data pic.bytes),
      b < 256 := by
    rcases hmime with h | h <;> rw [h] <;> decide
  have hw := write_picture_direct E pic hfmt
  have hdecoded : E.g_base64_decode (E.g_base64_encode (picture_ustring
      (E.Picture_Mime_Type_String (E.Picture_Format_From_Data pic.bytes)) pic pic.bytes))
      = picture_layout pic.type
          (E.Picture_Mime_Type_String (E.Picture_Format_From_Data pic.bytes)) d
          pic.width pic.height 0 0 pic.bytes ++ [] := by
    rw [hb64, picture_ustring_eq, hdesc]
    · simp
    · rw [picture_ustring_eq, hdesc]
      exact picture_layout_bytes _ _ _ _ _ _ _ _ hmb hdb hpb
  have hread : read_metadata_block_picture E (E.g_base64_decode (E.g_base64_encode
      (picture_ustring (E.Picture_Mime_Type_String (E.Picture_Format_From_Data pic.bytes))
        pic pic.bytes))) = .ok (some { pic with width := 0, height := 0 }) := by
    rw [hdecoded, read_block_layout E pic.type _ d pic.width pic.height 0 0 pic.bytes []
      htype (by omega) hmime hdl hpl, takeWhile_no_nul d hnul]
    simp [et_picture_new, hdesc]
  refine ⟨_, hw, hread, ?_, ?_⟩
  · rw [write_single_picture E S pic _ hw, decode_picture, read_pictures_single,
      block_step_accept E _ _ _ hread]
    simp
  · rw [write_single_picture E S pic _ hw, decode_saved, read_pictures_single,
      block_step_accept E _ _ _ hread]

/-- Witness for C14: the JPEG front cover with description `c` survives
writing and reading with the reference collaborators. -/
theorem picture_round_trip_witness :
    ∃ v : Str,
      write_picture reference_collab picture_jpeg = some (ascii "METADATA_BLOCK_PICTURE=" ++ v)
        ∧ read_metadata_block_picture reference_collab (reference_collab.g_base64_decode v)
            = .ok (some { picture_jpeg with width := 0, height := 0 })
        ∧ (et_add_file_tags_from_vorbis_comments reference_collab
            (ogg_tag_write_file_tag reference_collab
              ⟨false, false, false, false, false, false, false⟩
              { et_file_tag_new with picture := [picture_jpeg] })
            { et_file_tag_new with saved := true }).picture
            = [{ picture_jpeg with width := 0, height := 0 }]
        ∧ (et_add_file_tags_from_vorbis_comments reference_collab
            (ogg_tag_write_file_tag reference_collab
              ⟨false, false, false, false, false, false, false⟩
              { et_file_tag_new with picture := [picture_jpeg] })
            { et_file_tag_new with saved := true }).saved = true :=
  picture_round_trip reference_collab ⟨false, false, false, false, false, false, false⟩
    picture_jpeg (ascii "c") { et_file_tag_new with saved := true }
    reference_base64_round_trip rfl rfl (by decide) (by decide) rfl (by decide)
    (Or.inr (by decide)) (by decide) (by decide) (by decide) (by decide)

/-! ## The comment loop in general -/

theorem comment_choice_none_iff (D C X : List Str) (n : Nat) :
    comment_choice_at D C X n = none ↔ comment_index_end D C X ≤ n := by
  simp only [comment_choice_at, comment_index_end]
  cases hD : D[n]? with
  | some d =>
    have := (List.getElem?_eq_some_iff.1 hD).1
    simp; omega
  | none =>
    have h1 := List.getElem?_eq_none_iff.1 hD
    cases hC : C[n]? with
    | some c =>
      have := (List.getElem?_eq_some_iff.1 hC).1
      simp; omega
    | none =>
      have h2 := List.getElem?_eq_none_iff.1 hC
      simp only [List.getElem?_eq_none_iff]
      omega

theorem read_comment_loop_general (E : Collab) (vc : List Str) :
    ∀ (fuel n : Nat) (f : Option Str),
      comment_index_end (comment_values vc (ascii "DESCRIPTION"))
        (comment_values vc (ascii "COMMENT")) (comment_values vc (ascii "")) < fuel + n →
      read_comment_loop E vc fuel n f
        = ((List.range' n (comment_index_end (comment_values vc (ascii "DESCRIPTION"))
              (comment_values vc (ascii "COMMENT")) (comment_values vc (ascii "")) - n)).filterMap
            (comment_choice_at (comment_values vc (ascii "DESCRIPTION"))
              (comment_values vc (ascii "COMMENT")) (comment_values vc (ascii "")))).foldl
            (join_step E) f := by
  intro fuel
  induction fuel with
  | zero =>
    intro n f h
    have : comment_index_end (comment_values vc (ascii "DESCRIPTION"))
        (comment_values vc (ascii "COMMENT")) (comment_values vc (ascii "")) - n = 0 := by omega
    rw [this]
    rfl
  | succ fuel ih =>
    intro n f h
    generalize hD : comment_values vc (ascii "DESCRIPTION") = D at h ih ⊢
    generalize hC : comment_values vc (ascii "COMMENT") = C at h ih ⊢
    generalize hX : comment_values vc (ascii "") = X at h ih ⊢
    by_cases hend : comment_index_end D C X ≤ n
    · have hnone := (comment_choice_none_iff D C X n).2 hend
      have hz : comment_index_end D C X - n = 0 := by omega
      rw [hz]
      simp only [comment_index_end] at hend
      have h1 : D[n]? = none := List.getElem?_eq_none (by omega)
      have h2 : C[n]? = none := List.getElem?_eq_none (by omega)
      have h3 : X[n]? = none := List.getElem?_eq_none (by omega)
      simp [read_comment_loop, query_eq_values, hD, hC, hX, h1, h2, h3]
    · have hsucc : comment_index_end D C X - n = (comment_index_end D C X - (n + 1)) + 1 := by
        omega
      rw [hsucc, List.range'_succ, List.filterMap_cons]
      cases hv : comment_choice_at D C X n with
      | none => exact absurd ((comment_choice_none_iff D C X n).1 hv) hend
      | some v =>
        simp only [List.foldl_cons]
        rw [← ih (n + 1) _ (by omega)]
        simp only [read_comment_loop, query_eq_values, hD, hC, hX]
        simp only [comment_choice_at] at hv
        cases hDn : D[n]? with
        | some d =>
          rw [hDn] at hv
          simp only [Option.some.injEq] at hv
          subst hv
          simp only [Option.isSome_some, Bool.true_or, if_true, Option.map_some',
            Option.map_none']
          congr 1
          simp only [join_step, if_nonempty]
          by_cases hpos : g_utf8_strlen (E.Try_To_Validate_Utf8_String d) > 0
          · simp only [hpos, if_true]
          · simp only [hpos, if_false]
        | none =>
          rw [hDn] at hv
          cases hCn : C[n]? with
          | some c =>
            rw [hCn] at hv
            simp only [Option.some.injEq] at hv
            subst hv
            simp only [Option.isSome_none, Option.isSome_some, Bool.false_or, Bool.true_or,
              Bool.false_eq_true, if_false, if_true, Option.map_some', Option.map_none']
            congr 1
            simp only [join_step, if_nonempty]
            by_cases hpos : g_utf8_strlen (E.Try_To_Validate_Utf8_String c) > 0
            · simp only [hpos, if_true]
            · simp only [hpos, if_false]
          | none =>
            rw [hCn] at hv
            simp only at hv
            rw [hv]
            simp only [Option.isSome_none, Option.isSome_some, Bool.false_or, Bool.or_true,
              Bool.or_false, Bool.false_eq_true, if_false, if_true, Option.map_some',
              Option.map_none']
            congr 1
            simp only [join_step, if_nonempty]
            by_cases hpos : g_utf8_strlen (E.Try_To_Validate_Utf8_String v) > 0
            · simp only [hpos, if_true]
            · simp only [hpos, if_false]

/-- The comment loop folds the values chosen index by index. -/
theorem read_comment_general (E : Collab) (vc : List Str) (f : Option Str) :
    read_comment E vc f
      = (comment_choices (comment_values vc (ascii "DESCRIPTION"))
          (comment_values vc (ascii "COMMENT")) (comment_values vc (ascii ""))).foldl
          (join_step E) f := by
  have h1 := comment_values_length_le vc (ascii "DESCRIPTION")
  have h2 := comment_values_length_le vc (ascii "COMMENT")
  have h3 := comment_values_length_le vc (ascii "")
  rw [read_comment, read_comment_loop_general E vc _ 0 f
    (by simp only [comment_index_end]; omega)]
  simp only [comment_choices, Nat.sub_zero, List.range_eq_range']

/-! ## Joined values -/

theorem intercalate_singleton (sep a : Str) : sep.intercalate [a] = a := by
  simp [List.intercalate]

theorem intercalate_cons_cons (sep a b : Str) (r : List Str) :
    sep.intercalate (a :: b :: r) = a ++ sep ++ sep.intercalate (b :: r) := by
  simp [List.intercalate, List.intersperse]

theorem intercalate_merge (sep t s : Str) (r : List Str) :
    sep.intercalate ((t ++ sep ++ s) :: r) = sep.intercalate (t :: s :: r) := by
  cases r with
  | nil => rw [intercalate_singleton, intercalate_cons_cons, intercalate_singleton]
  | cons x xs =>
    rw [intercalate_cons_cons, intercalate_cons_cons, intercalate_cons_cons]
    simp [List.append_assoc]

theorem g_utf8_strlen_pos_iff (s : Str) : g_utf8_strlen s > 0 ↔ s ≠ [] := by
  constructor
  · intro h e; rw [e] at h; exact absurd h (by decide)
  · exact g_utf8_strlen_pos s

theorem join_values_toList (f : Option Str) : join_values f.toList = f := by
  cases f with
  | none => rfl
  | some t => simp [join_values, intercalate_singleton]

/-- Folding the loop body over values joins the sanitized non-empty ones with
the separator, after what the field held. -/
theorem foldl_join_step (E : Collab) : ∀ (vals : List Str) (f : Option Str),
    vals.foldl (join_step E) f = join_values (f.toList ++ sanitized_values E vals) := by
  intro vals
  induction vals with
  | nil => intro f; simp [sanitized_values, join_values_toList]
  | cons v vs ih =>
    intro f
    simp only [List.foldl_cons, ih]
    simp only [join_step, g_utf8_strlen_pos_iff, sanitized_values, List.map_cons,
      List.filter_cons]
    by_cases hv : E.Try_To_Validate_Utf8_String v = []
    · simp [hv]
    · simp only [hv, ne_eq, not_false_eq_true, if_true, decide_True]
      cases f with
      | none => simp [append_value]
      | some t =>
        simp only [append_value, Option.toList_some, List.singleton_append, join_values,
          List.cons_append, List.nil_append, intercalate_merge]

/-- The values that `vorbis_comment_query` enumerates for a tag are the
occurrences of its key. -/
theorem comment_values_eq_occurrences (vc : List Str) (tag : Str) (h61 : 61 ∉ tag)
    (h0 : ∀ b ∈ tag, b ≠ 0) : comment_values vc tag = occurrences vc tag := by
  simp only [comment_values, occurrences]
  congr 1
  funext c
  have hz : ∀ b ∈ fulltag tag, b ≠ 0 := by
    intro b hb
    simp only [fulltag, List.mem_append, List.mem_singleton] at hb
    rcases hb with hb | hb
    · exact h0 b hb
    · rw [hb]; decide
  have hiff : tagcompare c (fulltag tag) (fulltag tag).length = 0 ↔
      ∃ k, comment_key c = some k ∧ same_ignoring_case k (fulltag tag) = true :=
    (tagcompare_eq_zero_iff (fulltag tag) c hz).trans (key_match_iff tag c h61)
  by_cases hm : tagcompare c (fulltag tag) (fulltag tag).length = 0
  · obtain ⟨k, hk, hsame⟩ := hiff.1 hm
    have hlen : k.length = (fulltag tag).length := by
      have h := hsame
      simp only [same_ignoring_case, decide_eq_true_eq] at h
      simpa using congrArg List.length h
    rw [if_pos hm, hk]
    simp only [hsame, if_true, hlen]
  · rw [if_neg hm]
    cases hk : comment_key c with
    | none => rfl
    | some k =>
      have hns : same_ignoring_case k (fulltag tag) = false := by
        cases hs : same_ignoring_case k (fulltag tag) with
        | false => rfl
        | true => exact absurd (hiff.2 ⟨k, hk, hs⟩) hm
      simp only [hns, Bool.false_eq_true, if_false]


theorem read_multi_fresh (E : Collab) (vc : List Str) (tag : Str) (h61 : 61 ∉ tag)
    (h0 : ∀ b ∈ tag, b ≠ 0) :
    read_multi E vc tag none = join_values (sanitized_values E (occurrences vc tag)) := by
  rw [read_multi_eq, foldl_join_step, comment_values_eq_occurrences vc tag h61 h0]
  rfl

/-- C17. Multi-valued decode rule: decoding any comment list into a fresh tag,
each of the ten fields read under `TITLE`, `ARTIST`, `ALBUMARTIST`, `ALBUM`,
`GENRE`, `COMPOSER`, `PERFORMER`, `COPYRIGHT`, `CONTACT` and `ENCODED-BY` is
absent when no occurrence of its key has a non-empty sanitized value, and is
otherwise the sanitized non-empty values of all occurrences of the key, in
the order of the list, joined with `" - "`. -/
theorem multi_valued_decode_rule (E : Collab) (vc : List Str) :
    (et_add_file_tags_from_vorbis_comments E vc et_file_tag_new).title
        = join_values (sanitized_values E (occurrences vc (ascii "TITLE")))
    ∧ (et_add_file_tags_from_vorbis_comments E vc et_file_tag_new).artist
        = join_values (sanitized_values E (occurrences vc (ascii "ARTIST")))
    ∧ (et_add_file_tags_from_vorbis_comments E vc et_file_tag_new).album_artist
        = join_values (sanitized_values E (occurrences vc (ascii "ALBUMARTIST")))
    ∧ (et_add_file_tags_from_vorbis_comments E vc et_file_tag_new).album
        = join_values (sanitized_values E (occurrences vc (ascii "ALBUM")))
    ∧ (et_add_file_tags_from_vorbis_comments E vc et_file_tag_new).genre
        = join_values (sanitized_values E (occurrences vc (ascii "GENRE")))
    ∧ (et_add_file_tags_from_vorbis_comments E vc et_file_tag_new).composer
        = join_values (sanitized_values E (occurrences vc (ascii "COMPOSER")))
    ∧ (et_add_file_tags_from_vorbis_comments E vc et_file_tag_new).orig_artist
        = join_values (sanitized_values E (occurrences vc (ascii "PERFORMER")))
    ∧ (et_add_file_tags_from_vorbis_comments E vc et_file_tag_new).copyright
        = join_values (sanitized_values E (occurrences vc (ascii "COPYRIGHT")))
    ∧ (et_add_file_tags_from_vorbis_comments E vc et_file_tag_new).url
        = join_values (sanitized_values E (occurrences vc (ascii "CONTACT")))
    ∧ (et_add_file_tags_from_vorbis_comments E vc et_file_tag_new).encoded_by
        = join_values (sanitized_values E (occurrences vc (ascii "ENCODED-BY")))
    ∧ (∀ values : List Str, join_values values = none ↔ values = [])
    ∧ (∀ (v : Str) (values : List Str),
        join_values (v :: values) = some (MULTIFIELD_SEPARATOR.intercalate (v :: values)))
    ∧ MULTIFIELD_SEPARATOR = ascii " - " := by
  refine ⟨?_, ?_, ?_, ?_, ?_, ?_, ?_, ?_, ?_, ?_, ?_, ?_, ?_⟩
  · rw [decode_title]; exact read_multi_fresh E vc _ (by decide) (by decide)
  · rw [decode_artist]; exact read_multi_fresh E vc _ (by decide) (by decide)
  · rw [decode_album_artist]; exact read_multi_fresh E vc _ (by decide) (by decide)
  · rw [decode_album]; exact read_multi_fresh E vc _ (by decide) (by decide)
  · rw [decode_genre]; exact read_multi_fresh E vc _ (by decide) (by decide)
  · rw [decode_composer]; exact read_multi_fresh E vc _ (by decide) (by decide)
  · rw [decode_orig_artist]; exact read_multi_fresh E vc _ (by decide) (by decide)
  · rw [decode_copyright]; exact read_multi_fresh E vc _ (by decide) (by decide)
  · rw [decode_url]; exact read_multi_fresh E vc _ (by decide) (by decide)
  · rw [decode_encoded_by]; exact read_multi_fresh E vc _ (by decide) (by decide)
  · intro values; cases values <;> simp [join_values]
  · intro v values; rfl
  · decide

/-- C18. Comment three-way priority: decoding any comment list into a fresh
tag, the comment is the join with `" - "`, in index order, of the sanitized
non-empty values chosen at the occurrence indices `0, 1, ...` before the first
index at which `DESCRIPTION`, `COMMENT` and the empty key are all absent; the
value chosen at an index is the `DESCRIPTION` occurrence of that index if it
exists, else the `COMMENT` occurrence of that index, else the one of the empty
key, so an occurrence of a lower-priority key at an index where a
higher-priority key exists is used at no index. -/
theorem comment_three_way_priority (E : Collab) (vc : List Str) :
    (et_add_file_tags_from_vorbis_comments E vc et_file_tag_new).comment
        = join_values (sanitized_values E
            ((List.range (comment_index_end (occurrences vc (ascii "DESCRIPTION"))
                (occurrences vc (ascii "COMMENT")) (occurrences vc (ascii "")))).filterMap
              (comment_choice_at (occurrences vc (ascii "DESCRIPTION"))
                (occurrences vc (ascii "COMMENT")) (occurrences vc (ascii "")))))
    ∧ (∀ n, ((occurrences vc (ascii "DESCRIPTION"))[n]? = none
          ∧ (occurrences vc (ascii "COMMENT"))[n]? = none
          ∧ (occurrences vc (ascii ""))[n]? = none)
        ↔ comment_index_end (occurrences vc (ascii "DESCRIPTION"))
            (occurrences vc (ascii "COMMENT")) (occurrences vc (ascii "")) ≤ n)
    ∧ (∀ n d, (occurrences vc (ascii "DESCRIPTION"))[n]? = some d →
        comment_choice_at (occurrences vc (ascii "DESCRIPTION"))
          (occurrences vc (ascii "COMMENT")) (occurrences vc (ascii "")) n = some d)
    ∧ (∀ n, (occurrences vc (ascii "DESCRIPTION"))[n]? = none →
        ∀ c, (occurrences vc (ascii "COMMENT"))[n]? = some c →
        comment_choice_at (occurrences vc (ascii "DESCRIPTION"))
          (occurrences vc (ascii "COMMENT")) (occurrences vc (ascii "")) n = some c)
    ∧ (∀ n, (occurrences vc (ascii "DESCRIPTION"))[n]? = none →
        (occurrences vc (ascii "COMMENT"))[n]? = none →
        comment_choice_at (occurrences vc (ascii "DESCRIPTION"))
          (occurrences vc (ascii "COMMENT")) (occurrences vc (ascii "")) n
          = (occurrences vc (ascii ""))[n]?) := by
  refine ⟨?_, ?_, ?_, ?_, ?_⟩
  · rw [decode_comment, read_comment_general, foldl_join_step,
      comment_values_eq_occurrences vc (ascii "DESCRIPTION") (by decide) (by decide),
      comment_values_eq_occurrences vc (ascii "COMMENT") (by decide) (by decide),
      comment_values_eq_occurrences vc (ascii "") (by decide) (by decide)]
    rfl
  · intro n
    simp only [List.getElem?_eq_none_iff, comment_index_end]
    omega
  · intro n d h; simp [comment_choice_at, h]
  · intro n h c hc; simp [comment_choice_at, h, hc]
  · intro n h hc; simp [comment_choice_at, h, hc]


/-! ## A comment inserted under another key -/

/-- A comment that does not match a tag adds no value of that tag, wherever it
is inserted. -/
theorem comment_values_insert_other (a b : List Str) (x tag : Str)
    (h : tagcompare x (fulltag tag) (fulltag tag).length ≠ 0) :
    comment_values (a ++ x :: b) tag = comment_values (a ++ b) tag := by
  simp [comment_values, List.filterMap_append, List.filterMap_cons, h]

/-- A comment that matches a tag adds its value at its place. -/
theorem comment_values_insert_same (a b : List Str) (x tag : Str)
    (h : tagcompare x (fulltag tag) (fulltag tag).length = 0) :
    comment_values (a ++ x :: b) tag
      = comment_values a tag ++ x.drop (fulltag tag).length :: comment_values b tag := by
  simp [comment_values, List.filterMap_append, List.filterMap_cons, h]

theorem read_disc_values (E : Collab) (vc vc2 : List Str) (t : File_Tag)
    (h1 : comment_values vc2 (ascii "DISCNUMBER") = comment_values vc (ascii "DISCNUMBER"))
    (h2 : comment_values vc2 (ascii "DISCTOTAL") = comment_values vc (ascii "DISCTOTAL")) :
    (read_disc E vc2 t).2 = (read_disc E vc t).2 := by
  simp only [read_disc, query_eq_values, h1, h2]
  split
  · rfl
  · split
    · rfl
    · split <;> rfl

theorem read_track_values (E : Collab) (vc vc2 : List Str) (t : File_Tag)
    (h1 : comment_values vc2 (ascii "TRACKNUMBER") = comment_values vc (ascii "TRACKNUMBER"))
    (h2 : comment_values vc2 (ascii "TRACKTOTAL") = comment_values vc (ascii "TRACKTOTAL")) :
    (read_track E vc2 t).2 = (read_track E vc t).2 := by
  simp only [read_track, query_eq_values, h1, h2]
  split
  · rfl
  · split
    · rfl
    · split <;> rfl

theorem read_year_values (vc vc2 : List Str) (t : File_Tag)
    (h1 : comment_values vc2 (ascii "DATE") = comment_values vc (ascii "DATE")) :
    read_year vc2 t = read_year vc t := by
  simp only [read_year, query_eq_values, h1]

/-- The legacy loop sees the comment list only through the values of its three
keys. -/
theorem read_coverart_loop_values (E : Collab) (vc vc2 : List Str)
    (h1 : comment_values vc2 (ascii "COVERART") = comment_values vc (ascii "COVERART"))
    (h2 : comment_values vc2 (ascii "COVERARTTYPE") = comment_values vc (ascii "COVERARTTYPE"))
    (h3 : comment_values vc2 (ascii "COVERARTDESCRIPTION")
      = comment_values vc (ascii "COVERARTDESCRIPTION")) :
    ∀ (fuel fuel2 n : Nat) (st : Bool × List EtPicture),
      (comment_values vc (ascii "COVERART")).length < fuel + n →
      (comment_values vc (ascii "COVERART")).length < fuel2 + n →
      read_coverart_loop E vc2 fuel2 n st = read_coverart_loop E vc fuel n st := by
  intro fuel
  induction fuel with
  | zero =>
    intro fuel2 n st hf _
    have hq : (comment_values vc (ascii "COVERART"))[n]? = none :=
      List.getElem?_eq_none_iff.2 (by omega)
    cases fuel2 with
    | zero => rfl
    | succ k => simp only [read_coverart_loop, query_eq_values, h1, hq]
  | succ fuel ih =>
    intro fuel2 n st hf hf2
    cases hq : (comment_values vc (ascii "COVERART"))[n]? with
    | none =>
      cases fuel2 with
      | zero => simp only [read_coverart_loop, query_eq_values, hq]
      | succ k => simp only [read_coverart_loop, query_eq_values, h1, hq]
    | some s =>
      have hlt := (List.getElem?_eq_some_iff.1 hq).1
      cases fuel2 with
      | zero => omega
      | succ k =>
        simp only [read_coverart_loop, query_eq_values, h1, h2, h3, hq]
        exact ih k (n + 1) _ (by omega) (by omega)

theorem read_pictures_values (E : Collab) (vc vc2 : List Str) (saved : Bool)
    (h1 : comment_values vc2 (ascii "COVERART") = comment_values vc (ascii "COVERART"))
    (h2 : comment_values vc2 (ascii "COVERARTTYPE") = comment_values vc (ascii "COVERARTTYPE"))
    (h3 : comment_values vc2 (ascii "COVERARTDESCRIPTION")
      = comment_values vc (ascii "COVERARTDESCRIPTION")) :
    read_pictures E vc2 saved
      = (comment_values vc2 (ascii "METADATA_BLOCK_PICTURE")).foldl (block_step E)
          (read_coverart_loop E vc (vc.length + 1) 0 (saved, [])) := by
  have l1 := comment_values_length_le vc (ascii "COVERART")
  have l2 := comment_values_length_le vc2 (ascii "COVERART")
  rw [h1] at l2
  rw [read_pictures_eq, read_coverart_loop_values E vc vc2 h1 h2 h3 (vc.length + 1)
    (vc2.length + 1) 0 _ (by omega) (by omega)]

theorem read_multi_values (E : Collab) (vc vc2 : List Str) (tag : Str) (f : Option Str)
    (h : comment_values vc2 tag = comment_values vc tag) :
    read_multi E vc2 tag f = read_multi E vc tag f := by
  rw [read_multi_eq, read_multi_eq, h]

theorem read_comment_values (E : Collab) (vc vc2 : List Str) (f : Option Str)
    (h1 : comment_values vc2 (ascii "DESCRIPTION") = comment_values vc (ascii "DESCRIPTION"))
    (h2 : comment_values vc2 (ascii "COMMENT") = comment_values vc (ascii "COMMENT"))
    (h3 : comment_values vc2 (ascii "") = comment_values vc (ascii "")) :
    read_comment E vc2 f = read_comment E vc f := by
  rw [read_comment_general, read_comment_general, h1, h2, h3]

/-- C16. A dropped picture is equivalent to its absence: for all comment lists
`a` and `b` and every comment `x` that matches `METADATA_BLOCK_PICTURE=` and
whose decoded block fails validation, decoding `a ++ x :: b` gives the tag
that decoding `a ++ b` gives (the same title, artist, numbers, comment, other
text fields, picture sequence and extension list), except that `saved` is
`false`. -/
theorem dropped_picture_equivalent_to_absence (E : Collab) (a b : List Str) (x : Str)
    (t : File_Tag)
    (hx : tagcompare x (ascii "METADATA_BLOCK_PICTURE=") 23 = 0)
    (hdrop : read_metadata_block_picture E (E.g_base64_decode (x.drop 23)) = .ok none) :
    et_add_file_tags_from_vorbis_comments E (a ++ x :: b) t
      = { et_add_file_tags_from_vorbis_comments E (a ++ b) t with saved := false } := by
  have hx2 : tagcompare x (fulltag (ascii "METADATA_BLOCK_PICTURE"))
      (fulltag (ascii "METADATA_BLOCK_PICTURE")).length = 0 := hx
  have hv : ∀ tag, tags_disjoint (ascii "METADATA_BLOCK_PICTURE") tag = true →
      comment_values (a ++ x :: b) tag = comment_values (a ++ b) tag := fun tag h =>
    comment_values_insert_other a b x tag (tags_disjoint_spec _ tag h x hx2)
  have hm : ∀ tag f, tags_disjoint (ascii "METADATA_BLOCK_PICTURE") tag = true →
      read_multi E (a ++ x :: b) tag f = read_multi E (a ++ b) tag f := fun tag f h =>
    read_multi_values E _ _ tag f (hv tag h)
  have hpic := read_pictures_values E (a ++ b) (a ++ x :: b) t.saved (hv _ (by decide))
    (hv _ (by decide)) (hv _ (by decide))
  have hblock : block_picture E (x.drop 23) = none := block_picture_none_of_dropped E _ hdrop
  have hlen : (fulltag (ascii "METADATA_BLOCK_PICTURE")).length = 23 := by decide
  rw [comment_values_insert_same a b x _ hx2, hlen, foldl_block_step] at hpic
  have hpic0 := read_pictures_eq E (a ++ b) t.saved
  rw [comment_values_append, foldl_block_step] at hpic0
  have hp2 : (read_pictures E (a ++ x :: b) t.saved).2 = (read_pictures E (a ++ b) t.saved).2 := by
    rw [hpic, hpic0]
    simp [List.filterMap_append, hblock]
  have hp1 : (read_pictures E (a ++ x :: b) t.saved).1 = false := by
    rw [hpic]
    simp [hblock]
  have hunsup : is_unsupported x = false :=
    supported_of_tagcompare (ascii "METADATA_BLOCK_PICTURE") (by decide) (by decide) x hx2
  apply file_tag_ext
  · rw [decode_saved, hp1]
  · rw [decode_title, decode_title, hm _ _ (by decide)]
  · rw [decode_artist, decode_artist, hm _ _ (by decide)]
  · rw [decode_album_artist, decode_album_artist, hm _ _ (by decide)]
  · rw [decode_album, decode_album, hm _ _ (by decide)]
  · rw [decode_disc_number, decode_disc_number,
      read_disc_values E (a ++ b) (a ++ x :: b) t (hv _ (by decide)) (hv _ (by decide))]
  · rw [decode_disc_total, decode_disc_total,
      read_disc_values E (a ++ b) (a ++ x :: b) t (hv _ (by decide)) (hv _ (by decide))]
  · rw [decode_year, decode_year, read_year_values (a ++ b) (a ++ x :: b) t (hv _ (by decide))]
  · rw [decode_track, decode_track,
      read_track_values E (a ++ b) (a ++ x :: b) t (hv _ (by decide)) (hv _ (by decide))]
  · rw [decode_track_total, decode_track_total,
      read_track_values E (a ++ b) (a ++ x :: b) t (hv _ (by decide)) (hv _ (by decide))]
  · rw [decode_genre, decode_genre, hm _ _ (by decide)]
  · rw [decode_comment, decode_comment,
      read_comment_values E (a ++ b) (a ++ x :: b) _ (hv _ (by decide)) (hv _ (by decide))
        (hv _ (by decide))]
  · rw [decode_composer, decode_composer, hm _ _ (by decide)]
  · rw [decode_orig_artist, decode_orig_artist, hm _ _ (by decide)]
  · rw [decode_copyright, decode_copyright, hm _ _ (by decide)]
  · rw [decode_url, decode_url, hm _ _ (by decide)]
  · rw [decode_encoded_by, decode_encoded_by, hm _ _ (by decide)]
  · rw [decode_picture, decode_picture, hp2]
  · rw [decode_other, decode_other]
    simp [read_other, List.filter_append, List.filter_cons, hunsup]


/-- Witness for C16: between `TITLE=a` and `ARTIST=b`, the comment
`metadata_block_picture=AAAA` matches the key and its block of three bytes
fails validation; the tag decoded with it is the tag decoded without it, which
is marked as saved, with the flag cleared. -/
theorem dropped_picture_equivalent_to_absence_witness :
    tagcompare comment_short_block (ascii "METADATA_BLOCK_PICTURE=") 23 = 0
    ∧ read_metadata_block_picture reference_collab
        (reference_collab.g_base64_decode (comment_short_block.drop 23)) = .ok none
    ∧ (et_add_file_tags_from_vorbis_comments reference_collab
        ([ascii "TITLE=a"] ++ [ascii "ARTIST=b"]) tag_saved).saved = true
    ∧ et_add_file_tags_from_vorbis_comments reference_collab
        ([ascii "TITLE=a"] ++ comment_short_block :: [ascii "ARTIST=b"]) tag_saved
      = { et_add_file_tags_from_vorbis_comments reference_collab
            ([ascii "TITLE=a"] ++ [ascii "ARTIST=b"]) tag_saved with saved := false } :=
  ⟨by decide, by rfl, by rfl,
    dropped_picture_equivalent_to_absence reference_collab [ascii "TITLE=a"] [ascii "ARTIST=b"]
      comment_short_block tag_saved (by decide) (by rfl)⟩

/-! ## Fields stored without sanitizing -/

theorem reference_sanitizer_valid (s : Str) :
    g_utf8_validate (reference_collab.Try_To_Validate_Utf8_String s) = true := by
  simp only [reference_collab]
  split
  · assumption
  · rfl

/-- C19 fails on the code: with a sanitizer that returns valid UTF-8 on every
input, decoding the single comment `DATE=` followed by the byte `0xFF` stores
that byte as the year, decoding `TRACKNUMBER=` followed by `0xFF` stores it as
the track, and the byte `0xFF` alone is not valid UTF-8. -/
theorem year_and_track_not_sanitized :
    (∀ s, g_utf8_validate (reference_collab.Try_To_Validate_Utf8_String s) = true)
    ∧ (et_add_file_tags_from_vorbis_comments reference_collab [ascii "DATE=" ++ [255]]
        et_file_tag_new).year = some [255]
    ∧ (et_add_file_tags_from_vorbis_comments reference_collab [ascii "TRACKNUMBER=" ++ [255]]
        et_file_tag_new).track = some [255]
    ∧ g_utf8_validate [255] = false :=
  ⟨reference_sanitizer_valid, by rfl, by rfl, by rfl⟩

/-! ## Values that the writer does not emit -/

theorem foldl_write_tokens (K : Str) : ∀ (tokens : List Str) (vc : List Str),
    tokens.foldl (fun vc s => if s ≠ [] then et_ogg_write_tag vc K s else vc) vc
      = vc ++ tokens.foldl (fun vc s => if s ≠ [] then et_ogg_write_tag vc K s else vc) [] := by
  intro tokens
  induction tokens with
  | nil => intro vc; simp
  | cons s rest ih =>
    intro vc
    simp only [List.foldl_cons]
    rw [ih, ih (if s ≠ [] then et_ogg_write_tag [] K s else [])]
    by_cases hs : s = []
    · simp [hs]
    · simp [hs, et_ogg_write_tag]

/-- The entries that `et_ogg_set_tag` adds do not depend on the list they are
added to. -/
theorem set_tag_append (vc : List Str) (K : Str) (value : Option Str) (split : Bool) :
    et_ogg_set_tag vc K value split = vc ++ et_ogg_set_tag [] K value split := by
  cases value with
  | none => simp [et_ogg_set_tag]
  | some v =>
    cases split with
    | false => simp [et_ogg_set_tag, et_ogg_write_tag]
    | true =>
      simp only [et_ogg_set_tag, et_ogg_write_delimited_tag, if_true]
      exact foldl_write_tokens K _ vc

theorem foldl_write_pictures (E : Collab) : ∀ (pics : List EtPicture) (vc : List Str),
    pics.foldl (fun vc pic => match write_picture E pic with
      | some string => vc ++ [string]
      | none => vc) vc = vc ++ pics.filterMap (write_picture E) := by
  intro pics
  induction pics with
  | nil => intro vc; simp
  | cons p rest ih =>
    intro vc
    simp only [List.foldl_cons, List.filterMap_cons, ih]
    cases write_picture E p <;> simp

theorem foldl_write_other : ∀ (other : List (Option Str)) (vc : List Str),
    other.foldl (fun vc l => match l with
      | some data => vc ++ [data]
      | none => vc) vc = vc ++ other.filterMap id := by
  intro other
  induction other with
  | nil => intro vc; simp
  | cons o rest ih =>
    intro vc
    simp only [List.foldl_cons, List.filterMap_cons, ih]
    cases o <;> simp

/-- C20 fails as stated: with every split setting off, the tag whose only
field is the empty title is written as the entry `TITLE=`; with every split
setting on, the tag whose only field is the title of one space is written as
the entry `TITLE=` followed by the space. -/
theorem empty_value_written_counterexample :
    ogg_tag_write_file_tag reference_collab settings_split_off
        { et_file_tag_new with title := some [] } = [ascii "TITLE="]
    ∧ ogg_tag_write_file_tag reference_collab settings_split_on
        { et_file_tag_new with title := some (ascii " ") } = [ascii "TITLE= "] := by
  constructor <;> rfl

/-- C20, amended: for every tag and every setting of the split flags, the
written comment list is the entries of the sixteen recognized fields, in
order, followed by those of the pictures and of the extension list, and a
recognized field adds no entry when its value is absent (`NULL`), nor when its
value is the empty string and the field is written with splitting on. -/
theorem absent_value_not_written (E : Collab) (S : OggSettings) (t : File_Tag) :
    ogg_tag_write_file_tag E S t
      = et_ogg_set_tag [] (ascii "TITLE=") t.title S.ogg_split_title
        ++ et_ogg_set_tag [] (ascii "ARTIST=") t.artist S.ogg_split_artist
        ++ et_ogg_set_tag [] (ascii "ALBUMARTIST=") t.album_artist S.ogg_split_artist
        ++ et_ogg_set_tag [] (ascii "ALBUM=") t.album S.ogg_split_album
        ++ et_ogg_set_tag [] (ascii "DISCNUMBER=") t.disc_number false
        ++ et_ogg_set_tag [] (ascii "DISCTOTAL=") t.disc_total false
        ++ et_ogg_set_tag [] (ascii "DATE=") t.year false
        ++ et_ogg_set_tag [] (ascii "TRACKNUMBER=") t.track false
        ++ et_ogg_set_tag [] (ascii "TRACKTOTAL=") t.track_total false
        ++ et_ogg_set_tag [] (ascii "GENRE=") t.genre S.ogg_split_genre
        ++ et_ogg_set_tag [] (ascii "DESCRIPTION=") t.comment S.ogg_split_comment
        ++ et_ogg_set_tag [] (ascii "COMPOSER=") t.composer S.ogg_split_composer
        ++ et_ogg_set_tag [] (ascii "PERFORMER=") t.orig_artist S.ogg_split_original_artist
        ++ et_ogg_set_tag [] (ascii "COPYRIGHT=") t.copyright false
        ++ et_ogg_set_tag [] (ascii "CONTACT=") t.url false
        ++ et_ogg_set_tag [] (ascii "ENCODED-BY=") t.encoded_by false
        ++ t.picture.filterMap (write_picture E)
        ++ t.other.filterMap id
    ∧ (∀ (tag_name : Str) (split : Bool), et_ogg_set_tag [] tag_name none split = [])
    ∧ (∀ tag_name : Str, et_ogg_set_tag [] tag_name (some []) true = []) := by
  refine ⟨?_, ?_, ?_⟩
  · simp only [ogg_tag_write_file_tag, foldl_write_other, foldl_write_pictures]
    rw [set_tag_append _ (ascii "ENCODED-BY="), set_tag_append _ (ascii "CONTACT="),
      set_tag_append _ (ascii "COPYRIGHT="), set_tag_append _ (ascii "PERFORMER="),
      set_tag_append _ (ascii "COMPOSER="), set_tag_append _ (ascii "DESCRIPTION="),
      set_tag_append _ (ascii "GENRE="), set_tag_append _ (ascii "TRACKTOTAL="),
      set_tag_append _ (ascii "TRACKNUMBER="), set_tag_append _ (ascii "DATE="),
      set_tag_append _ (ascii "DISCTOTAL="), set_tag_append _ (ascii "DISCNUMBER="),
      set_tag_append _ (ascii "ALBUM="), set_tag_append _ (ascii "ALBUMARTIST="),
      set_tag_append _ (ascii "ARTIST=")]
  · intro tag_name split; rfl
  · intro tag_name; rfl


/-- Witness for C17: the occurrences `a`, `b` (under the key in lower case) and
the empty one of `TITLE` give the title `a - b`; the `ARTIST` value is not
part of it. -/
theorem multi_valued_decode_rule_witness :
    (et_add_file_tags_from_vorbis_comments reference_collab
        [ascii "TITLE=a", ascii "ARTIST=c", ascii "title=b", ascii "TITLE="]
        et_file_tag_new).title = some (ascii "a - b") :=
  (multi_valued_decode_rule reference_collab
    [ascii "TITLE=a", ascii "ARTIST=c", ascii "title=b", ascii "TITLE="]).1.trans (by rfl)

/-- Witness for C18: at index 0 the `DESCRIPTION` value `a` wins over the
`COMMENT` value `x` and the empty-key value `z`; at index 1 only `COMMENT` has
a value, `y`; the comment is `a - y` and `x` is used nowhere. -/
theorem comment_three_way_priority_witness :
    (et_add_file_tags_from_vorbis_comments reference_collab
        [ascii "COMMENT=x", ascii "=z", ascii "DESCRIPTION=a", ascii "COMMENT=y"]
        et_file_tag_new).comment = some (ascii "a - y") :=
  (comment_three_way_priority reference_collab
    [ascii "COMMENT=x", ascii "=z", ascii "DESCRIPTION=a", ascii "COMMENT=y"]).1.trans (by rfl)

/-- Witness for C20 as amended: with every split setting on, the tag with an
empty title, the artist `x` and no other field is written as the single entry
`ARTIST=x`. -/
theorem absent_value_not_written_witness :
    ogg_tag_write_file_tag reference_collab settings_split_on
        { et_file_tag_new with title := some [], artist := some (ascii "x") }
      = [ascii "ARTIST=x"] :=
  (absent_value_not_written reference_collab settings_split_on
    { et_file_tag_new with title := some [], artist := some (ascii "x") }).1.trans (by rfl)


/-! ## Integer parsing of number texts -/

theorem atoi_signed_other (b : Nat) (rest : Str) (h1 : b ≠ 45) (h2 : b ≠ 43) :
    atoi_signed (b :: rest) = atoi_digits (b :: rest) 0 := by
  unfold atoi_signed
  split
  · rename_i h; cases h; exact absurd rfl h1
  · rename_i h; cases h; exact absurd rfl h2
  · rfl

theorem strtol_exact_eq_signed :
    ∀ s : Str, strtol_exact s = atoi_signed (s.dropWhile isspace) := by
  intro s
  induction s with
  | nil => rfl
  | cons b rest ih =>
    by_cases hb : isspace b = true
    · simp [strtol_exact, hb, List.dropWhile_cons, ih]
    · simp [strtol_exact, hb, List.dropWhile_cons]

/-- The result of `atoi` is an `int`. -/
theorem atoi_range (s : Str) : -2147483648 ≤ atoi s ∧ atoi s ≤ 2147483647 := by
  simp only [atoi, int_of_long]
  omega

/-- On a text whose value is in the range of `int`, `atoi` gives that value. -/
theorem atoi_of_int_range (s : Str) (h1 : -2147483648 ≤ strtol_exact s)
    (h2 : strtol_exact s ≤ 2147483647) : atoi s = strtol_exact s := by
  simp only [atoi, int_of_long, strtol, LONG_MAX, LONG_MIN]
  rw [if_neg (by omega), if_neg (by omega)]
  omega

theorem atoi_congr (s1 s2 : Str) (h : strtol_exact s1 = strtol_exact s2) :
    atoi s1 = atoi s2 := by
  simp only [atoi, strtol, h]

theorem atoi_digits_no_digit (s : Str) (acc : Int)
    (h : s.takeWhile (fun b => decide (48 ≤ b ∧ b ≤ 57)) = []) : atoi_digits s acc = acc := by
  cases s with
  | nil => rfl
  | cons b rest =>
    by_cases hb : 48 ≤ b ∧ b ≤ 57
    · simp [List.takeWhile_cons, hb] at h
    · simp [atoi_digits, hb]

theorem strtol_exact_no_digits (s : Str) (h : leading_digits s = []) :
    strtol_exact s = 0 := by
  rw [strtol_exact_eq_signed]
  simp only [leading_digits, after_space_and_sign] at h
  generalize s.dropWhile isspace = r at h
  cases r with
  | nil => rfl
  | cons b rest =>
    by_cases h1 : b = 45
    · subst h1
      simp only [] at h
      simp [atoi_signed, atoi_digits_no_digit rest 0 h]
    · by_cases h2 : b = 43
      · subst h2
        simp only [] at h
        simp [atoi_signed, atoi_digits_no_digit rest 0 h]
      · rw [atoi_signed_other b rest h1 h2]
        have h3 : (match b :: rest with
          | 45 :: rest => rest
          | 43 :: rest => rest
          | rest => rest) = b :: rest := by
          split
          · rename_i e; cases e; exact absurd rfl h1
          · rename_i e; cases e; exact absurd rfl h2
          · rfl
        rw [h3] at h
        exact atoi_digits_no_digit _ 0 h

/-- A text without leading digits is parsed as `0`. -/
theorem atoi_no_digits (s : Str) (h : leading_digits s = []) : atoi s = 0 := by
  rw [atoi_of_int_range s (by rw [strtol_exact_no_digits s h]; decide)
    (by rw [strtol_exact_no_digits s h]; decide)]
  exact strtol_exact_no_digits s h

theorem atoi_digits_take_slash : ∀ (s : Str) (acc : Int) (k : Nat),
    g_utf8_strchr s 47 = some k → atoi_digits (s.take k) acc = atoi_digits s acc := by
  intro s
  induction s with
  | nil => intro acc k h; simp [g_utf8_strchr] at h
  | cons b rest ih =>
    intro acc k h
    simp only [g_utf8_strchr] at h
    by_cases hb : b = 47
    · subst hb
      simp only [if_true, Option.some.injEq] at h
      subst h
      simp [atoi_digits]
    · simp only [hb, if_false, Option.map_eq_some'] at h
      obtain ⟨j, hj, hk⟩ := h
      subst hk
      simp only [List.take_succ_cons, atoi_digits]
      split
      · exact ih _ j hj
      · rfl

theorem strtol_exact_take_slash : ∀ (s : Str) (k : Nat),
    g_utf8_strchr s 47 = some k → strtol_exact (s.take k) = strtol_exact s := by
  intro s
  induction s with
  | nil => intro k h; simp [g_utf8_strchr] at h
  | cons b rest ih =>
    intro k h
    have h0 := h
    simp only [g_utf8_strchr] at h
    by_cases hb : b = 47
    · subst hb
      simp only [if_true, Option.some.injEq] at h
      subst h
      simp [strtol_exact, isspace, atoi_signed, atoi_digits]
    · simp only [hb, if_false, Option.map_eq_some'] at h
      obtain ⟨j, hj, hk⟩ := h
      subst hk
      simp only [List.take_succ_cons, strtol_exact]
      by_cases hs : isspace b = true
      · simp only [hs, if_true]
        exact ih j hj
      · simp only [hs]
        by_cases h1 : b = 45
        · subst h1
          simp only [atoi_signed, Bool.false_eq_true, if_false]
          rw [atoi_digits_take_slash rest 0 j hj]
        · by_cases h2 : b = 43
          · subst h2
            simp only [atoi_signed, Bool.false_eq_true, if_false]
            rw [atoi_digits_take_slash rest 0 j hj]
          · simp only [Bool.false_eq_true, if_false]
            rw [atoi_signed_other b _ h1 h2, atoi_signed_other b _ h1 h2]
            have := atoi_digits_take_slash (b :: rest) 0 (j + 1) h0
            simpa using this

/-- Cutting a text at its first slash does not change what `atoi` reads. -/
theorem atoi_take_slash (s : Str) (k : Nat) (h : g_utf8_strchr s 47 = some k) :
    atoi (s.take k) = atoi s :=
  atoi_congr _ _ (strtol_exact_take_slash s k h)

theorem read_disc_number_eq (E : Collab) (vc : List Str) (t : File_Tag) (s : Str)
    (hq : vorbis_comment_query vc (ascii "DISCNUMBER") 0 = some s) (hs : s ≠ []) :
    (read_disc E vc t).2.disc_number = some (E.et_disc_number_to_string (atoi s)) := by
  simp only [read_disc, hq, if_nonempty_some s hs]
  split
  · rfl
  · cases hk : g_utf8_strchr s 47 with
    | none => rfl
    | some k => simp only [atoi_take_slash s k hk]

theorem read_disc_total_eq (E : Collab) (vc : List Str) (t : File_Tag) (s : Str)
    (hq : vorbis_comment_query vc (ascii "DISCNUMBER") 0 = some s) (hs : s ≠ []) :
    (read_disc E vc t).2.disc_total
      = match if_nonempty (vorbis_comment_query vc (ascii "DISCTOTAL") 0) with
        | some s1 => some (E.et_disc_number_to_string (atoi s1))
        | none =>
          match g_utf8_strchr s 47 with
          | some k => some (E.et_disc_number_to_string (atoi (s.drop (k + 1))))
          | none => t.disc_total := by
  simp only [read_disc, hq, if_nonempty_some s hs]
  split
  · rfl
  · cases hk : g_utf8_strchr s 47 <;> rfl

theorem read_track_total_eq (E : Collab) (vc : List Str) (t : File_Tag) (s : Str)
    (hq : vorbis_comment_query vc (ascii "TRACKNUMBER") 0 = some s) (hs : s ≠ []) :
    (read_track E vc t).2.track_total
      = match if_nonempty (vorbis_comment_query vc (ascii "TRACKTOTAL") 0) with
        | some s1 => some (E.et_track_number_to_string (atoi s1))
        | none =>
          match g_utf8_strchr s 47 with
          | some k => some (E.et_track_number_to_string (atoi (s.drop (k + 1))))
          | none => t.track_total := by
  simp only [read_track, hq, if_nonempty_some s hs]
  split
  · rfl
  · cases hk : g_utf8_strchr s 47 <;> rfl


/-- C21. Best-effort numeric decode: for every comment list whose first
`DISCNUMBER` value `s` is not empty, the decoder stores as disc number the
formatted `atoi` of `s`, and as disc total the formatted `atoi` of the first
`DISCTOTAL` value when that is not empty, else of the text after the first
slash of `s` when there is one; likewise the track total for a non-empty first
`TRACKNUMBER`. A text without leading digits (after white space and an
optional sign) is parsed as `0`, so `DISCNUMBER=abc`, `TRACKTOTAL=x` and the
slash suffix `x` are decoded to the formatted value `0`. The parse is that of
glibc `atoi`, `(int) strtol`: its result is always an `int`, it is the value
of the text when that is in the range of `int`, and a text beyond the range of
`long` gives `-1` (`LONG_MAX` cut to 32 bits), so
`TRACKTOTAL=99999999999999999999` is decoded to the formatted `-1`. -/
theorem vorbis_numeric_best_effort (E : Collab) (vc : List Str) (FileTag : File_Tag) :
    (∀ s : Str, vorbis_comment_query vc (ascii "DISCNUMBER") 0 = some s → s ≠ [] →
        (et_add_file_tags_from_vorbis_comments E vc FileTag).disc_number
            = some (E.et_disc_number_to_string (atoi s))
          ∧ (∀ s1 : Str, vorbis_comment_query vc (ascii "DISCTOTAL") 0 = some s1 → s1 ≠ [] →
              (et_add_file_tags_from_vorbis_comments E vc FileTag).disc_total
                = some (E.et_disc_number_to_string (atoi s1)))
          ∧ (if_nonempty (vorbis_comment_query vc (ascii "DISCTOTAL") 0) = none →
              ∀ k, g_utf8_strchr s 47 = some k →
              (et_add_file_tags_from_vorbis_comments E vc FileTag).disc_total
                = some (E.et_disc_number_to_string (atoi (s.drop (k + 1))))))
      ∧ (∀ s : Str, vorbis_comment_query vc (ascii "TRACKNUMBER") 0 = some s → s ≠ [] →
          (∀ s1 : Str, vorbis_comment_query vc (ascii "TRACKTOTAL") 0 = some s1 → s1 ≠ [] →
              (et_add_file_tags_from_vorbis_comments E vc FileTag).track_total
                = some (E.et_track_number_to_string (atoi s1)))
          ∧ (if_nonempty (vorbis_comment_query vc (ascii "TRACKTOTAL") 0) = none →
              ∀ k, g_utf8_strchr s 47 = some k →
              (et_add_file_tags_from_vorbis_comments E vc FileTag).track_total
                = some (E.et_track_number_to_string (atoi (s.drop (k + 1))))))
      ∧ (∀ s : Str, leading_digits s = [] → atoi s = 0)
      ∧ (et_add_file_tags_from_vorbis_comments E [ascii "DISCNUMBER=abc"] FileTag).disc_number
          = some (E.et_disc_number_to_string 0)
      ∧ (et_add_file_tags_from_vorbis_comments E [ascii "DISCNUMBER=1/x"] FileTag).disc_total
          = some (E.et_disc_number_to_string 0)
      ∧ (et_add_file_tags_from_vorbis_comments E
          [ascii "TRACKNUMBER=1", ascii "TRACKTOTAL=x"] FileTag).track_total
          = some (E.et_track_number_to_string 0)
      ∧ (∀ s : Str, -2147483648 ≤ atoi s ∧ atoi s ≤ 2147483647)
      ∧ (∀ s : Str, -2147483648 ≤ strtol_exact s → strtol_exact s ≤ 2147483647 →
          atoi s = strtol_exact s)
      ∧ atoi (ascii "99999999999999999999") = -1
      ∧ atoi (ascii "-99999999999999999999") = 0
      ∧ atoi (ascii "4294967298") = 2
      ∧ (et_add_file_tags_from_vorbis_comments E
          [ascii "TRACKNUMBER=1", ascii "TRACKTOTAL=99999999999999999999"] FileTag).track_total
          = some (E.et_track_number_to_string (-1)) := by
  refine ⟨?_, ?_, atoi_no_digits, ?_, ?_, ?_, atoi_range, atoi_of_int_range, by decide,
    by decide, by decide, ?_⟩
  · intro s hq hs
    refine ⟨?_, ?_, ?_⟩
    · rw [decode_disc_number, read_disc_number_eq E vc FileTag s hq hs]
    · intro s1 hq1 hs1
      rw [decode_disc_total, read_disc_total_eq E vc FileTag s hq hs, hq1,
        if_nonempty_some s1 hs1]
    · intro hnone k hk
      rw [decode_disc_total, read_disc_total_eq E vc FileTag s hq hs, hnone, hk]
  · intro s hq hs
    refine ⟨?_, ?_⟩
    · intro s1 hq1 hs1
      rw [decode_track_total, read_track_total_eq E vc FileTag s hq hs, hq1,
        if_nonempty_some s1 hs1]
    · intro hnone k hk
      rw [decode_track_total, read_track_total_eq E vc FileTag s hq hs, hnone, hk]
  · rw [decode_disc_number, read_disc_number_eq E _ FileTag (ascii "abc") (by rfl) (by decide)]
    rfl
  · rw [decode_disc_total, read_disc_total_eq E _ FileTag (ascii "1/x") (by rfl) (by decide)]
    rfl
  · rw [decode_track_total, read_track_total_eq E _ FileTag (ascii "1") (by rfl) (by decide)]
    rfl
  · rw [decode_track_total, read_track_total_eq E _ FileTag (ascii "1") (by rfl) (by decide)]
    have h : atoi (ascii "99999999999999999999") = -1 := by decide
    simp only [show vorbis_comment_query
        [ascii "TRACKNUMBER=1", ascii "TRACKTOTAL=99999999999999999999"] (ascii "TRACKTOTAL") 0
        = some (ascii "99999999999999999999") from by rfl,
      if_nonempty_some (ascii "99999999999999999999") (by decide), h]

/-- Witness for C21: with the decimal formatter, the first `DISCNUMBER` value
`abc` of the list `DISCNUMBER=abc`, `DISCTOTAL=7x` is decoded to the disc
number `0`, and the total `7x` to `7`; the track total
`99999999999999999999` is decoded to `4294967295`, the unsigned form of
`-1`. -/
theorem vorbis_numeric_best_effort_witness :
    (et_add_file_tags_from_vorbis_comments reference_collab
        [ascii "DISCNUMBER=abc", ascii "DISCTOTAL=7x"] et_file_tag_new).disc_number
        = some (ascii "0")
      ∧ (et_add_file_tags_from_vorbis_comments reference_collab
        [ascii "DISCNUMBER=abc", ascii "DISCTOTAL=7x"] et_file_tag_new).disc_total
        = some (ascii "7")
      ∧ (et_add_file_tags_from_vorbis_comments reference_collab
        [ascii "TRACKNUMBER=1", ascii "TRACKTOTAL=99999999999999999999"]
        et_file_tag_new).track_total = some (ascii "4294967295") :=
  ⟨((vorbis_numeric_best_effort reference_collab
      [ascii "DISCNUMBER=abc", ascii "DISCTOTAL=7x"] et_file_tag_new).1
      (ascii "abc") (by rfl) (by decide)).1.trans (by rfl),
   (((vorbis_numeric_best_effort reference_collab
      [ascii "DISCNUMBER=abc", ascii "DISCTOTAL=7x"] et_file_tag_new).1
      (ascii "abc") (by rfl) (by decide)).2.1 (ascii "7x") (by rfl) (by decide)).trans (by rfl),
   (((vorbis_numeric_best_effort reference_collab
      [ascii "TRACKNUMBER=1", ascii "TRACKTOTAL=99999999999999999999"] et_file_tag_new).2.1
      (ascii "1") (by rfl) (by decide)).1 (ascii "99999999999999999999") (by rfl)
      (by decide)).trans (by decide)⟩


/-! ## The written list, field by field -/

/-- The entries written for the sixteen text fields, the pictures and the
extension list, each computed on its own. -/
theorem fill_comments_entries (E : Collab) (S : OggSettings) (vc : List Str) (t : File_Tag) :
    ogg_tag_fill_comments E S vc t
      = vc ++ (et_ogg_set_tag [] (ascii "TITLE=") t.title S.ogg_split_title
        ++ et_ogg_set_tag [] (ascii "ARTIST=") t.artist S.ogg_split_artist
        ++ et_ogg_set_tag [] (ascii "ALBUMARTIST=") t.album_artist S.ogg_split_artist
        ++ et_ogg_set_tag [] (ascii "ALBUM=") t.album S.ogg_split_album
        ++ et_ogg_set_tag [] (ascii "DISCNUMBER=") t.disc_number false
        ++ et_ogg_set_tag [] (ascii "DISCTOTAL=") t.disc_total false
        ++ et_ogg_set_tag [] (ascii "DATE=") t.year false
        ++ et_ogg_set_tag [] (ascii "TRACKNUMBER=") t.track false
        ++ et_ogg_set_tag [] (ascii "TRACKTOTAL=") t.track_total false
        ++ et_ogg_set_tag [] (ascii "GENRE=") t.genre S.ogg_split_genre
        ++ et_ogg_set_tag [] (ascii "DESCRIPTION=") t.comment S.ogg_split_comment
        ++ et_ogg_set_tag [] (ascii "COMPOSER=") t.composer S.ogg_split_composer
        ++ et_ogg_set_tag [] (ascii "PERFORMER=") t.orig_artist S.ogg_split_original_artist
        ++ et_ogg_set_tag [] (ascii "COPYRIGHT=") t.copyright false
        ++ et_ogg_set_tag [] (ascii "CONTACT=") t.url false
        ++ et_ogg_set_tag [] (ascii "ENCODED-BY=") t.encoded_by false
        ++ t.picture.filterMap (write_picture E)
        ++ t.other.filterMap id) := by
  simp only [ogg_tag_fill_comments, foldl_write_other, foldl_write_pictures]
  rw [set_tag_append _ (ascii "ENCODED-BY="), set_tag_append _ (ascii "CONTACT="),
    set_tag_append _ (ascii "COPYRIGHT="), set_tag_append _ (ascii "PERFORMER="),
    set_tag_append _ (ascii "COMPOSER="), set_tag_append _ (ascii "DESCRIPTION="),
    set_tag_append _ (ascii "GENRE="), set_tag_append _ (ascii "TRACKTOTAL="),
    set_tag_append _ (ascii "TRACKNUMBER="), set_tag_append _ (ascii "DATE="),
    set_tag_append _ (ascii "DISCTOTAL="), set_tag_append _ (ascii "DISCNUMBER="),
    set_tag_append _ (ascii "ALBUM="), set_tag_append _ (ascii "ALBUMARTIST="),
    set_tag_append _ (ascii "ARTIST="), set_tag_append _ (ascii "TITLE=")]
  simp only [List.append_assoc]

theorem write_file_tag_eq_fill (E : Collab) (S : OggSettings) (t : File_Tag) :
    ogg_tag_write_file_tag E S t = ogg_tag_fill_comments E S [] t := rfl

theorem set_tag_no_split (K : Str) (value : Option Str) :
    et_ogg_set_tag [] K value false = entry_of K value := by
  cases value <;> rfl

/-- C22. The Vorbis writer keeps number and total apart: for every tag and
every setting, the written list holds, between the entries of title, artist,
album artist and album and those of the later fields, the entry `DISCNUMBER=`
with the disc number, `DISCTOTAL=` with the disc total, `DATE=` with the year,
`TRACKNUMBER=` with the track and `TRACKTOTAL=` with the track total, each
only when the field is set and each carrying the field text unchanged. -/
theorem vorbis_encode_number_total_apart (E : Collab) (S : OggSettings) (t : File_Tag) :
    ogg_tag_write_file_tag E S t
      = (et_ogg_set_tag [] (ascii "TITLE=") t.title S.ogg_split_title
          ++ et_ogg_set_tag [] (ascii "ARTIST=") t.artist S.ogg_split_artist
          ++ et_ogg_set_tag [] (ascii "ALBUMARTIST=") t.album_artist S.ogg_split_artist
          ++ et_ogg_set_tag [] (ascii "ALBUM=") t.album S.ogg_split_album)
        ++ (match t.disc_number with
            | some v => [ascii "DISCNUMBER=" ++ v]
            | none => [])
        ++ (match t.disc_total with
            | some v => [ascii "DISCTOTAL=" ++ v]
            | none => [])
        ++ (match t.year with
            | some v => [ascii "DATE=" ++ v]
            | none => [])
        ++ (match t.track with
            | some v => [ascii "TRACKNUMBER=" ++ v]
            | none => [])
        ++ (match t.track_total with
            | some v => [ascii "TRACKTOTAL=" ++ v]
            | none => [])
        ++ (et_ogg_set_tag [] (ascii "GENRE=") t.genre S.ogg_split_genre
          ++ et_ogg_set_tag [] (ascii "DESCRIPTION=") t.comment S.ogg_split_comment
          ++ et_ogg_set_tag [] (ascii "COMPOSER=") t.composer S.ogg_split_composer
          ++ et_ogg_set_tag [] (ascii "PERFORMER=") t.orig_artist S.ogg_split_original_artist
          ++ et_ogg_set_tag [] (ascii "COPYRIGHT=") t.copyright false
          ++ et_ogg_set_tag [] (ascii "CONTACT=") t.url false
          ++ et_ogg_set_tag [] (ascii "ENCODED-BY=") t.encoded_by false
          ++ t.picture.filterMap (write_picture E)
          ++ t.other.filterMap id) := by
  rw [write_file_tag_eq_fill, fill_comments_entries]
  simp only [set_tag_no_split, entry_of, List.nil_append, List.append_assoc]

/-- Witness for C22: the tag with disc `1/2 - 3`, disc total `9`, track `4`
and track total `5 - 6` is written, with every split setting on, as four
entries with these texts. -/
theorem vorbis_encode_number_total_apart_witness :
    ogg_tag_write_file_tag reference_collab settings_split_on
        { et_file_tag_new with disc_number := some (ascii "1/2 - 3"),
                               disc_total := some (ascii "9"),
                               track := some (ascii "4"),
                               track_total := some (ascii "5 - 6") }
      = [ascii "DISCNUMBER=1/2 - 3", ascii "DISCTOTAL=9", ascii "TRACKNUMBER=4",
         ascii "TRACKTOTAL=5 - 6"] :=
  (vorbis_encode_number_total_apart reference_collab settings_split_on
    { et_file_tag_new with disc_number := some (ascii "1/2 - 3"),
                           disc_total := some (ascii "9"),
                           track := some (ascii "4"),
                           track_total := some (ascii "5 - 6") }).trans (by rfl)

/-- C23. Split disabled emits one entry: for every comment list, key and
non-`NULL` value `s`, `et_ogg_set_tag` with `split = FALSE` adds exactly one
comment at the end of the list, the key followed by `s` unchanged, whatever
`s` holds. -/
theorem set_tag_unsplit_single_entry (vc : List Str) (tag_name s : Str) :
    et_ogg_set_tag vc tag_name (some s) false = vc ++ [tag_name ++ s]
      ∧ (et_ogg_set_tag vc tag_name (some s) false).length = vc.length + 1 := by
  constructor
  · rfl
  · simp [et_ogg_set_tag, et_ogg_write_tag]

/-- Witness for C23: the value `a - b` is added to the list `X=y` under
`TITLE=` as the one entry `TITLE=a - b`. -/
theorem set_tag_unsplit_single_entry_witness :
    et_ogg_set_tag [ascii "X=y"] (ascii "TITLE=") (some (ascii "a - b")) false
      = [ascii "X=y", ascii "TITLE=a - b"] :=
  (set_tag_unsplit_single_entry [ascii "X=y"] (ascii "TITLE=") (ascii "a - b")).1.trans (by rfl)

/-- C24. The write re-derives the whole comment list: whatever comments the
opened file holds, the list handed to the commit step is the list built from
the tag and the settings alone, namely the entries of the sixteen fields, of
the pictures and of the extension list; two prior lists give the same result.
The filling calls by themselves only append, so it is the clearing that drops
the prior comments. -/
theorem write_rederives_comment_list (E : Collab) (S : OggSettings) (t : File_Tag)
    (prior1 prior2 : List Str) :
    ogg_tag_write_file_tag_on E S prior1 t = ogg_tag_write_file_tag_on E S prior2 t
      ∧ ogg_tag_write_file_tag_on E S prior1 t = ogg_tag_write_file_tag E S t
      ∧ ogg_tag_write_file_tag_on E S prior1 t
        = et_ogg_set_tag [] (ascii "TITLE=") t.title S.ogg_split_title
          ++ et_ogg_set_tag [] (ascii "ARTIST=") t.artist S.ogg_split_artist
          ++ et_ogg_set_tag [] (ascii "ALBUMARTIST=") t.album_artist S.ogg_split_artist
          ++ et_ogg_set_tag [] (ascii "ALBUM=") t.album S.ogg_split_album
          ++ et_ogg_set_tag [] (ascii "DISCNUMBER=") t.disc_number false
          ++ et_ogg_set_tag [] (ascii "DISCTOTAL=") t.disc_total false
          ++ et_ogg_set_tag [] (ascii "DATE=") t.year false
          ++ et_ogg_set_tag [] (ascii "TRACKNUMBER=") t.track false
          ++ et_ogg_set_tag [] (ascii "TRACKTOTAL=") t.track_total false
          ++ et_ogg_set_tag [] (ascii "GENRE=") t.genre S.ogg_split_genre
          ++ et_ogg_set_tag [] (ascii "DESCRIPTION=") t.comment S.ogg_split_comment
          ++ et_ogg_set_tag [] (ascii "COMPOSER=") t.composer S.ogg_split_composer
          ++ et_ogg_set_tag [] (ascii "PERFORMER=") t.orig_artist S.ogg_split_original_artist
          ++ et_ogg_set_tag [] (ascii "COPYRIGHT=") t.copyright false
          ++ et_ogg_set_tag [] (ascii "CONTACT=") t.url false
          ++ et_ogg_set_tag [] (ascii "ENCODED-BY=") t.encoded_by false
          ++ t.picture.filterMap (write_picture E)
          ++ t.other.filterMap id
      ∧ ∀ vc : List Str, ogg_tag_fill_comments E S vc t = vc ++ ogg_tag_write_file_tag E S t := by
  refine ⟨rfl, rfl, ?_, ?_⟩
  · rw [ogg_tag_write_file_tag_on, vorbis_comment_clear, vorbis_comment_init,
      fill_comments_entries, List.nil_append]
  · intro vc
    rw [write_file_tag_eq_fill, fill_comments_entries, fill_comments_entries E S [],
      List.nil_append]

/-- Witness for C24: on a file that holds `TITLE=old` and `MOOD=x`, the tag
whose only field is the title `new` is written as the single entry
`TITLE=new`. -/
theorem write_rederives_comment_list_witness :
    ogg_tag_write_file_tag_on reference_collab settings_split_off
        [ascii "TITLE=old", ascii "MOOD=x"] { et_file_tag_new with title := some (ascii "new") }
      = [ascii "TITLE=new"] :=
  (write_rederives_comment_list reference_collab settings_split_off
    { et_file_tag_new with title := some (ascii "new") }
    [ascii "TITLE=old", ascii "MOOD=x"] []).2.1.trans (by rfl)


/-! ## The legacy picture loop -/

theorem read_coverart_loop_eq (E : Collab) (vc : List Str) :
    ∀ (fuel n : Nat) (st : Bool × List EtPicture),
      (comment_values vc (ascii "COVERART")).length < fuel + n →
      read_coverart_loop E vc fuel n st
        = (st.1 && decide ((comment_values vc (ascii "COVERART")).length ≤ n),
           st.2 ++ ((comment_values vc (ascii "COVERART")).drop n).mapIdx
             (fun i v => coverart_picture E (comment_values vc (ascii "COVERARTTYPE"))
               (comment_values vc (ascii "COVERARTDESCRIPTION")) (n + i) v)) := by
  intro fuel
  induction fuel with
  | zero =>
    intro n st hf
    have hle : (comment_values vc (ascii "COVERART")).length ≤ n := by omega
    simp [read_coverart_loop, List.drop_eq_nil_of_le hle, hle]
  | succ fuel ih =>
    intro n st hf
    cases hq : (comment_values vc (ascii "COVERART"))[n]? with
    | none =>
      have hle := List.getElem?_eq_none_iff.1 hq
      simp [read_coverart_loop, query_eq_values, hq, List.drop_eq_nil_of_le hle, hle]
    | some v =>
      have hlt := (List.getElem?_eq_some_iff.1 hq).1
      have hv : (comment_values vc (ascii "COVERART"))[n] = v := by
        rw [List.getElem?_eq_getElem hlt] at hq
        exact Option.some.inj hq
      simp only [read_coverart_loop, query_eq_values, hq]
      rw [ih (n + 1) _ (by omega), List.drop_eq_getElem_cons hlt, hv, List.mapIdx_cons]
      have hnot : ¬ (comment_values vc (ascii "COVERART")).length ≤ n := by omega
      have hfun : (fun i v => coverart_picture E (comment_values vc (ascii "COVERARTTYPE"))
            (comment_values vc (ascii "COVERARTDESCRIPTION")) (n + 1 + i) v)
          = (fun i v => coverart_picture E (comment_values vc (ascii "COVERARTTYPE"))
            (comment_values vc (ascii "COVERARTDESCRIPTION")) (n + (i + 1)) v) := by
        funext i v
        rw [Nat.add_assoc, Nat.add_comm 1 i]
      simp only [hnot, decide_False, Bool.and_false, Bool.false_and, List.append_assoc,
        List.singleton_append, hfun, Nat.add_zero]
      rfl

/-- The pictures of a comment list: one for each `COVERART` value, then one for
each structured block that is decoded; the flag is cleared by any `COVERART`
value and by any block that is dropped. -/
theorem read_pictures_general (E : Collab) (vc : List Str) (saved : Bool) :
    read_pictures E vc saved
      = (saved && decide ((comment_values vc (ascii "COVERART")).length ≤ 0)
          && (comment_values vc (ascii "METADATA_BLOCK_PICTURE")).all
            (fun v => (block_picture E v).isSome),
         (comment_values vc (ascii "COVERART")).mapIdx
             (coverart_picture E (comment_values vc (ascii "COVERARTTYPE"))
               (comment_values vc (ascii "COVERARTDESCRIPTION")))
           ++ (comment_values vc (ascii "METADATA_BLOCK_PICTURE")).filterMap
             (block_picture E)) := by
  have hl := comment_values_length_le vc (ascii "COVERART")
  rw [read_pictures_eq, read_coverart_loop_eq E vc _ 0 _ (by omega), foldl_block_step]
  simp only [List.drop_zero, List.nil_append, Nat.zero_add]


/-- C25. Legacy `COVERART` decode: for every comment list, the `COVERART`
occurrence of index `n` gives the picture of index `n` of the decoded tag; its
payload is the base64 decoding of the value, its type is the `atoi` value of
the `COVERARTTYPE` occurrence of index `n` when there is one and the front
cover otherwise, its description is the `COVERARTDESCRIPTION` occurrence of
index `n` when there is one and empty otherwise, its width and height are 0.
The pictures of the structured blocks follow those of all the `COVERART`
occurrences, and the tag is marked as not saved. -/
theorem legacy_coverart_decode (E : Collab) (vc : List Str) (FileTag : File_Tag) (n : Nat)
    (value : Str) (h : (occurrences vc (ascii "COVERART"))[n]? = some value) :
    (et_add_file_tags_from_vorbis_comments E vc FileTag).picture[n]?
        = some { type := match (occurrences vc (ascii "COVERARTTYPE"))[n]? with
                   | some s => picture_type_of_int (atoi s)
                   | none => ET_PICTURE_TYPE_FRONT_COVER
                 description := some (match (occurrences vc (ascii "COVERARTDESCRIPTION"))[n]? with
                   | some s => s
                   | none => [])
                 width := 0
                 height := 0
                 bytes := E.g_base64_decode value }
      ∧ (et_add_file_tags_from_vorbis_comments E vc FileTag).picture
        = (occurrences vc (ascii "COVERART")).mapIdx
              (coverart_picture E (occurrences vc (ascii "COVERARTTYPE"))
                (occurrences vc (ascii "COVERARTDESCRIPTION")))
            ++ (occurrences vc (ascii "METADATA_BLOCK_PICTURE")).filterMap (block_picture E)
      ∧ (et_add_file_tags_from_vorbis_comments E vc FileTag).saved = false := by
  have hC := comment_values_eq_occurrences vc (ascii "COVERART") (by decide) (by decide)
  have hT := comment_values_eq_occurrences vc (ascii "COVERARTTYPE") (by decide) (by decide)
  have hD := comment_values_eq_occurrences vc (ascii "COVERARTDESCRIPTION") (by decide)
    (by decide)
  have hB := comment_values_eq_occurrences vc (ascii "METADATA_BLOCK_PICTURE") (by decide)
    (by decide)
  have hlt := (List.getElem?_eq_some_iff.1 h).1
  have hpos : ¬ (occurrences vc (ascii "COVERART")).length ≤ 0 := by omega
  have hlist : (et_add_file_tags_from_vorbis_comments E vc FileTag).picture
      = (occurrences vc (ascii "COVERART")).mapIdx
            (coverart_picture E (occurrences vc (ascii "COVERARTTYPE"))
              (occurrences vc (ascii "COVERARTDESCRIPTION")))
          ++ (occurrences vc (ascii "METADATA_BLOCK_PICTURE")).filterMap (block_picture E) := by
    rw [decode_picture, read_pictures_general, hC, hT, hD, hB]
    rw [if_neg]
    intro hnil
    have := congrArg List.length hnil
    simp only [List.length_append, List.length_mapIdx, List.length_nil] at this
    omega
  refine ⟨?_, hlist, ?_⟩
  · rw [hlist, List.getElem?_append_left (by rw [List.length_mapIdx]; exact hlt),
      List.getElem?_mapIdx, h]
    rfl
  · rw [decode_saved, read_pictures_general, hC]
    simp [hpos]

/-- Witness for C25: of two `COVERART` comments with one `COVERARTTYPE` and one
`COVERARTDESCRIPTION`, the second is decoded to a picture of the default type
(front cover) with the empty description and the three zero bytes of `AAAA`
as payload. -/
theorem legacy_coverart_decode_witness :
    (et_add_file_tags_from_vorbis_comments reference_collab
        [ascii "COVERART=AQID", ascii "COVERARTTYPE=4", ascii "COVERART=AAAA",
         ascii "COVERARTDESCRIPTION=back"] tag_saved).picture[1]?
      = some { type := 3, description := some [], width := 0, height := 0, bytes := [0, 0, 0] } :=
  (legacy_coverart_decode reference_collab
    [ascii "COVERART=AQID", ascii "COVERARTTYPE=4", ascii "COVERART=AAAA",
     ascii "COVERARTDESCRIPTION=back"] tag_saved 1 (ascii "AAAA") (by rfl)).1.trans (by rfl)


/-! ## The MP4 property map -/

theorem contains_iff_mem_keys (m : PropertyMap) (key : Str) :
    PropertyMap_contains m key = true ↔ String_upper key ∈ PropertyMap_keys m := by
  simp only [PropertyMap_contains, PropertyMap_keys, List.any_eq_true, decide_eq_true_eq,
    List.mem_map]

theorem keys_map_values (m : PropertyMap) (K : Str) (values : List Str) :
    PropertyMap_keys (m.map fun e => if e.1 = K then (e.1, e.2 ++ values) else e)
      = PropertyMap_keys m := by
  simp only [PropertyMap_keys, List.map_map]
  apply List.map_congr_left
  intro e _
  simp only [Function.comp]
  split <;> rfl

theorem mem_keys_insert (m : PropertyMap) (k : Str) (values : List Str) (key : Str) :
    key ∈ PropertyMap_keys (PropertyMap_insert m k values)
      ↔ key ∈ PropertyMap_keys m ∨ key = String_upper k := by
  unfold PropertyMap_insert
  by_cases hc : PropertyMap_contains m k = true
  · rw [if_pos hc, keys_map_values]
    have hmem := (contains_iff_mem_keys m k).1 hc
    constructor
    · exact Or.inl
    · rintro (h | h)
      · exact h
      · rw [h]; exact hmem
  · rw [if_neg hc]
    simp [PropertyMap_keys]

theorem non_empty_iff (value : Option Str) :
    non_empty value = true ↔ ∃ v, value = some v ∧ v ≠ [] := by
  cases value with
  | none => simp [non_empty]
  | some v => simp [non_empty]

theorem mem_keys_insert_field (m : PropertyMap) (k : Str) (value : Option Str) (key : Str) :
    key ∈ PropertyMap_keys (mp4_insert_field m k value)
      ↔ key ∈ PropertyMap_keys m ∨ (key = String_upper k ∧ non_empty value = true) := by
  cases value with
  | none => simp [mp4_insert_field, non_empty]
  | some v =>
    by_cases hv : v = []
    · simp [mp4_insert_field, non_empty, hv]
    · simp [mp4_insert_field, non_empty, hv, mem_keys_insert]

theorem mem_keys_insert_pair (m : PropertyMap) (k : Str) (number total : Option Str)
    (key : Str) :
    key ∈ PropertyMap_keys (mp4_insert_pair m k number total)
      ↔ key ∈ PropertyMap_keys m ∨ (key = String_upper k ∧ non_empty number = true) := by
  cases number with
  | none => simp [mp4_insert_pair, non_empty]
  | some n =>
    by_cases hn : n = []
    · simp [mp4_insert_pair, non_empty, hn]
    · cases total with
      | none => simp [mp4_insert_pair, non_empty, hn, mem_keys_insert]
      | some t =>
        by_cases ht : t = []
        · simp [mp4_insert_pair, non_empty, hn, ht, mem_keys_insert]
        · simp [mp4_insert_pair, non_empty, hn, ht, mem_keys_insert]

/-- C26. The MP4 writer assigns only non-empty fields: for every tag, a key is
in the property map built by `mp4tag_write_file_tag` if and only if it is one
of `TITLE`, `ARTIST`, `ALBUM`, `DISCNUMBER`, `DATE`, `TRACKNUMBER`, `GENRE`,
`COMMENT`, `COMPOSER`, `COPYRIGHT`, `ENCODEDBY` and the field it stands for
(title, artist, album, disc number, year, track, genre, comment, composer,
copyright, encoded-by) passes the guard, that is, is not `NULL` and not
empty. -/
theorem mp4_write_nonempty_fields (E : Collab) (extra_items : ItemListMap) (t : File_Tag)
    (key : Str) :
    (key ∈ PropertyMap_keys (mp4tag_write_file_tag E extra_items t).1
      ↔ (key = ascii "TITLE" ∧ non_empty t.title = true)
        ∨ (key = ascii "ARTIST" ∧ non_empty t.artist = true)
        ∨ (key = ascii "ALBUM" ∧ non_empty t.album = true)
        ∨ (key = ascii "DISCNUMBER" ∧ non_empty t.disc_number = true)
        ∨ (key = ascii "DATE" ∧ non_empty t.year = true)
        ∨ (key = ascii "TRACKNUMBER" ∧ non_empty t.track = true)
        ∨ (key = ascii "GENRE" ∧ non_empty t.genre = true)
        ∨ (key = ascii "COMMENT" ∧ non_empty t.comment = true)
        ∨ (key = ascii "COMPOSER" ∧ non_empty t.composer = true)
        ∨ (key = ascii "COPYRIGHT" ∧ non_empty t.copyright = true)
        ∨ (key = ascii "ENCODEDBY" ∧ non_empty t.encoded_by = true))
      ∧ (PropertyMap_contains (mp4tag_write_file_tag E extra_items t).1 key = true
          ↔ String_upper key ∈ PropertyMap_keys (mp4tag_write_file_tag E extra_items t).1)
      ∧ (∀ value : Option Str, non_empty value = true ↔ ∃ v, value = some v ∧ v ≠ []) := by
  refine ⟨?_, contains_iff_mem_keys _ key, non_empty_iff⟩
  simp only [mp4tag_write_file_tag, mem_keys_insert_field, mem_keys_insert_pair,
    (by decide : String_upper (ascii "TITLE") = ascii "TITLE"),
    (by decide : String_upper (ascii "ARTIST") = ascii "ARTIST"),
    (by decide : String_upper (ascii "ALBUM") = ascii "ALBUM"),
    (by decide : String_upper (ascii "DISCNUMBER") = ascii "DISCNUMBER"),
    (by decide : String_upper (ascii "DATE") = ascii "DATE"),
    (by decide : String_upper (ascii "TRACKNUMBER") = ascii "TRACKNUMBER"),
    (by decide : String_upper (ascii "GENRE") = ascii "GENRE"),
    (by decide : String_upper (ascii "COMMENT") = ascii "COMMENT"),
    (by decide : String_upper (ascii "COMPOSER") = ascii "COMPOSER"),
    (by decide : String_upper (ascii "COPYRIGHT") = ascii "COPYRIGHT"),
    (by decide : String_upper (ascii "ENCODEDBY") = ascii "ENCODEDBY")]
  simp only [PropertyMap_keys, List.map_nil, List.not_mem_nil, false_or, or_assoc]

/-- Witness for C26: the tag with the title `a`, an empty artist, the disc
total `2` and no other field gives the property map with the single key
`TITLE`. -/
theorem mp4_write_nonempty_fields_witness :
    PropertyMap_keys (mp4tag_write_file_tag reference_collab []
        { et_file_tag_new with title := some (ascii "a"), artist := some [],
                               disc_total := some (ascii "2") }).1 = [ascii "TITLE"]
      ∧ ¬ (ascii "ARTIST" ∈ PropertyMap_keys (mp4tag_write_file_tag reference_collab []
        { et_file_tag_new with title := some (ascii "a"), artist := some [],
                               disc_total := some (ascii "2") }).1) :=
  ⟨by rfl, fun h => by
    have h2 := (mp4_write_nonempty_fields reference_collab []
      { et_file_tag_new with title := some (ascii "a"), artist := some [],
                             disc_total := some (ascii "2") } (ascii "ARTIST")).1.1 h
    revert h2
    decide⟩


theorem find_map_values_other (K K2 : Str) (values : List Str) (hne : K2 ≠ K) :
    ∀ m : PropertyMap,
      ((m.map fun e => if e.1 = K then (e.1, e.2 ++ values) else e).find?
          fun e => e.1 = K2).map (·.2)
        = (m.find? fun e => e.1 = K2).map (·.2) := by
  intro m
  induction m with
  | nil => rfl
  | cons e rest ih =>
    rw [List.map_cons]
    by_cases h2 : e.1 = K2
    · have h1 : ¬ e.1 = K := fun h => hne (h2.symm.trans h)
      rw [if_neg h1, List.find?_cons_of_pos _ (by simpa using h2),
        List.find?_cons_of_pos _ (by simpa using h2)]
    · have hf1 : (if e.1 = K then (e.1, e.2 ++ values) else e).1 = e.1 := by split <;> rfl
      rw [List.find?_cons_of_neg _ (by simpa [hf1] using h2),
        List.find?_cons_of_neg _ (by simpa using h2)]
      exact ih

/-- Inserting under one key leaves the values of every other key. -/
theorem find_insert_other (m : PropertyMap) (k key : Str) (values : List Str)
    (hne : String_upper key ≠ String_upper k) :
    PropertyMap_find (PropertyMap_insert m k values) key = PropertyMap_find m key := by
  unfold PropertyMap_insert PropertyMap_find
  split
  · exact find_map_values_other _ _ values hne m
  · rw [List.find?_append]
    have : ([(String_upper k, values)].find? fun e => decide (e.1 = String_upper key)) = none := by
      simp [List.find?_cons, Ne.symm hne]
    rw [this, Option.or_none]

/-- Inserting under a key that is not in the map stores the values. -/
theorem find_insert_new (m : PropertyMap) (k : Str) (values : List Str)
    (h : PropertyMap_find m k = none) :
    PropertyMap_find (PropertyMap_insert m k values) k = some values := by
  have hfind : (m.find? fun e => decide (e.1 = String_upper k)) = none := by
    simpa [PropertyMap_find] using h
  have hc : PropertyMap_contains m k = false := by
    cases hcc : PropertyMap_contains m k with
    | false => rfl
    | true =>
      simp only [PropertyMap_contains, List.any_eq_true, decide_eq_true_eq] at hcc
      obtain ⟨e, he, hk⟩ := hcc
      have := List.find?_eq_none.1 hfind e he
      simp [hk] at this
  unfold PropertyMap_insert PropertyMap_find
  rw [hc]
  simp [List.find?_append, hfind, List.find?_cons]

theorem find_insert_field_other (m : PropertyMap) (k key : Str) (value : Option Str)
    (hne : String_upper key ≠ String_upper k) :
    PropertyMap_find (mp4_insert_field m k value) key = PropertyMap_find m key := by
  unfold mp4_insert_field
  split
  · split
    · exact find_insert_other m k key _ hne
    · rfl
  · rfl

theorem find_insert_pair_other (m : PropertyMap) (k key : Str) (number total : Option Str)
    (hne : String_upper key ≠ String_upper k) :
    PropertyMap_find (mp4_insert_pair m k number total) key = PropertyMap_find m key := by
  unfold mp4_insert_pair
  split
  · split
    · split
      · split
        · exact find_insert_other m k key _ hne
        · exact find_insert_other m k key _ hne
      · exact find_insert_other m k key _ hne
    · rfl
  · rfl

/-- The value stored by the pair block under a key that the map does not hold
yet. -/
theorem find_insert_pair_new (m : PropertyMap) (k : Str) (number total : Option Str)
    (h : PropertyMap_find m k = none) :
    PropertyMap_find (mp4_insert_pair m k number total) k
      = match number with
        | some n =>
          if n ≠ [] then
            match total with
            | some t => if t ≠ [] then some [n ++ ascii "/" ++ t] else some [n]
            | none => some [n]
          else none
        | none => none := by
  unfold mp4_insert_pair
  cases number with
  | none => exact h
  | some n =>
    by_cases hn : n = []
    · simp only [hn, ne_eq, not_true_eq_false, if_false]; exact h
    · simp only [hn, ne_eq, not_false_eq_true, if_true]
      cases total with
      | none => exact find_insert_new m k _ h
      | some t =>
        by_cases ht : t = []
        · simp only [ht, ne_eq, not_true_eq_false, if_false]; exact find_insert_new m k _ h
        · simp only [ht, ne_eq, not_false_eq_true, if_true]; exact find_insert_new m k _ h

/-- The `DISCNUMBER` and `TRACKNUMBER` values of the property map built by the
writer. -/
theorem mp4_write_pairs (E : Collab) (extra_items : ItemListMap) (t : File_Tag) :
    PropertyMap_find (mp4tag_write_file_tag E extra_items t).1 (ascii "DISCNUMBER")
        = (match t.disc_number with
          | some n =>
            if n ≠ [] then
              match t.disc_total with
              | some t => if t ≠ [] then some [n ++ ascii "/" ++ t] else some [n]
              | none => some [n]
            else none
          | none => none)
      ∧ PropertyMap_find (mp4tag_write_file_tag E extra_items t).1 (ascii "TRACKNUMBER")
        = (match t.track with
          | some n =>
            if n ≠ [] then
              match t.track_total with
              | some t => if t ≠ [] then some [n ++ ascii "/" ++ t] else some [n]
              | none => some [n]
            else none
          | none => none) := by
  constructor
  · simp only [mp4tag_write_file_tag]
    rw [find_insert_field_other _ (ascii "ENCODEDBY") _ _ (by decide),
      find_insert_field_other _ (ascii "COPYRIGHT") _ _ (by decide),
      find_insert_field_other _ (ascii "COMPOSER") _ _ (by decide),
      find_insert_field_other _ (ascii "COMMENT") _ _ (by decide),
      find_insert_field_other _ (ascii "GENRE") _ _ (by decide),
      find_insert_pair_other _ (ascii "TRACKNUMBER") _ _ _ (by decide),
      find_insert_field_other _ (ascii "DATE") _ _ (by decide)]
    apply find_insert_pair_new
    rw [find_insert_field_other _ (ascii "ALBUM") _ _ (by decide),
      find_insert_field_other _ (ascii "ARTIST") _ _ (by decide),
      find_insert_field_other _ (ascii "TITLE") _ _ (by decide)]
    rfl
  · simp only [mp4tag_write_file_tag]
    rw [find_insert_field_other _ (ascii "ENCODEDBY") _ _ (by decide),
      find_insert_field_other _ (ascii "COPYRIGHT") _ _ (by decide),
      find_insert_field_other _ (ascii "COMPOSER") _ _ (by decide),
      find_insert_field_other _ (ascii "COMMENT") _ _ (by decide),
      find_insert_field_other _ (ascii "GENRE") _ _ (by decide)]
    apply find_insert_pair_new
    rw [find_insert_field_other _ (ascii "DATE") _ _ (by decide),
      find_insert_pair_other _ (ascii "DISCNUMBER") _ _ _ (by decide),
      find_insert_field_other _ (ascii "ALBUM") _ _ (by decide),
      find_insert_field_other _ (ascii "ARTIST") _ _ (by decide),
      find_insert_field_other _ (ascii "TITLE") _ _ (by decide)]
    rfl


theorem pair_value_cases (number total : Option Str) :
    (∀ n, number = some n → n ≠ [] →
        (∀ tot, total = some tot → tot ≠ [] →
          (match number with
            | some n =>
              if n ≠ [] then
                match total with
                | some t => if t ≠ [] then some [n ++ ascii "/" ++ t] else some [n]
                | none => some [n]
              else none
            | none => none) = some [n ++ ascii "/" ++ tot])
        ∧ (non_empty total = false →
          (match number with
            | some n =>
              if n ≠ [] then
                match total with
                | some t => if t ≠ [] then some [n ++ ascii "/" ++ t] else some [n]
                | none => some [n]
              else none
            | none => none) = some [n]))
      ∧ (non_empty number = false →
          (match number with
            | some n =>
              if n ≠ [] then
                match total with
                | some t => if t ≠ [] then some [n ++ ascii "/" ++ t] else some [n]
                | none => some [n]
              else none
            | none => none) = (none : Option (List Str))) := by
  constructor
  · intro n hn hne
    subst hn
    constructor
    · intro tot ht htne
      subst ht
      simp [hne, htne]
    · intro ht
      cases total with
      | none => simp [hne]
      | some tot =>
        have : tot = [] := by simpa [non_empty] using ht
        simp [hne, this]
  · intro hn
    cases number with
    | none => rfl
    | some n =>
      have : n = [] := by simpa [non_empty] using hn
      simp [this]

/-- C27. MP4 numeric pair join: for every tag with a non-empty disc number the
value stored under `DISCNUMBER` is the disc number, `/` and the disc total when
the disc total is not empty, and the disc number alone otherwise; when the disc
number is absent or empty nothing is stored under `DISCNUMBER`, whatever the
total. The same holds for `TRACKNUMBER` with the track and the track total. -/
theorem mp4_numeric_pair_join (E : Collab) (extra_items : ItemListMap) (t : File_Tag) :
    ((∀ n, t.disc_number = some n → n ≠ [] →
        (∀ tot, t.disc_total = some tot → tot ≠ [] →
          PropertyMap_find (mp4tag_write_file_tag E extra_items t).1 (ascii "DISCNUMBER")
            = some [n ++ ascii "/" ++ tot])
        ∧ (non_empty t.disc_total = false →
          PropertyMap_find (mp4tag_write_file_tag E extra_items t).1 (ascii "DISCNUMBER")
            = some [n]))
      ∧ (non_empty t.disc_number = false →
          PropertyMap_find (mp4tag_write_file_tag E extra_items t).1 (ascii "DISCNUMBER")
            = none))
    ∧ ((∀ n, t.track = some n → n ≠ [] →
        (∀ tot, t.track_total = some tot → tot ≠ [] →
          PropertyMap_find (mp4tag_write_file_tag E extra_items t).1 (ascii "TRACKNUMBER")
            = some [n ++ ascii "/" ++ tot])
        ∧ (non_empty t.track_total = false →
          PropertyMap_find (mp4tag_write_file_tag E extra_items t).1 (ascii "TRACKNUMBER")
            = some [n]))
      ∧ (non_empty t.track = false →
          PropertyMap_find (mp4tag_write_file_tag E extra_items t).1 (ascii "TRACKNUMBER")
            = none)) := by
  rw [(mp4_write_pairs E extra_items t).1, (mp4_write_pairs E extra_items t).2]
  exact ⟨pair_value_cases t.disc_number t.disc_total, pair_value_cases t.track t.track_total⟩

/-- Witness for C27: the disc `1` of `2` is stored as `1/2`; the track total
`9` without a track is not stored. -/
theorem mp4_numeric_pair_join_witness :
    PropertyMap_find (mp4tag_write_file_tag reference_collab []
        { et_file_tag_new with disc_number := some (ascii "1"), disc_total := some (ascii "2"),
                               track_total := some (ascii "9") }).1 (ascii "DISCNUMBER")
        = some [ascii "1/2"]
      ∧ PropertyMap_find (mp4tag_write_file_tag reference_collab []
        { et_file_tag_new with disc_number := some (ascii "1"), disc_total := some (ascii "2"),
                               track_total := some (ascii "9") }).1 (ascii "TRACKNUMBER")
        = none :=
  ⟨(((mp4_numeric_pair_join reference_collab []
      { et_file_tag_new with disc_number := some (ascii "1"), disc_total := some (ascii "2"),
                             track_total := some (ascii "9") }).1.1
      (ascii "1") (by rfl) (by decide)).1 (ascii "2") (by rfl) (by decide)).trans (by rfl),
   (mp4_numeric_pair_join reference_collab []
      { et_file_tag_new with disc_number := some (ascii "1"), disc_total := some (ascii "2"),
                             track_total := some (ascii "9") }).2.2 (by rfl)⟩

/-! ## The MP4 item map -/

theorem item_find_insert (m : ItemListMap) (key : Str) (value : MP4_Item) :
    ItemListMap_find (ItemListMap_insert m key value) key = some value := by
  simp [ItemListMap_find, ItemListMap_insert, List.find?_cons]

theorem item_find_erase (m : ItemListMap) (key : Str) :
    ItemListMap_find (ItemListMap_erase m key) key = none := by
  simp only [ItemListMap_find, ItemListMap_erase, Option.map_eq_none', List.find?_eq_none]
  intro e he
  have := (List.mem_filter.1 he).2
  simpa using this

/-- C29. MP4 persists exactly one cover: for every tag whose picture sequence
starts with a picture, whatever follows it and whatever the item map held, the
`covr` item after `mp4tag_write_file_tag` is a cover-art list of exactly one
cover, whose data is the payload of the first picture; for a tag without
pictures the `covr` item is erased. -/
theorem mp4_write_single_cover (E : Collab) (extra_items : ItemListMap) (t : File_Tag) :
    (∀ (picture : EtPicture) (rest : List EtPicture), t.picture = picture :: rest →
        ∃ item, ItemListMap_find (mp4tag_write_file_tag E extra_items t).2 (ascii "covr")
            = some item
          ∧ item.toCoverArtList
            = [⟨cover_format (E.Picture_Format_From_Data picture.bytes), picture.bytes⟩]
          ∧ item.toCoverArtList.length = 1
          ∧ item.toCoverArtList.map (·.data) = [picture.bytes])
      ∧ (t.picture = [] →
          ItemListMap_find (mp4tag_write_file_tag E extra_items t).2 (ascii "covr") = none) := by
  constructor
  · intro picture rest hp
    refine ⟨⟨[], [⟨cover_format (E.Picture_Format_From_Data picture.bytes), picture.bytes⟩]⟩,
      ?_, rfl, rfl, rfl⟩
    simp only [mp4tag_write_file_tag, hp]
    exact item_find_insert _ _ _
  · intro hp
    simp only [mp4tag_write_file_tag, hp]
    exact item_find_erase _ _

/-- Witness for C29: of the two pictures with payloads `1, 2` and `3`, written
over an item map that holds a `covr` item with another cover, only the first
is stored. -/
theorem mp4_write_single_cover_witness :
    (ItemListMap_find (mp4tag_write_file_tag reference_collab
        [(ascii "covr", ⟨[], [⟨.PNG, [9]⟩, ⟨.PNG, [8]⟩]⟩)]
        { et_file_tag_new with picture := [et_picture_new 3 [] 0 0 [1, 2],
                                           et_picture_new 4 [] 0 0 [3]] }).2
        (ascii "covr")).map (fun item => item.toCoverArtList.map (·.data))
      = some [[1, 2]] := by
  obtain ⟨item, h1, _, _, h4⟩ := (mp4_write_single_cover reference_collab
    [(ascii "covr", ⟨[], [⟨.PNG, [9]⟩, ⟨.PNG, [8]⟩]⟩)]
    { et_file_tag_new with picture := [et_picture_new 3 [] 0 0 [1, 2],
                                       et_picture_new 4 [] 0 0 [3]] }).1
    (et_picture_new 3 [] 0 0 [1, 2]) [et_picture_new 4 [] 0 0 [3]] rfl
  rw [h1, Option.map_some', h4]
  rfl


/-! ## Reading MP4 number pairs -/

theorem strstr_slash : ∀ s : Str, strstr s (ascii "/") = g_utf8_strchr s 47 := by
  intro s
  induction s with
  | nil => rfl
  | cons b rest ih =>
    have hlit : ascii "/" = [47] := rfl
    rw [hlit] at ih ⊢
    simp only [strstr, g_utf8_strchr, starts_with, ih]
    by_cases hb : b = 47
    · simp [hb]
    · have hb2 : ¬ 47 = b := fun h => hb h.symm
      simp [hb, hb2]

theorem find_some_of_mem_fronts (m : PropertyMap) (key : Str) (l : List Str)
    (h : PropertyMap_find m key = some l) :
    PropertyMap_contains m key = true ∧ ∃ e ∈ m, e.2 = l := by
  simp only [PropertyMap_find, Option.map_eq_some'] at h
  obtain ⟨e, he, hl⟩ := h
  have hmem := List.mem_of_find?_eq_some he
  have hp := List.find?_some he
  refine ⟨?_, e, hmem, hl⟩
  simp only [PropertyMap_contains, List.any_eq_true]
  exact ⟨e, hmem, hp⟩

theorem contains_find (m : PropertyMap) (key : Str) (h : PropertyMap_contains m key = true) :
    ∃ l, PropertyMap_find m key = some l ∧ ∃ e ∈ m, e.2 = l := by
  simp only [PropertyMap_contains, List.any_eq_true] at h
  obtain ⟨e, he, hp⟩ := h
  cases hf : m.find? (fun e => decide (e.1 = String_upper key)) with
  | none => exact absurd hp (by simpa using List.find?_eq_none.1 hf e he)
  | some e2 =>
    exact ⟨e2.2, by simp [PropertyMap_find, hf], e2, List.mem_of_find?_eq_some hf, rfl⟩

/-- The pair block on a property whose first string is `v`. -/
theorem mp4_read_pair_front (number_to_string : Int → Str) (String_toInt : Str → Int)
    (extra_tag : PropertyMap) (key v : Str) (rest : List Str) (number total : Option Str)
    (h : PropertyMap_find extra_tag key = some (v :: rest)) :
    mp4_read_pair number_to_string String_toInt extra_tag key number total
      = .ok (some (number_to_string (String_toInt v)),
          match g_utf8_strchr v 47 with
          | some k => some (number_to_string (String_toInt (v.drop (k + 1))))
          | none => total) := by
  have hc := (find_some_of_mem_fronts extra_tag key _ h).1
  simp only [mp4_read_pair, hc, if_true, h, Option.getD_some, List_front, strstr_slash]

theorem mp4_read_pair_ok (number_to_string : Int → Str) (String_toInt : Str → Int)
    (extra_tag : PropertyMap) (key : Str) (number total : Option Str)
    (hfront : extra_tag.all (fun e => e.2 ≠ []) = true) :
    ∃ r, mp4_read_pair number_to_string String_toInt extra_tag key number total = .ok r := by
  by_cases hc : PropertyMap_contains extra_tag key = true
  · obtain ⟨l, hl, e, he, hel⟩ := contains_find extra_tag key hc
    have hne : l ≠ [] := by
      have := List.all_eq_true.1 hfront e he
      rw [hel] at this
      simpa using this
    cases l with
    | nil => exact absurd rfl hne
    | cons v rest => exact ⟨_, mp4_read_pair_front _ _ _ _ v rest _ _ hl⟩
  · exact ⟨_, by simp only [mp4_read_pair, hc]; rfl⟩

theorem mp4_read_property_ok (extra_tag : PropertyMap) (key : Str) (field : Option Str)
    (hfront : extra_tag.all (fun e => e.2 ≠ []) = true) :
    ∃ r, mp4_read_property extra_tag key field = .ok r := by
  by_cases hc : PropertyMap_contains extra_tag key = true
  · obtain ⟨l, hl, e, he, hel⟩ := contains_find extra_tag key hc
    have hne : l ≠ [] := by
      have := List.all_eq_true.1 hfront e he
      rw [hel] at this
      simpa using this
    cases l with
    | nil => exact absurd rfl hne
    | cons v rest => exact ⟨some v, by simp only [mp4_read_property, hc, if_true, hl,
        Option.getD_some, List_front]⟩
  · exact ⟨_, by simp only [mp4_read_property, hc]; rfl⟩

theorem mp4_read_album_artist_ok (extra_items : ItemListMap) (field : Option Str)
    (hfront : extra_items.all (fun e => e.1 = ascii "aART" → e.2.toStringList ≠ []) = true) :
    ∃ r, mp4_read_album_artist extra_items field = .ok r := by
  unfold mp4_read_album_artist
  cases hf : ItemListMap_find extra_items (ascii "aART") with
  | none => exact ⟨_, rfl⟩
  | some item =>
    simp only [ItemListMap_find, Option.map_eq_some'] at hf
    obtain ⟨e, he, hitem⟩ := hf
    have hmem := List.mem_of_find?_eq_some he
    have hp : e.1 = ascii "aART" := by simpa using List.find?_some he
    have hne : item.toStringList ≠ [] := by
      have := List.all_eq_true.1 hfront e hmem
      rw [← hitem]
      simpa [hp] using this
    cases hl : item.toStringList with
    | nil => exact absurd hl hne
    | cons v rest => exact ⟨some v, by simp only [List_front, hl]⟩

theorem mp4_read_picture_ok (extra_items : ItemListMap)
    (hfront : extra_items.all (fun e => e.1 = ascii "covr" → e.2.toCoverArtList ≠ []) = true) :
    ∃ r, mp4_read_picture extra_items = .ok r := by
  unfold mp4_read_picture
  cases hf : ItemListMap_find extra_items (ascii "covr") with
  | none => exact ⟨_, rfl⟩
  | some item =>
    simp only [ItemListMap_find, Option.map_eq_some'] at hf
    obtain ⟨e, he, hitem⟩ := hf
    have hmem := List.mem_of_find?_eq_some he
    have hp : e.1 = ascii "covr" := by simpa using List.find?_some he
    have hne : item.toCoverArtList ≠ [] := by
      have := List.all_eq_true.1 hfront e hmem
      rw [← hitem]
      simpa [hp] using this
    cases hl : item.toCoverArtList with
    | nil => exact absurd hl hne
    | cons v rest =>
      exact ⟨[et_picture_new ET_PICTURE_TYPE_FRONT_COVER [] 0 0 v.data],
        by simp only [List_front, hl]⟩

/-- On a tag that meets the precondition of `front ()` the MP4 reader returns a
tag, whose number fields are those of the two pair blocks. -/
theorem mp4_read_numbers (E : Collab) (String_toInt : Str → Int) (tag : MP4_Tag)
    (FileTag : File_Tag) (hvalid : mp4_fronts_exist tag = true) :
    ∃ t disc track, mp4tag_read_file_tag E String_toInt tag FileTag = .ok t
      ∧ mp4_read_pair E.et_disc_number_to_string String_toInt tag.properties
          (ascii "DISCNUMBER") FileTag.disc_number FileTag.disc_total = .ok disc
      ∧ mp4_read_pair E.et_track_number_to_string String_toInt tag.properties
          (ascii "TRACKNUMBER") FileTag.track FileTag.track_total = .ok track
      ∧ t.disc_number = disc.1 ∧ t.disc_total = disc.2
      ∧ t.track = track.1 ∧ t.track_total = track.2 := by
  simp only [mp4_fronts_exist, Bool.and_eq_true] at hvalid
  obtain ⟨⟨hp, ha⟩, hc⟩ := hvalid
  obtain ⟨disc, hdisc⟩ := mp4_read_pair_ok E.et_disc_number_to_string String_toInt
    tag.properties (ascii "DISCNUMBER") FileTag.disc_number FileTag.disc_total hp
  obtain ⟨track, htrack⟩ := mp4_read_pair_ok E.et_track_number_to_string String_toInt
    tag.properties (ascii "TRACKNUMBER") FileTag.track FileTag.track_total hp
  obtain ⟨c1, h1⟩ := mp4_read_property_ok tag.properties (ascii "COMPOSER") FileTag.composer hp
  obtain ⟨c2, h2⟩ := mp4_read_property_ok tag.properties (ascii "COPYRIGHT") FileTag.copyright hp
  obtain ⟨c3, h3⟩ := mp4_read_property_ok tag.properties (ascii "ENCODEDBY") FileTag.encoded_by
    hp
  obtain ⟨c4, h4⟩ := mp4_read_album_artist_ok tag.itemListMap FileTag.album_artist ha
  obtain ⟨c5, h5⟩ := mp4_read_picture_ok tag.itemListMap hc
  have hread : mp4tag_read_file_tag E String_toInt tag FileTag
      = .ok (et_file_tag_set_picture
        { FileTag with
          title := some tag.title
          artist := some tag.artist
          album := some tag.album
          disc_number := disc.1
          disc_total := disc.2
          year := if tag.year ≠ 0 then some (decimal tag.year) else FileTag.year
          track := track.1
          track_total := track.2
          genre := some tag.genre
          comment := some tag.comment
          composer := c1
          copyright := c2
          encoded_by := c3
          album_artist := c4 } c5) := by
    simp only [mp4tag_read_file_tag, hdisc, htrack, h1, h2, h3, h4, h5]
  exact ⟨_, disc, track, hread, hdisc, htrack, rfl, rfl, rfl, rfl⟩


theorem read_track_eq (E : Collab) (vc : List Str) (t : File_Tag) (s : Str)
    (hq : vorbis_comment_query vc (ascii "TRACKNUMBER") 0 = some s) (hs : s ≠ []) :
    (read_track E vc t).2.track
      = match if_nonempty (vorbis_comment_query vc (ascii "TRACKTOTAL") 0) with
        | some _ => some s
        | none =>
          match g_utf8_strchr s 47 with
          | some k => some (s.take k)
          | none => some s := by
  simp only [read_track, hq, if_nonempty_some s hs]
  split
  · rfl
  · cases hk : g_utf8_strchr s 47 <;> rfl

theorem query_single_same (tag v : Str) :
    vorbis_comment_query [fulltag tag ++ v] tag 0 = some v := by
  rw [query_eq_values, comment_values_entry_same]
  rfl

theorem query_single_other (T tag v : Str) (h : tags_disjoint T tag = true) :
    vorbis_comment_query [fulltag T ++ v] tag 0 = none := by
  rw [query_eq_values, comment_values_entry_other T tag v h]
  rfl

/-- C28 fails as stated: with the decimal formatter and `toInt` reading as
`atoi`, the MP4 property `TRACKNUMBER` with the value `abc` is decoded to the
track `0` while the Vorbis comment `TRACKNUMBER=abc` is decoded to the track
`abc`; and the MP4 property `DISCNUMBER` with the empty value is decoded to
the disc number `0` while the Vorbis comment `DISCNUMBER=` leaves the disc
number absent. -/
theorem mp4_vorbis_track_counterexample :
    (mp4tag_read_file_tag reference_collab atoi
        (mp4_tag_of_property (ascii "TRACKNUMBER") (ascii "abc")) et_file_tag_new).map (·.track)
        = .ok (some (ascii "0"))
      ∧ (et_add_file_tags_from_vorbis_comments reference_collab [ascii "TRACKNUMBER=abc"]
          et_file_tag_new).track = some (ascii "abc")
      ∧ (mp4tag_read_file_tag reference_collab atoi
          (mp4_tag_of_property (ascii "DISCNUMBER") []) et_file_tag_new).map (·.disc_number)
        = .ok (some (ascii "0"))
      ∧ (et_add_file_tags_from_vorbis_comments reference_collab [ascii "DISCNUMBER="]
          et_file_tag_new).disc_number = none := by
  refine ⟨by rfl, by rfl, by rfl, by rfl⟩

/-- C28, amended: let `toInt` read integers as `atoi` does and let the MP4 tag
meet the precondition of `front ()`. For every non-empty value `v`, the MP4
reader on a first `DISCNUMBER` property `v` returns the disc number and the
disc total that the Vorbis reader gives for the single comment `DISCNUMBER=v`,
and on a first `TRACKNUMBER` property `v` the track total that the Vorbis
reader gives for the single comment `TRACKNUMBER=v`. The MP4 track is the
formatted integer value of `v`, the Vorbis track is the text of `v` before its
first slash; they are the same when formatting gives that text back. -/
theorem mp4_vorbis_slash_parse (E : Collab) (String_toInt : Str → Int) (tag : MP4_Tag)
    (v : Str) (rest : List Str) (hvalid : mp4_fronts_exist tag = true) (hv : v ≠ [])
    (hint : ∀ s, String_toInt s = atoi s) :
    (PropertyMap_find tag.properties (ascii "DISCNUMBER") = some (v :: rest) →
        ∃ t, mp4tag_read_file_tag E String_toInt tag et_file_tag_new = .ok t
          ∧ t.disc_number = (et_add_file_tags_from_vorbis_comments E
              [ascii "DISCNUMBER=" ++ v] et_file_tag_new).disc_number
          ∧ t.disc_total = (et_add_file_tags_from_vorbis_comments E
              [ascii "DISCNUMBER=" ++ v] et_file_tag_new).disc_total)
      ∧ (PropertyMap_find tag.properties (ascii "TRACKNUMBER") = some (v :: rest) →
        ∃ t, mp4tag_read_file_tag E String_toInt tag et_file_tag_new = .ok t
          ∧ t.track_total = (et_add_file_tags_from_vorbis_comments E
              [ascii "TRACKNUMBER=" ++ v] et_file_tag_new).track_total
          ∧ t.track = some (E.et_track_number_to_string (atoi v))
          ∧ (et_add_file_tags_from_vorbis_comments E
              [ascii "TRACKNUMBER=" ++ v] et_file_tag_new).track
            = some (match g_utf8_strchr v 47 with
              | some k => v.take k
              | none => v)
          ∧ (E.et_track_number_to_string (atoi v)
              = (match g_utf8_strchr v 47 with
                | some k => v.take k
                | none => v) →
            t.track = (et_add_file_tags_from_vorbis_comments E
              [ascii "TRACKNUMBER=" ++ v] et_file_tag_new).track)) := by
  obtain ⟨t, disc, track, hread, hdisc, htrack, h1, h2, h3, h4⟩ :=
    mp4_read_numbers E String_toInt tag et_file_tag_new hvalid
  constructor
  · intro hfind
    rw [mp4_read_pair_front _ _ _ _ v rest _ _ hfind] at hdisc
    have hd := (Except.ok.inj hdisc).symm
    have hq : vorbis_comment_query [ascii "DISCNUMBER=" ++ v] (ascii "DISCNUMBER") 0 = some v :=
      query_single_same (ascii "DISCNUMBER") v
    have hq2 : vorbis_comment_query [ascii "DISCNUMBER=" ++ v] (ascii "DISCTOTAL") 0 = none :=
      query_single_other (ascii "DISCNUMBER") (ascii "DISCTOTAL") v (by decide)
    refine ⟨t, hread, ?_, ?_⟩
    · rw [decode_disc_number, read_disc_number_eq E _ _ v hq hv, h1, hd, hint]
    · rw [decode_disc_total, read_disc_total_eq E _ _ v hq hv, hq2, h2, hd]
      simp only [if_nonempty, hint]
  · intro hfind
    rw [mp4_read_pair_front _ _ _ _ v rest _ _ hfind] at htrack
    have hd := (Except.ok.inj htrack).symm
    have hq : vorbis_comment_query [ascii "TRACKNUMBER=" ++ v] (ascii "TRACKNUMBER") 0
        = some v := query_single_same (ascii "TRACKNUMBER") v
    have hq2 : vorbis_comment_query [ascii "TRACKNUMBER=" ++ v] (ascii "TRACKTOTAL") 0 = none :=
      query_single_other (ascii "TRACKNUMBER") (ascii "TRACKTOTAL") v (by decide)
    have hvt : (et_add_file_tags_from_vorbis_comments E
          [ascii "TRACKNUMBER=" ++ v] et_file_tag_new).track
        = some (match g_utf8_strchr v 47 with
          | some k => v.take k
          | none => v) := by
      rw [decode_track, read_track_eq E _ _ v hq hv, hq2]
      simp only [if_nonempty]
      cases g_utf8_strchr v 47 <;> rfl
    have hmt : t.track = some (E.et_track_number_to_string (atoi v)) := by
      rw [h3, hd, hint]
    refine ⟨t, hread, ?_, hmt, hvt, ?_⟩
    · rw [decode_track_total, read_track_total_eq E _ _ v hq hv, hq2, h4, hd]
      simp only [if_nonempty, hint]
    · intro heq
      rw [hmt, hvt, heq]

/-- Witness for the amended C28: the MP4 property `TRACKNUMBER` with the value
`3/12` and the Vorbis comment `TRACKNUMBER=3/12` are both decoded to the track
total `12`, and here to the same track `3`. -/
theorem mp4_vorbis_slash_parse_witness :
    ∃ t, mp4tag_read_file_tag reference_collab atoi
        (mp4_tag_of_property (ascii "TRACKNUMBER") (ascii "3/12")) et_file_tag_new = .ok t
      ∧ t.track_total = some (ascii "12")
      ∧ t.track = (et_add_file_tags_from_vorbis_comments reference_collab
          [ascii "TRACKNUMBER=3/12"] et_file_tag_new).track := by
  obtain ⟨t, h1, h2, _, _, h5⟩ := (mp4_vorbis_slash_parse reference_collab atoi
    (mp4_tag_of_property (ascii "TRACKNUMBER") (ascii "3/12")) (ascii "3/12") []
    (by rfl) (by decide) (fun _ => rfl)).2 (by rfl)
  exact ⟨t, h1, h2.trans (by rfl), h5 (by rfl)⟩


/-! ## Comparing file names -/

/-- C30. Comparator null cases: for all records `a` and `b`,
`et_file_name_detect_difference (a, b)` is `FALSE` when neither has a path
(`value` is `NULL` in both) and `TRUE` when exactly one of them has a path,
whatever the other members hold. -/
theorem file_name_difference_null_cases (a b : File_Name) :
    (a.value = none → b.value = none →
        et_file_name_detect_difference (some a) (some b) = some false)
      ∧ (a.value = none → b.value ≠ none →
        et_file_name_detect_difference (some a) (some b) = some true)
      ∧ (a.value ≠ none → b.value = none →
        et_file_name_detect_difference (some a) (some b) = some true) := by
  refine ⟨?_, ?_, ?_⟩
  · intro ha hb
    simp [et_file_name_detect_difference, ha, hb]
  · intro ha hb
    cases hbv : b.value with
    | none => exact absurd hbv hb
    | some v => simp [et_file_name_detect_difference, ha, hbv]
  · intro ha hb
    cases hav : a.value with
    | none => exact absurd hav ha
    | some v => simp [et_file_name_detect_difference, hav, hb]

/-- Witness for C30: two records without a path do not differ; a record
without a path and the record of `a.ogg` differ, in either order. -/
theorem file_name_difference_null_cases_witness :
    et_file_name_detect_difference (some file_name_empty)
        (some { file_name_empty with key := 7, saved := true }) = some false
      ∧ et_file_name_detect_difference (some file_name_empty) (some file_name_a) = some true
      ∧ et_file_name_detect_difference (some file_name_a) (some file_name_empty) = some true :=
  ⟨(file_name_difference_null_cases file_name_empty
      { file_name_empty with key := 7, saved := true }).1 rfl rfl,
   (file_name_difference_null_cases file_name_empty file_name_a).2.1 rfl (by decide),
   (file_name_difference_null_cases file_name_a file_name_empty).2.2 (by decide) rfl⟩


theorem strcmp_eq_zero_iff : ∀ a b : Str, strcmp a b = 0 ↔ a = b := by
  intro a
  induction a with
  | nil =>
    intro b
    cases b with
    | nil => simp [strcmp]
    | cons y ys => simp [strcmp]
  | cons x xs ih =>
    intro b
    cases b with
    | nil => simp [strcmp]
    | cons y ys =>
      simp only [strcmp]
      by_cases hxy : x = y
      · simp [hxy, ih ys]
      · simp only [hxy, if_false, List.cons.injEq, false_and, iff_false]
        split <;> decide

/-- The comparator on two records that both have a path and a collation
key. -/
theorem detect_difference_keys (a b : File_Name) (k1 k2 : Str)
    (ha : a.value ≠ none) (hb : b.value ≠ none)
    (hk1 : a.value_ck = some k1) (hk2 : b.value_ck = some k2) :
    et_file_name_detect_difference (some a) (some b) = some (decide (k1 ≠ k2)) := by
  cases hav : a.value with
  | none => exact absurd hav ha
  | some va =>
    cases hbv : b.value with
    | none => exact absurd hbv hb
    | some vb =>
      by_cases hk : k1 = k2
      · simp [et_file_name_detect_difference, hav, hbv, hk1, hk2, hk,
          (strcmp_eq_zero_iff k2 k2).2 rfl]
      · have hne : strcmp k1 k2 ≠ 0 := fun h => hk ((strcmp_eq_zero_iff k1 k2).1 h)
        simp [et_file_name_detect_difference, hav, hbv, hk1, hk2, hk, hne]

/-- C31. The comparator decides by collation key only: for all records `a` and
`b` that both have a path, with collation keys `k1` and `k2`,
`et_file_name_detect_difference (a, b)` is `TRUE` if and only if `k1` and `k2`
differ as byte strings, whatever the raw and display forms hold. -/
theorem file_name_difference_by_key (a b : File_Name) (k1 k2 : Str)
    (ha : a.value ≠ none) (hb : b.value ≠ none)
    (hk1 : a.value_ck = some k1) (hk2 : b.value_ck = some k2) :
    (et_file_name_detect_difference (some a) (some b) = some true ↔ k1 ≠ k2)
      ∧ (et_file_name_detect_difference (some a) (some b) = some false ↔ k1 = k2) := by
  rw [detect_difference_keys a b k1 k2 ha hb hk1 hk2]
  by_cases hk : k1 = k2 <;> simp [hk]

/-- Witness for C31: the records of `a.ogg` and `A.ogg`, with different raw and
display forms and the same collation key, do not differ; the records of
`a.ogg` and `b.ogg` differ. -/
theorem file_name_difference_by_key_witness :
    et_file_name_detect_difference (some file_name_a) (some file_name_a_upper) = some false
      ∧ file_name_a.value ≠ file_name_a_upper.value
      ∧ file_name_a.value_utf8 ≠ file_name_a_upper.value_utf8
      ∧ et_file_name_detect_difference (some file_name_a) (some file_name_b) = some true :=
  ⟨(file_name_difference_by_key file_name_a file_name_a_upper (ascii "a.ogg") (ascii "a.ogg")
      (by decide) (by decide) rfl rfl).2.2 rfl,
   by decide, by decide,
   (file_name_difference_by_key file_name_a file_name_b (ascii "a.ogg") (ascii "b.ogg")
      (by decide) (by decide) rfl rfl).1.2 (by decide)⟩

/-- C33. File name construction: on a fresh record,
`ET_Set_Filename_File_Name_Item` with both forms stores them; with the display
form only it stores it and the raw form converted from it; with the raw form
only it stores it and the display form converted from it; in the three cases
the collation key is that of the stored display form; with both arguments
`NULL` the record is unchanged. So a record built this way has a collation
key whenever it has a path, and the comparator on two such records reads no
`NULL` key: it returns a result. -/
theorem file_name_construction (C : FileNameCollab) (key : Nat) :
    (∀ u f : Str,
        ET_Set_Filename_File_Name_Item C (et_file_name_new key) (some u) (some f)
          = { key := key, saved := false, value := some f, value_utf8 := some u,
              value_ck := some (C.g_utf8_collate_key_for_filename u) })
      ∧ (∀ u : Str,
        ET_Set_Filename_File_Name_Item C (et_file_name_new key) (some u) none
          = { key := key, saved := false, value := some (C.filename_from_display u),
              value_utf8 := some u,
              value_ck := some (C.g_utf8_collate_key_for_filename u) })
      ∧ (∀ f : Str,
        ET_Set_Filename_File_Name_Item C (et_file_name_new key) none (some f)
          = { key := key, saved := false, value := some f,
              value_utf8 := some (C.filename_to_display f),
              value_ck := some (C.g_utf8_collate_key_for_filename (C.filename_to_display f)) })
      ∧ ET_Set_Filename_File_Name_Item C (et_file_name_new key) none none = et_file_name_new key
      ∧ (∀ filename_utf8 filename : Option Str,
        (ET_Set_Filename_File_Name_Item C (et_file_name_new key) filename_utf8 filename).value
            ≠ none →
        ∃ u, (ET_Set_Filename_File_Name_Item C (et_file_name_new key) filename_utf8
              filename).value_utf8 = some u
          ∧ (ET_Set_Filename_File_Name_Item C (et_file_name_new key) filename_utf8
              filename).value_ck = some (C.g_utf8_collate_key_for_filename u))
      ∧ (∀ (key2 : Nat) (u1 f1 u2 f2 : Option Str),
        ∃ r, et_file_name_detect_difference
          (some (ET_Set_Filename_File_Name_Item C (et_file_name_new key) u1 f1))
          (some (ET_Set_Filename_File_Name_Item C (et_file_name_new key2) u2 f2)) = some r) := by
  refine ⟨fun _ _ => rfl, fun _ => rfl, fun _ => rfl, rfl, ?_, ?_⟩
  · intro filename_utf8 filename hv
    cases filename_utf8 <;> cases filename
    · exact absurd rfl hv
    · exact ⟨_, rfl, rfl⟩
    · exact ⟨_, rfl, rfl⟩
    · exact ⟨_, rfl, rfl⟩
  · intro key2 u1 f1 u2 f2
    cases u1 <;> cases f1 <;> cases u2 <;> cases f2 <;>
      simp [et_file_name_detect_difference, ET_Set_Filename_File_Name_Item, et_file_name_new] <;>
      exact Decidable.em _

/-- Witness for C33: filled from the raw path `A.ogg` alone, a fresh record
holds that raw path, the same bytes as display path and the key `a.ogg`. -/
theorem file_name_construction_witness :
    ET_Set_Filename_File_Name_Item reference_file_name_collab (et_file_name_new 5) none
        (some (ascii "A.ogg"))
      = { key := 5, saved := false, value := some (ascii "A.ogg"),
          value_utf8 := some (ascii "A.ogg"), value_ck := some (ascii "a.ogg") } :=
  ((file_name_construction reference_file_name_collab 5).2.2.1 (ascii "A.ogg")).trans (by rfl)

/-- C40. A missing record is reported as no difference:
`et_file_name_detect_difference (a, b)` returns `FALSE` whenever `a` or `b` is
`NULL`, also when exactly one of them is: the entry guard returns before the
two checks that would answer `TRUE`. -/
theorem file_name_difference_missing_record (a b : Option File_Name) :
    (a = none → et_file_name_detect_difference a b = some false)
      ∧ (b = none → et_file_name_detect_difference a b = some false) := by
  constructor
  · intro h; subst h; simp [et_file_name_detect_difference]
  · intro h; subst h; simp [et_file_name_detect_difference]

/-- Witness for C40: a `NULL` record and the record of `a.ogg` are reported as
not different, in either order. -/
theorem file_name_difference_missing_record_witness :
    et_file_name_detect_difference none (some file_name_a) = some false
      ∧ et_file_name_detect_difference (some file_name_a) none = some false :=
  ⟨(file_name_difference_missing_record none (some file_name_a)).1 rfl,
   (file_name_difference_missing_record (some file_name_a) none).2 rfl⟩


/-! ## The split policy, field by field -/

theorem foldl_write_tokens_eq (K : Str) : ∀ tokens : List Str,
    tokens.foldl (fun vc s => if s ≠ [] then et_ogg_write_tag vc K s else vc) []
      = (tokens.filter (· ≠ [])).map (K ++ ·) := by
  intro tokens
  induction tokens with
  | nil => rfl
  | cons s rest ih =>
    rw [List.foldl_cons, foldl_write_tokens, ih]
    by_cases hs : s = []
    · simp [hs]
    · simp [hs, et_ogg_write_tag]

theorem set_tag_eq_written_entries (K : Str) (value : Option Str) (split : Bool) :
    et_ogg_set_tag [] K value split = written_entries K value split := by
  cases value with
  | none => rfl
  | some v =>
    cases split with
    | false => rfl
    | true =>
      simp only [et_ogg_set_tag, et_ogg_write_delimited_tag, written_entries, if_true]
      exact foldl_write_tokens_eq K _

/-- C34. Per-field split policy: for every tag and every setting, the written
list is, in order, the entries of each field computed from that field's value
and one flag alone: title, artist, album, genre, comment, composer and
original artist each with its own flag, album artist with the artist flag,
and disc number, disc total, year, track, track total, copyright, URL and
encoded-by with splitting off; the pictures and the extension list follow. -/
theorem per_field_split_policy (E : Collab) (S : OggSettings) (t : File_Tag) :
    ogg_tag_write_file_tag E S t
      = written_entries (ascii "TITLE=") t.title S.ogg_split_title
        ++ written_entries (ascii "ARTIST=") t.artist S.ogg_split_artist
        ++ written_entries (ascii "ALBUMARTIST=") t.album_artist S.ogg_split_artist
        ++ written_entries (ascii "ALBUM=") t.album S.ogg_split_album
        ++ written_entries (ascii "DISCNUMBER=") t.disc_number false
        ++ written_entries (ascii "DISCTOTAL=") t.disc_total false
        ++ written_entries (ascii "DATE=") t.year false
        ++ written_entries (ascii "TRACKNUMBER=") t.track false
        ++ written_entries (ascii "TRACKTOTAL=") t.track_total false
        ++ written_entries (ascii "GENRE=") t.genre S.ogg_split_genre
        ++ written_entries (ascii "DESCRIPTION=") t.comment S.ogg_split_comment
        ++ written_entries (ascii "COMPOSER=") t.composer S.ogg_split_composer
        ++ written_entries (ascii "PERFORMER=") t.orig_artist S.ogg_split_original_artist
        ++ written_entries (ascii "COPYRIGHT=") t.copyright false
        ++ written_entries (ascii "CONTACT=") t.url false
        ++ written_entries (ascii "ENCODED-BY=") t.encoded_by false
        ++ t.picture.filterMap (write_picture E)
        ++ t.other.filterMap id := by
  rw [write_file_tag_eq_fill, fill_comments_entries, List.nil_append]
  simp only [set_tag_eq_written_entries]

/-- Witness for C34: with only the title flag on, the title `a - b` is
written as two entries and the artist `c - d`, the album artist `e - f` and
the copyright `g - h` as one entry each. -/
theorem per_field_split_policy_witness :
    ogg_tag_write_file_tag reference_collab ⟨true, false, false, false, false, false, false⟩
        { et_file_tag_new with title := some (ascii "a - b"), artist := some (ascii "c - d"),
                               album_artist := some (ascii "e - f"),
                               copyright := some (ascii "g - h") }
      = [ascii "TITLE=a", ascii "TITLE=b", ascii "ARTIST=c - d", ascii "ALBUMARTIST=e - f",
         ascii "COPYRIGHT=g - h"] :=
  (per_field_split_policy reference_collab ⟨true, false, false, false, false, false, false⟩
    { et_file_tag_new with title := some (ascii "a - b"), artist := some (ascii "c - d"),
                           album_artist := some (ascii "e - f"),
                           copyright := some (ascii "g - h") }).trans (by rfl)

/-! ## Numbers without their totals, totals without their numbers -/

theorem read_disc_without_number (E : Collab) (vc : List Str) (t : File_Tag)
    (h : if_nonempty (vorbis_comment_query vc (ascii "DISCNUMBER") 0) = none) :
    (read_disc E vc t).2 = t := by
  simp only [read_disc, h]

theorem read_track_without_number (E : Collab) (vc : List Str) (t : File_Tag)
    (h : if_nonempty (vorbis_comment_query vc (ascii "TRACKNUMBER") 0) = none) :
    (read_track E vc t).2 = t := by
  simp only [read_track, h]

/-- C37. A total is decoded only together with its number: for every comment
list whose first `DISCNUMBER` occurrence is missing or empty, the decoder
leaves disc number and disc total as they were (absent in a fresh tag),
whatever `DISCTOTAL` and later `DISCNUMBER` occurrences hold; likewise for
`TRACKNUMBER` with track and track total. So the tag whose only fields are a
disc total and a track total is written as `DISCTOTAL=` and `TRACKTOTAL=`
entries and read back without either total. -/
theorem total_only_with_number (E : Collab) (vc : List Str) (FileTag : File_Tag) :
    ((∀ s, vorbis_comment_query vc (ascii "DISCNUMBER") 0 = some s → s = []) →
        (et_add_file_tags_from_vorbis_comments E vc FileTag).disc_number = FileTag.disc_number
          ∧ (et_add_file_tags_from_vorbis_comments E vc FileTag).disc_total
              = FileTag.disc_total)
      ∧ ((∀ s, vorbis_comment_query vc (ascii "TRACKNUMBER") 0 = some s → s = []) →
        (et_add_file_tags_from_vorbis_comments E vc FileTag).track = FileTag.track
          ∧ (et_add_file_tags_from_vorbis_comments E vc FileTag).track_total
              = FileTag.track_total)
      ∧ (∀ (S : OggSettings) (x y : Str),
        ogg_tag_write_file_tag E S
            { et_file_tag_new with disc_total := some x, track_total := some y }
          = [ascii "DISCTOTAL=" ++ x, ascii "TRACKTOTAL=" ++ y]
        ∧ (et_add_file_tags_from_vorbis_comments E
            (ogg_tag_write_file_tag E S
              { et_file_tag_new with disc_total := some x, track_total := some y })
            et_file_tag_new).disc_total = none
        ∧ (et_add_file_tags_from_vorbis_comments E
            (ogg_tag_write_file_tag E S
              { et_file_tag_new with disc_total := some x, track_total := some y })
            et_file_tag_new).track_total = none) := by
  refine ⟨?_, ?_, ?_⟩
  · intro h
    have hn := if_nonempty_eq_none _ h
    rw [decode_disc_number, decode_disc_total, read_disc_without_number E vc FileTag hn]
    exact ⟨rfl, rfl⟩
  · intro h
    have hn := if_nonempty_eq_none _ h
    rw [decode_track, decode_track_total, read_track_without_number E vc FileTag hn]
    exact ⟨rfl, rfl⟩
  · intro S x y
    have hw : ogg_tag_write_file_tag E S
        { et_file_tag_new with disc_total := some x, track_total := some y }
        = [ascii "DISCTOTAL=" ++ x, ascii "TRACKTOTAL=" ++ y] := by
      cases S
      rfl
    have hq1 : vorbis_comment_query [ascii "DISCTOTAL=" ++ x, ascii "TRACKTOTAL=" ++ y]
        (ascii "DISCNUMBER") 0 = none := by
      rw [query_eq_values]
      have e1 := comment_values_entry_other (ascii "DISCTOTAL") (ascii "DISCNUMBER") x (by decide)
      have e2 := comment_values_entry_other (ascii "TRACKTOTAL") (ascii "DISCNUMBER") y
        (by decide)
      have := comment_values_append [ascii "DISCTOTAL=" ++ x] [ascii "TRACKTOTAL=" ++ y]
        (ascii "DISCNUMBER")
      rw [show [ascii "DISCTOTAL=" ++ x, ascii "TRACKTOTAL=" ++ y]
        = [ascii "DISCTOTAL=" ++ x] ++ [ascii "TRACKTOTAL=" ++ y] from rfl, this]
      rw [show ascii "DISCTOTAL=" = fulltag (ascii "DISCTOTAL") from rfl,
        show ascii "TRACKTOTAL=" = fulltag (ascii "TRACKTOTAL") from rfl, e1, e2]
      rfl
    have hq2 : vorbis_comment_query [ascii "DISCTOTAL=" ++ x, ascii "TRACKTOTAL=" ++ y]
        (ascii "TRACKNUMBER") 0 = none := by
      rw [query_eq_values]
      have e1 := comment_values_entry_other (ascii "DISCTOTAL") (ascii "TRACKNUMBER") x
        (by decide)
      have e2 := comment_values_entry_other (ascii "TRACKTOTAL") (ascii "TRACKNUMBER") y
        (by decide)
      have := comment_values_append [ascii "DISCTOTAL=" ++ x] [ascii "TRACKTOTAL=" ++ y]
        (ascii "TRACKNUMBER")
      rw [show [ascii "DISCTOTAL=" ++ x, ascii "TRACKTOTAL=" ++ y]
        = [ascii "DISCTOTAL=" ++ x] ++ [ascii "TRACKTOTAL=" ++ y] from rfl, this]
      rw [show ascii "DISCTOTAL=" = fulltag (ascii "DISCTOTAL") from rfl,
        show ascii "TRACKTOTAL=" = fulltag (ascii "TRACKTOTAL") from rfl, e1, e2]
      rfl
    refine ⟨hw, ?_, ?_⟩
    · rw [hw, decode_disc_total, read_disc_without_number E _ _ (by rw [hq1]; rfl)]
      rfl
    · rw [hw, decode_track_total, read_track_without_number E _ _ (by rw [hq2]; rfl)]
      rfl

/-- Witness for C37: `DISCNUMBER=` (empty), `DISCTOTAL=2`, `DISCNUMBER=1` is
decoded into a fresh tag without disc number and without disc total. -/
theorem total_only_with_number_witness :
    (et_add_file_tags_from_vorbis_comments reference_collab
        [ascii "DISCNUMBER=", ascii "DISCTOTAL=2", ascii "DISCNUMBER=1"]
        et_file_tag_new).disc_number = none
      ∧ (et_add_file_tags_from_vorbis_comments reference_collab
        [ascii "DISCNUMBER=", ascii "DISCTOTAL=2", ascii "DISCNUMBER=1"]
        et_file_tag_new).disc_total = none :=
  (total_only_with_number reference_collab
    [ascii "DISCNUMBER=", ascii "DISCTOTAL=2", ascii "DISCNUMBER=1"] et_file_tag_new).1
    (by intro s h; cases h; rfl)

/-- C38. The Vorbis track is kept as raw text: for every comment list whose
first `TRACKNUMBER` and first `TRACKTOTAL` are both not empty, the decoded
track is the `TRACKNUMBER` value byte for byte, a slash and what follows it
included, while the disc number decoded from a non-empty first `DISCNUMBER` is
always the formatted `atoi` value of the text. So `TRACKNUMBER=3/12` with
`TRACKTOTAL=15` gives the track `3/12`. -/
theorem vorbis_track_raw_text (E : Collab) (vc : List Str) (FileTag : File_Tag) :
    (∀ v s : Str, vorbis_comment_query vc (ascii "TRACKNUMBER") 0 = some v → v ≠ [] →
        vorbis_comment_query vc (ascii "TRACKTOTAL") 0 = some s → s ≠ [] →
        (et_add_file_tags_from_vorbis_comments E vc FileTag).track = some v)
      ∧ (∀ d : Str, vorbis_comment_query vc (ascii "DISCNUMBER") 0 = some d → d ≠ [] →
        (et_add_file_tags_from_vorbis_comments E vc FileTag).disc_number
          = some (E.et_disc_number_to_string (atoi d)))
      ∧ (et_add_file_tags_from_vorbis_comments E
          [ascii "TRACKNUMBER=3/12", ascii "TRACKTOTAL=15"] FileTag).track
          = some (ascii "3/12") := by
  refine ⟨?_, ?_, ?_⟩
  · intro v s hv hne hs hsne
    rw [decode_track]
    exact (read_track_with_total E vc FileTag v s hv hne hs hsne).1
  · intro d hd hne
    rw [decode_disc_number, read_disc_number_eq E vc FileTag d hd hne]
  · rw [decode_track]
    exact (read_track_with_total E _ FileTag (ascii "3/12") (ascii "15") (by rfl) (by decide)
      (by rfl) (by decide)).1

/-- Witness for C38: `TRACKNUMBER=03/x y` with `TRACKTOTAL=9` gives the track
`03/x y`; `DISCNUMBER=03/x y` gives the disc number `3`. -/
theorem vorbis_track_raw_text_witness :
    (et_add_file_tags_from_vorbis_comments reference_collab
        [ascii "TRACKNUMBER=03/x y", ascii "TRACKTOTAL=9", ascii "DISCNUMBER=03/x y"]
        et_file_tag_new).track = some (ascii "03/x y")
      ∧ (et_add_file_tags_from_vorbis_comments reference_collab
        [ascii "TRACKNUMBER=03/x y", ascii "TRACKTOTAL=9", ascii "DISCNUMBER=03/x y"]
        et_file_tag_new).disc_number = some (ascii "3") :=
  ⟨(vorbis_track_raw_text reference_collab
      [ascii "TRACKNUMBER=03/x y", ascii "TRACKTOTAL=9", ascii "DISCNUMBER=03/x y"]
      et_file_tag_new).1 (ascii "03/x y") (ascii "9") (by rfl) (by decide) (by rfl) (by decide),
   ((vorbis_track_raw_text reference_collab
      [ascii "TRACKNUMBER=03/x y", ascii "TRACKTOTAL=9", ascii "DISCNUMBER=03/x y"]
      et_file_tag_new).2.1 (ascii "03/x y") (by rfl) (by decide)).trans (by rfl)⟩


/-! ## An empty `DESCRIPTION` -/

theorem sanitized_values_cons (E : Collab) (v : Str) (vs : List Str) :
    sanitized_values E (v :: vs)
      = (if E.Try_To_Validate_Utf8_String v ≠ [] then [E.Try_To_Validate_Utf8_String v] else [])
        ++ sanitized_values E vs := by
  simp only [sanitized_values, List.map_cons, List.filter_cons]
  by_cases h : E.Try_To_Validate_Utf8_String v = []
  · simp [h]
  · simp [h]

/-- A choice that is the empty string adds nothing to the sanitized values. -/
theorem sanitized_choices_skip (E : Collab) (hE : E.Try_To_Validate_Utf8_String [] = [])
    (choice : Nat → Option Str) (n : Nat) (hn : choice n = some []) :
    ∀ idx : List Nat,
      sanitized_values E (idx.filterMap choice)
        = sanitized_values E (idx.filterMap fun i => if i = n then none else choice i) := by
  intro idx
  induction idx with
  | nil => rfl
  | cons i rest ih =>
    by_cases hi : i = n
    · subst hi
      simp only [List.filterMap_cons, hn, if_pos rfl]
      rw [sanitized_values_cons, hE, ih]
      simp
    · cases hc : choice i with
      | none => simp only [List.filterMap_cons, hc, if_neg hi, ih]
      | some v =>
        simp only [List.filterMap_cons, hc, if_neg hi]
        rw [sanitized_values_cons, sanitized_values_cons, ih]

theorem decode_comment_fresh (E : Collab) (vc : List Str) :
    (et_add_file_tags_from_vorbis_comments E vc et_file_tag_new).comment
      = join_values (sanitized_values E
          ((List.range (comment_index_end (occurrences vc (ascii "DESCRIPTION"))
              (occurrences vc (ascii "COMMENT")) (occurrences vc (ascii "")))).filterMap
            (comment_choice_at (occurrences vc (ascii "DESCRIPTION"))
              (occurrences vc (ascii "COMMENT")) (occurrences vc (ascii ""))))) := by
  rw [decode_comment, read_comment_general, foldl_join_step,
    comment_values_eq_occurrences vc (ascii "DESCRIPTION") (by decide) (by decide),
    comment_values_eq_occurrences vc (ascii "COMMENT") (by decide) (by decide),
    comment_values_eq_occurrences vc (ascii "") (by decide) (by decide)]
  rfl

/-- C39. An empty `DESCRIPTION` shadows the legacy comments: when the
`DESCRIPTION` occurrence of index `n` is the empty string (and sanitizing the
empty string gives the empty string), the value chosen at index `n` is that
empty string, whatever `COMMENT` and the empty key hold at that index, and the
decoded comment is the join of the sanitized non-empty values chosen at the
other indices. So `DESCRIPTION=`, `COMMENT=x` is decoded to an absent comment
and an empty extension list. -/
theorem empty_description_shadows (E : Collab) (vc : List Str) (n : Nat)
    (hE : E.Try_To_Validate_Utf8_String [] = [])
    (hD : (occurrences vc (ascii "DESCRIPTION"))[n]? = some []) :
    comment_choice_at (occurrences vc (ascii "DESCRIPTION")) (occurrences vc (ascii "COMMENT"))
        (occurrences vc (ascii "")) n = some []
      ∧ (et_add_file_tags_from_vorbis_comments E vc et_file_tag_new).comment
        = join_values (sanitized_values E
            ((List.range (comment_index_end (occurrences vc (ascii "DESCRIPTION"))
                (occurrences vc (ascii "COMMENT")) (occurrences vc (ascii "")))).filterMap
              fun i => if i = n then none
                else comment_choice_at (occurrences vc (ascii "DESCRIPTION"))
                  (occurrences vc (ascii "COMMENT")) (occurrences vc (ascii "")) i))
      ∧ (et_add_file_tags_from_vorbis_comments E [ascii "DESCRIPTION=", ascii "COMMENT=x"]
          et_file_tag_new).comment = none
      ∧ (et_add_file_tags_from_vorbis_comments E [ascii "DESCRIPTION=", ascii "COMMENT=x"]
          et_file_tag_new).other = [] := by
  have hc : comment_choice_at (occurrences vc (ascii "DESCRIPTION"))
      (occurrences vc (ascii "COMMENT")) (occurrences vc (ascii "")) n = some [] := by
    simp [comment_choice_at, hD]
  refine ⟨hc, ?_, ?_, ?_⟩
  · rw [decode_comment_fresh, sanitized_choices_skip E hE _ n hc]
  · rw [decode_comment_fresh,
      sanitized_choices_skip E hE (comment_choice_at
        (occurrences [ascii "DESCRIPTION=", ascii "COMMENT=x"] (ascii "DESCRIPTION"))
        (occurrences [ascii "DESCRIPTION=", ascii "COMMENT=x"] (ascii "COMMENT"))
        (occurrences [ascii "DESCRIPTION=", ascii "COMMENT=x"] (ascii ""))) 0 (by rfl)]
    rfl
  · rw [decode_other]
    rfl

/-- Witness for C39: in `DESCRIPTION=a`, `COMMENT=x`, `DESCRIPTION=`,
`COMMENT=y`, `=z`, `COMMENT=w` the empty `DESCRIPTION` of index 1 shadows
`COMMENT=y`; the comment is `a - w`. -/
theorem empty_description_shadows_witness :
    (et_add_file_tags_from_vorbis_comments reference_collab
        [ascii "DESCRIPTION=a", ascii "COMMENT=x", ascii "DESCRIPTION=", ascii "COMMENT=y",
         ascii "=z", ascii "COMMENT=w"] et_file_tag_new).comment = some (ascii "a - w") :=
  (empty_description_shadows reference_collab
    [ascii "DESCRIPTION=a", ascii "COMMENT=x", ascii "DESCRIPTION=", ascii "COMMENT=y",
     ascii "=z", ascii "COMMENT=w"] 1 (by rfl) (by rfl)).2.1.trans (by rfl)


/-! ## Saving again -/

/-- C36 fails on the code: decoding `DISCNUMBER=1`, `DISCTOTAL=2` and writing
the tag gives `DISCNUMBER=1`, `DISCTOTAL=2`, `DISCTOTAL=2`, the total being
written once from the field and once from the extension list; decoding and
writing that list again gives a list with one more `DISCTOTAL=2`, with every
split setting off or on. -/
theorem resave_grows_disctotal :
    vorbis_normalise reference_collab settings_split_off
        [ascii "DISCNUMBER=1", ascii "DISCTOTAL=2"]
        = [ascii "DISCNUMBER=1", ascii "DISCTOTAL=2", ascii "DISCTOTAL=2"]
      ∧ vorbis_normalise reference_collab settings_split_off
          (vorbis_normalise reference_collab settings_split_off
            [ascii "DISCNUMBER=1", ascii "DISCTOTAL=2"])
        = [ascii "DISCNUMBER=1", ascii "DISCTOTAL=2", ascii "DISCTOTAL=2", ascii "DISCTOTAL=2"]
      ∧ vorbis_normalise reference_collab settings_split_on
          (vorbis_normalise reference_collab settings_split_on
            [ascii "DISCNUMBER=1", ascii "DISCTOTAL=2"])
        ≠ vorbis_normalise reference_collab settings_split_on
            [ascii "DISCNUMBER=1", ascii "DISCTOTAL=2"]
      ∧ (et_add_file_tags_from_vorbis_comments reference_collab
          [ascii "DISCNUMBER=1", ascii "DISCTOTAL=2"] et_file_tag_new).picture = [] := by
  refine ⟨by rfl, by rfl, by decide, by rfl⟩


/-! ## The MIME strings that pass -/

theorem mime_agrees_nil (X : Str) : mime_agrees [] X = true := by
  simp [mime_agrees]

theorem mime_agrees_cons_nil (a : Nat) (rest : List Nat) :
    mime_agrees (a :: rest) [] = decide (a = 0) := by
  simp [mime_agrees]

theorem mime_agrees_cons_cons (a l : Nat) (rest : List Nat) (ls : Str) :
    mime_agrees (a :: rest) (l :: ls) = (decide (a = l) && mime_agrees rest ls) := by
  simp only [mime_agrees, List.length_cons, List.take_succ_cons, List.cons_append,
    List.cons.injEq, Nat.add_le_add_iff_right, Nat.add_lt_add_iff_right]
  by_cases h : a = l
  · simp [h]
  · simp [h]

/-- The comparison `strncmp (&buf[pos], lit, n)` gives `0` exactly when the
`n` bytes agree with the literal. -/
theorem strncmp_at_eq_zero_iff (buf : List Nat) : ∀ (n pos : Nat) (lit : Str),
    (∀ b ∈ lit, b ≠ 0) → pos + n ≤ buf.length →
    (strncmp_at buf pos lit n = .ok 0 ↔ mime_agrees ((buf.drop pos).take n) lit = true) := by
  intro n
  induction n with
  | zero =>
    intro pos lit _ _
    simp [strncmp_at, mime_agrees_nil]
  | succ n ih =>
    intro pos lit hlit hpos
    have hlt : pos < buf.length := by omega
    rw [List.drop_eq_getElem_cons hlt, List.take_succ_cons]
    simp only [strncmp_at]
    rw [getElem?_in_bounds buf pos hlt]
    have hget : buf.getD pos 0 = buf[pos] := by
      simp [List.getD, List.getElem?_eq_getElem hlt]
    rw [hget]
    generalize buf[pos] = a
    cases lit with
    | nil =>
      rw [mime_agrees_cons_nil]
      simp only [peek, List.headD_nil]
      by_cases ha : a = 0
      · simp [ha]
      · have : ((a : Int) - ((0 : Nat) : Int)) ≠ 0 := by omega
        simp [ha, this]
    | cons l ls =>
      rw [mime_agrees_cons_cons]
      have hl : l ≠ 0 := hlit l (List.mem_cons_self _ _)
      have hls : ∀ b ∈ ls, b ≠ 0 := fun b hb => hlit b (List.mem_cons_of_mem _ hb)
      simp only [peek, List.headD_cons, List.tail_cons]
      by_cases ha : a = l
      · subst ha
        simp only [ne_eq, not_true_eq_false, if_false, hl, decide_True, Bool.true_and]
        exact ih (pos + 1) ls hls (by omega)
      · have : ((a : Int) - (l : Int)) ≠ 0 := by omega
        simp [ha, this]


theorem mime_invalid_eq (buf : List Nat) (m : Nat) (h : 8 + m ≤ buf.length) :
    mime_invalid buf 8 m
      = .ok (!(mime_agrees ((buf.drop 8).take m) (ascii "image/")
          || mime_agrees ((buf.drop 8).take m) (ascii "image/png")
          || mime_agrees ((buf.drop 8).take m) (ascii "image/jpeg"))) := by
  obtain ⟨r1, h1⟩ := strncmp_at_in_bounds buf m 8 (ascii "image/") h
  obtain ⟨r2, h2⟩ := strncmp_at_in_bounds buf m 8 (ascii "image/png") h
  obtain ⟨r3, h3⟩ := strncmp_at_in_bounds buf m 8 (ascii "image/jpeg") h
  have e1 := strncmp_at_eq_zero_iff buf m 8 (ascii "image/") (by decide) h
  have e2 := strncmp_at_eq_zero_iff buf m 8 (ascii "image/png") (by decide) h
  have e3 := strncmp_at_eq_zero_iff buf m 8 (ascii "image/jpeg") (by decide) h
  rw [h1] at e1
  rw [h2] at e2
  rw [h3] at e3
  simp only [Except.ok.injEq] at e1 e2 e3
  simp only [mime_invalid, h1, h2, h3, except_ok_bind, except_pure_eq]
  by_cases c1 : r1 = 0
  · have a1 := e1.1 c1
    simp [c1, a1]
  · have a1 : mime_agrees ((buf.drop 8).take m) (ascii "image/") = false := by
      cases hh : mime_agrees ((buf.drop 8).take m) (ascii "image/") with
      | false => rfl
      | true => exact absurd (e1.2 hh) c1
    by_cases c2 : r2 = 0
    · have a2 := e2.1 c2
      simp [c1, c2, a1, a2]
    · have a2 : mime_agrees ((buf.drop 8).take m) (ascii "image/png") = false := by
        cases hh : mime_agrees ((buf.drop 8).take m) (ascii "image/png") with
        | false => rfl
        | true => exact absurd (e2.2 hh) c2
      by_cases c3 : r3 = 0
      · have a3 := e3.1 c3
        simp [c1, c2, c3, a1, a2, a3]
      · have a3 : mime_agrees ((buf.drop 8).take m) (ascii "image/jpeg") = false := by
          cases hh : mime_agrees ((buf.drop 8).take m) (ascii "image/jpeg") with
          | false => rfl
          | true => exact absurd (e3.2 hh) c3
        simp [c1, c2, c3, a1, a2, a3]

/-- The MIME step of the structured decoder, on a block whose MIME length
passes its check: the block goes on exactly when its MIME string is
accepted. -/
theorem mime_step_eq (buf : List Nat) (h32 : 32 ≤ buf.length)
    (hm : be32 buf 4 ≤ buf.length - 32) :
    (if be32 buf 4 > 0 then mime_invalid buf 8 (be32 buf 4) else .ok false)
      = .ok (!mime_accepted ((buf.drop 8).take (be32 buf 4))) := by
  by_cases h0 : be32 buf 4 > 0
  · rw [if_pos h0, mime_invalid_eq buf _ (by omega)]
    have hne : (buf.drop 8).take (be32 buf 4) ≠ [] := by
      intro hnil
      have := congrArg List.length hnil
      simp only [List.length_take, List.length_drop, List.length_nil] at this
      omega
    simp [mime_accepted, hne]
  · have hz : be32 buf 4 = 0 := by omega
    rw [if_neg h0, hz]
    simp [mime_accepted]

theorem mime_agrees_iff (mime : List Nat) (X : Str) :
    mime_agrees mime X = true
      ↔ (mime.length ≤ X.length ∧ mime = X.take mime.length)
        ∨ (X.length < mime.length ∧ mime.take (X.length + 1) = X ++ [0]) := by
  simp only [mime_agrees, Bool.or_eq_true, Bool.and_eq_true, decide_eq_true_eq]

theorem accepted_iff_aux (mime : List Nat) (X1 X2 X3 : Str) :
    (decide (mime = []) || mime_agrees mime X1 || mime_agrees mime X2 || mime_agrees mime X3)
        = true
      ↔ mime.length = 0 ∨ ∃ X ∈ [X1, X2, X3],
          (mime.length ≤ X.length ∧ mime = X.take mime.length)
            ∨ (X.length < mime.length ∧ mime.take (X.length + 1) = X ++ [0]) := by
  simp only [Bool.or_eq_true, decide_eq_true_eq, mime_agrees_iff, List.mem_cons,
    List.mem_singleton, List.not_mem_nil, or_false, exists_eq_or_imp, exists_eq_left,
    List.length_eq_zero, or_assoc]

theorem mime_accepted_iff (mime : List Nat) :
    mime_accepted mime = true ↔
      mime.length = 0 ∨ ∃ X ∈ [ascii "image/", ascii "image/png", ascii "image/jpeg"],
        (mime.length ≤ X.length ∧ mime = X.take mime.length)
          ∨ (X.length < mime.length ∧ mime.take (X.length + 1) = X ++ [0]) :=
  accepted_iff_aux mime _ _ _

/-- C35. The MIME acceptance set of the structured decoder: a block that
passes the type check and the three length checks is decoded to a picture if
and only if its MIME string is empty or agrees with one of `image/`,
`image/png`, `image/jpeg` (it is the first bytes of the literal, or it is
longer and starts with the literal followed by a NUL byte), and is dropped
otherwise. So `i`, `ima` and `image/p` pass, `image/gif` and `image/pngx` do
not. -/
theorem mime_acceptance_set (E : Collab) (buf : List Nat)
    (h32 : 32 ≤ buf.length) (htype : be32 buf 0 < E.ET_PICTURE_TYPE_UNDEFINED)
    (hm : block_mime_length buf ≤ buf.length - 32)
    (hd : block_description_length buf ≤ buf.length - 32 - block_mime_length buf)
    (hn : block_data_length buf
      ≤ buf.length - 32 - block_mime_length buf - block_description_length buf) :
    ((if block_mime_length buf > 0 then mime_invalid buf 8 (block_mime_length buf)
        else .ok false) = .ok false
        ↔ mime_accepted ((buf.drop 8).take (block_mime_length buf)) = true)
      ∧ ((∃ pic, read_metadata_block_picture E buf = .ok (some pic))
        ↔ mime_accepted ((buf.drop 8).take (block_mime_length buf)) = true)
      ∧ (mime_accepted ((buf.drop 8).take (block_mime_length buf)) = false →
        read_metadata_block_picture E buf = .ok none)
      ∧ (∀ mime : List Nat, mime_accepted mime = true ↔
          mime.length = 0 ∨ ∃ X ∈ [ascii "image/", ascii "image/png", ascii "image/jpeg"],
            (mime.length ≤ X.length ∧ mime = X.take mime.length)
              ∨ (X.length < mime.length ∧ mime.take (X.length + 1) = X ++ [0]))
      ∧ mime_accepted (ascii "i") = true ∧ mime_accepted (ascii "ima") = true
      ∧ mime_accepted (ascii "image/p") = true ∧ mime_accepted (ascii "image/gif") = false
      ∧ mime_accepted (ascii "image/pngx") = false := by
  simp only [block_mime_length, block_description_length, block_data_length] at *
  have hstep := mime_step_eq buf h32 hm
  obtain ⟨d, hdd⟩ := g_strndup_at_in_bounds buf (be32 buf (8 + be32 buf 4)) (12 + be32 buf 4)
    (by omega)
  have hread : read_metadata_block_picture E buf
      = if mime_accepted ((buf.drop 8).take (be32 buf 4)) = true then
          .ok (some (et_picture_new (be32 buf 0) d 0 0
            ((buf.drop (32 + be32 buf 4 + be32 buf (8 + be32 buf 4))).take
              (be32 buf (28 + be32 buf 4 + be32 buf (8 + be32 buf 4))))))
        else .ok none := by
    rw [read_block_eq E buf h32, if_neg (by omega), if_neg (by omega), hstep, except_ok_bind]
    cases hacc : mime_accepted ((buf.drop 8).take (be32 buf 4)) with
    | false => simp
    | true =>
      simp only [Bool.not_true, Bool.false_eq_true, if_false, if_true]
      rw [if_neg (by omega), hdd, except_ok_bind, if_neg (by omega)]
  refine ⟨?_, ?_, ?_, ?_, by decide, by decide, by decide, by decide, by decide⟩
  · rw [hstep]
    cases mime_accepted ((buf.drop 8).take (be32 buf 4)) <;> simp
  · rw [hread]
    cases mime_accepted ((buf.drop 8).take (be32 buf 4)) <;> simp
  · intro hacc
    rw [hread, hacc]
    simp
  · intro mime
    exact mime_accepted_iff mime


/-- Witness for C35: the block with the MIME string `i` passes the checks and
is decoded to a picture; the block with the MIME string `image/gif` passes the
type and length checks and is dropped. -/
theorem mime_acceptance_set_witness :
    (∃ pic, read_metadata_block_picture reference_collab block_mime_i = .ok (some pic))
      ∧ read_metadata_block_picture reference_collab block_gif = .ok none :=
  ⟨(mime_acceptance_set reference_collab block_mime_i (by decide) (by decide) (by decide)
      (by decide) (by decide)).2.1.2 (by decide),
   (mime_acceptance_set reference_collab block_gif (by decide) (by decide) (by decide)
      (by decide) (by decide)).2.2.1 (by decide)⟩

end EasyTag
